import Mathlib

/-!
# json-server-controller: admission gate and convergence reconciler

A shallow embedding of `api/v1/jsonserver_webhook.go` and
`internal/controller/jsonserver_controller.go`.

The repository calls three libraries whose behaviour decides what the code
does: Go's `encoding/json` (the `json.Unmarshal` calls), the
controller-runtime client (`Get`, `Create`, `Update`, `Status().Update`,
`controllerutil.CreateOrUpdate`, `controllerutil.SetControllerReference`) and
client-go's `retry.RetryOnConflict`.  Each is modelled below by an executable
definition that follows the library's own source; the definitions that embed
repository code keep the repository's names.

Go strings are modelled by Lean strings.  The JSON scanner of `encoding/json`
works on bytes and treats every byte above `0x7f` alike (it is allowed inside
a string literal and nowhere else), so running it over the code points of a
well-formed UTF-8 text gives the same verdict as running it over the bytes.
-/

set_option exponentiation.threshold 4096
set_option linter.dupNamespace false

namespace JsonServerController

/-! ## `encoding/json`: the scanner (`scanner.go`) -/

namespace Json

/-- The step functions of the scanner (`stateBeginValue`, `stateInString`, ...). -/
inductive Step where
  | beginValue | beginValueOrEmpty | beginStringOrEmpty | beginString
  | endValue | endTop
  | inString | inStringEsc | inStringEscU | inStringEscU1 | inStringEscU12 | inStringEscU123
  | neg | s1 | s0 | dot | dot0 | e | eSign | e0
  | t | tr | tru | f | fa | fal | fals | n | nu | nul
  | error
  deriving DecidableEq, Repr

/-- The scanner's parse states (`parseObjectKey`, `parseObjectValue`, `parseArrayValue`). -/
inductive ParseState where
  | objectKey | objectValue | arrayValue
  deriving DecidableEq, Repr

/-- The op codes returned by a step function. -/
inductive Scan where
  | scanContinue | scanBeginLiteral | scanBeginObject | scanObjectKey | scanObjectValue
  | scanEndObject | scanBeginArray | scanArrayValue | scanEndArray | scanSkipSpace
  | scanEnd | scanError
  deriving DecidableEq, Repr

/-- The scanner: `step`, `endTop`, the `parseState` stack (innermost first) and
whether `err` is set. -/
structure Scanner where
  step : Step
  endTop : Bool
  parseState : List ParseState
  err : Bool
  deriving DecidableEq, Repr

/-- The limit on nesting depth, `maxNestingDepth`. -/
def maxNestingDepth : Nat := 10000

/-- The scanner after `reset`. -/
def Scanner.reset : Scanner :=
  { step := .beginValue, endTop := false, parseState := [], err := false }

/-- The method `scanner.error`: record the error and make every later step fail. -/
def Scanner.error (s : Scanner) : Scan × Scanner :=
  (.scanError, { s with step := .error, err := true })

/-- The function `isSpace`. -/
def isSpace (c : Char) : Bool :=
  c = ' ' || c = '\t' || c = '\r' || c = '\n'

/-- The test `'0' <= c && c <= '9'`. -/
def isDigit (c : Char) : Bool :=
  '0'.toNat ≤ c.toNat && c.toNat ≤ '9'.toNat

/-- The test `'1' <= c && c <= '9'`. -/
def isDigit19 (c : Char) : Bool :=
  '1'.toNat ≤ c.toNat && c.toNat ≤ '9'.toNat

/-- The hexadecimal-digit test of the `\u` escape states. -/
def isHex (c : Char) : Bool :=
  isDigit c || ('a'.toNat ≤ c.toNat && c.toNat ≤ 'f'.toNat)
    || ('A'.toNat ≤ c.toNat && c.toNat ≤ 'F'.toNat)

/-- The method `pushParseState`. -/
def Scanner.pushParseState (s : Scanner) (newParseState : ParseState) (successState : Scan) :
    Scan × Scanner :=
  let s1 := { s with parseState := newParseState :: s.parseState }
  if s1.parseState.length ≤ maxNestingDepth then (successState, s1) else s1.error

/-- The method `popParseState`. -/
def Scanner.popParseState (s : Scanner) : Scanner :=
  match s.parseState.tail with
  | [] => { s with parseState := [], step := .endTop, endTop := true }
  | ps => { s with parseState := ps, step := .endValue }

/-- The function `stateEndTop`: a non-space byte records an error, and the op
code is `scanEnd` either way. -/
def stateEndTop (s : Scanner) (c : Char) : Scan × Scanner :=
  if !isSpace c then (.scanEnd, s.error.2) else (.scanEnd, s)

/-- The function `stateEndValue`. -/
def stateEndValue (s : Scanner) (c : Char) : Scan × Scanner :=
  match s.parseState with
  | [] => stateEndTop { s with step := .endTop, endTop := true } c
  | ps :: rest =>
    if isSpace c then (.scanSkipSpace, { s with step := .endValue })
    else
      match ps with
      | .objectKey =>
        if c = ':' then
          (.scanObjectKey, { s with parseState := .objectValue :: rest, step := .beginValue })
        else s.error
      | .objectValue =>
        if c = ',' then
          (.scanObjectValue, { s with parseState := .objectKey :: rest, step := .beginString })
        else if c = '}' then (.scanEndObject, s.popParseState)
        else s.error
      | .arrayValue =>
        if c = ',' then (.scanArrayValue, { s with step := .beginValue })
        else if c = ']' then (.scanEndArray, s.popParseState)
        else s.error

/-- The function `stateBeginValue`. -/
def stateBeginValue (s : Scanner) (c : Char) : Scan × Scanner :=
  if isSpace c then (.scanSkipSpace, s)
  else if c = '{' then
    Scanner.pushParseState { s with step := .beginStringOrEmpty } .objectKey .scanBeginObject
  else if c = '[' then
    Scanner.pushParseState { s with step := .beginValueOrEmpty } .arrayValue .scanBeginArray
  else if c = '"' then (.scanBeginLiteral, { s with step := .inString })
  else if c = '-' then (.scanBeginLiteral, { s with step := .neg })
  else if c = '0' then (.scanBeginLiteral, { s with step := .s0 })
  else if c = 't' then (.scanBeginLiteral, { s with step := .t })
  else if c = 'f' then (.scanBeginLiteral, { s with step := .f })
  else if c = 'n' then (.scanBeginLiteral, { s with step := .n })
  else if isDigit19 c then (.scanBeginLiteral, { s with step := .s1 })
  else s.error

/-- The function `stateBeginString`. -/
def stateBeginString (s : Scanner) (c : Char) : Scan × Scanner :=
  if isSpace c then (.scanSkipSpace, s)
  else if c = '"' then (.scanBeginLiteral, { s with step := .inString })
  else s.error

/-- One literal-spelling state (`stateT`, `stateTr`, ...): the byte `want` moves on
to `next`, anything else is an error. -/
def stateLit (s : Scanner) (c want : Char) (next : Step) : Scan × Scanner :=
  if c = want then (.scanContinue, { s with step := next }) else s.error

/-- One hexadecimal digit of a `\u` escape. -/
def stateHex (s : Scanner) (c : Char) (next : Step) : Scan × Scanner :=
  if isHex c then (.scanContinue, { s with step := next }) else s.error

/-- The function `state0`. -/
def state0 (s : Scanner) (c : Char) : Scan × Scanner :=
  if c = '.' then (.scanContinue, { s with step := .dot })
  else if c = 'e' || c = 'E' then (.scanContinue, { s with step := .e })
  else stateEndValue s c

/-- The function `stateESign`. -/
def stateESign (s : Scanner) (c : Char) : Scan × Scanner :=
  if isDigit c then (.scanContinue, { s with step := .e0 }) else s.error

/-- Dispatch on the current step function: `s.step(s, c)`. -/
def Scanner.run (s : Scanner) (c : Char) : Scan × Scanner :=
  match s.step with
  | .beginValue => stateBeginValue s c
  | .beginValueOrEmpty =>
    if isSpace c then (.scanSkipSpace, s)
    else if c = ']' then stateEndValue s c
    else stateBeginValue s c
  | .beginStringOrEmpty =>
    if isSpace c then (.scanSkipSpace, s)
    else if c = '}' then
      stateEndValue { s with parseState := .objectValue :: s.parseState.tail } c
    else stateBeginString s c
  | .beginString => stateBeginString s c
  | .endValue => stateEndValue s c
  | .endTop => stateEndTop s c
  | .inString =>
    if c = '"' then (.scanContinue, { s with step := .endValue })
    else if c = '\\' then (.scanContinue, { s with step := .inStringEsc })
    else if c.toNat < 0x20 then s.error
    else (.scanContinue, s)
  | .inStringEsc =>
    if c = 'b' || c = 'f' || c = 'n' || c = 'r' || c = 't' || c = '\\' || c = '/' || c = '"' then
      (.scanContinue, { s with step := .inString })
    else if c = 'u' then (.scanContinue, { s with step := .inStringEscU })
    else s.error
  | .inStringEscU => stateHex s c .inStringEscU1
  | .inStringEscU1 => stateHex s c .inStringEscU12
  | .inStringEscU12 => stateHex s c .inStringEscU123
  | .inStringEscU123 => stateHex s c .inString
  | .neg =>
    if c = '0' then (.scanContinue, { s with step := .s0 })
    else if isDigit19 c then (.scanContinue, { s with step := .s1 })
    else s.error
  | .s1 => if isDigit c then (.scanContinue, { s with step := .s1 }) else state0 s c
  | .s0 => state0 s c
  | .dot => if isDigit c then (.scanContinue, { s with step := .dot0 }) else s.error
  | .dot0 =>
    if isDigit c then (.scanContinue, s)
    else if c = 'e' || c = 'E' then (.scanContinue, { s with step := .e })
    else stateEndValue s c
  | .e =>
    if c = '+' || c = '-' then (.scanContinue, { s with step := .eSign }) else stateESign s c
  | .eSign => stateESign s c
  | .e0 => if isDigit c then (.scanContinue, s) else stateEndValue s c
  | .t => stateLit s c 'r' .tr
  | .tr => stateLit s c 'u' .tru
  | .tru => stateLit s c 'e' .endValue
  | .f => stateLit s c 'a' .fa
  | .fa => stateLit s c 'l' .fal
  | .fal => stateLit s c 's' .fals
  | .fals => stateLit s c 'e' .endValue
  | .n => stateLit s c 'u' .nu
  | .nu => stateLit s c 'l' .nul
  | .nul => stateLit s c 'l' .endValue
  | .error => (.scanError, s)

/-- The method `eof`: true when the input ends in a complete top-level value
(the Go method returns `scanEnd`), false when it returns `scanError`. -/
def Scanner.eof (s : Scanner) : Bool :=
  if s.err then false
  else if s.endTop then true
  else (s.run ' ').2.endTop

/-- The loop of `checkValid`: feed the bytes one by one, stop at the first
`scanError`, finish with `eof`. -/
def checkLoop (s : Scanner) : List Char → Bool
  | [] => s.eof
  | c :: cs =>
    match s.run c with
    | (.scanError, _) => false
    | (_, s1) => checkLoop s1 cs

/-- The function `checkValid`: true when `data` is syntactically valid JSON
(the Go function returns `nil`). -/
def checkValid (data : String) : Bool :=
  checkLoop Scanner.reset data.toList

/-! ## `encoding/json`: decoding (`decode.go`)

`json.Unmarshal` first runs `checkValid` and returns its syntax error, if any.
It then decodes the value into the target.  The two targets used by the
repository are `interface{}` and `map[string]interface{}`; for them decoding
fails in exactly two ways:

* a number that is stored into an `interface{}` is converted by
  `convertNumber`, which calls `strconv.ParseFloat(s, 64)` and turns its
  range error into an `UnmarshalTypeError`;
* a top-level array, string, number or boolean cannot be stored into a map
  (`UnmarshalTypeError`), whereas a top-level `null` leaves the map untouched
  and is no error.
-/

/-- The position of the lexer that collects the number literals of a text. -/
inductive LexMode where
  | out
  | num (lit : List Char)
  | str
  | esc
  deriving DecidableEq, Repr

/-- A byte that can continue a number literal. -/
def isNumChar (c : Char) : Bool :=
  isDigit c || c = '-' || c = '+' || c = '.' || c = 'e' || c = 'E'

/-- The number literals of a syntactically valid JSON text, in order: outside
string literals, a literal starts at `-` or a digit and runs as long as the
bytes can continue a number. -/
def numberLiterals : LexMode → List Char → List (List Char)
  | .out, [] => []
  | .num lit, [] => [lit.reverse]
  | .str, [] => []
  | .esc, [] => []
  | .out, c :: cs =>
    if c = '"' then numberLiterals .str cs
    else if c = '-' || isDigit c then numberLiterals (.num [c]) cs
    else numberLiterals .out cs
  | .num lit, c :: cs =>
    if isNumChar c then numberLiterals (.num (c :: lit)) cs
    else lit.reverse :: (if c = '"' then numberLiterals .str cs else numberLiterals .out cs)
  | .str, c :: cs =>
    if c = '\\' then numberLiterals .esc cs
    else if c = '"' then numberLiterals .out cs
    else numberLiterals .str cs
  | .esc, _ :: cs => numberLiterals .str cs

/-- The value of a run of decimal digits. -/
def digitsValue (ds : List Char) : Nat :=
  ds.foldl (fun a c => 10 * a + (c.toNat - '0'.toNat)) 0

/-- The least magnitude that `strconv.ParseFloat(s, 64)` rounds to infinity:
the midpoint between the largest finite `float64`, `2^1024 - 2^971`, and `2^1024`. -/
def float64Limit : Nat := 2 ^ 1024 - 2 ^ 970

/-- The type `decimal` of `strconv`: the digits kept (most significant first),
the position of the decimal point, and whether a nonzero digit was dropped.
Its value is `0.d * 10 ^ dp`. -/
structure Decimal where
  d : List Char := []
  dp : Int := 0
  trunc : Bool := false
  deriving DecidableEq, Repr

/-- The size of the digit buffer of `decimal`. -/
def decimalDigits : Nat := 800

/-- One digit in the loop of `decimal.set`: a leading zero only moves the
decimal point, a digit is kept while the buffer has room, and a nonzero digit
that finds the buffer full sets `trunc`. -/
def Decimal.addDigit (b : Decimal) (c : Char) : Decimal :=
  if c = '0' ∧ b.d = [] then { b with dp := b.dp - 1 }
  else if b.d.length < decimalDigits then { b with d := b.d ++ [c] }
  else if c ≠ '0' then { b with trunc := true }
  else b

/-- The digit loop of `decimal.set`: the decimal, whether a dot was seen, and
the text from the first byte that is neither a digit nor the first dot.  At the
dot the decimal point is put after the digits kept so far. -/
def setDigits (b : Decimal) (sawdot : Bool) : List Char → Decimal × Bool × List Char
  | [] => (b, sawdot, [])
  | c :: cs =>
    if c = '.' then
      if sawdot then (b, sawdot, c :: cs)
      else setDigits { b with dp := b.d.length } true cs
    else if isDigit c then setDigits (b.addDigit c) sawdot cs
    else (b, sawdot, c :: cs)

/-- The exponent loop of `decimal.set` (and of `readFloat`): a digit is added
to the exponent only while the exponent is below 10000. -/
def setExponent (e : Nat) : List Char → Nat
  | [] => e
  | c :: cs =>
    if isDigit c then
      setExponent (if e < 10000 then e * 10 + (c.toNat - '0'.toNat) else e) cs
    else e

/-- The sign of an exponent, as a factor, and the text after it. -/
def exponentSign : List Char → Int × List Char
  | [] => (1, [])
  | c :: cs => if c = '+' then (1, cs) else if c = '-' then (-1, cs) else (1, c :: cs)

/-- The optional sign at the start of `decimal.set`. -/
def stripSign : List Char → List Char
  | [] => []
  | c :: cs => if c = '-' ∨ c = '+' then cs else c :: cs

/-- The end of `decimal.set`: an exponent, if one follows, moves the decimal
point. -/
def movePoint (b : Decimal) : List Char → Decimal
  | [] => b
  | c :: cs =>
    if c = 'e' ∨ c = 'E' then
      { b with dp := b.dp + (exponentSign cs).1 * (setExponent 0 (exponentSign cs).2 : Nat) }
    else b

/-- The method `decimal.set` on a number literal that the scanner has accepted:
skip the sign, run the digit loop, put the decimal point after the digits kept
when no dot was seen, and move it by the exponent. -/
def decimalSet (lit : List Char) : Decimal :=
  let r := setDigits {} false (stripSign lit)
  movePoint (if r.2.1 then r.1 else { r.1 with dp := r.1.d.length }) r.2.2

/-- Whether `floatBits` reports an overflow for a decimal: its value
`0.d * 10 ^ dp`, rounded to the nearest `float64`, is not finite, that is, the
value is at least `float64Limit`.  The comparison is exact. -/
def Decimal.overflows (b : Decimal) : Bool :=
  if (b.d.length : Int) ≤ b.dp then
    decide (float64Limit ≤ digitsValue b.d * 10 ^ (b.dp - b.d.length).toNat)
  else
    decide (float64Limit * 10 ^ ((b.d.length : Int) - b.dp).toNat ≤ digitsValue b.d)

/-- Whether `strconv.ParseFloat(lit, 64)` reports a range error for the JSON
number literal `lit`.  The fast paths of `atof64` (`atof64exact`,
`eiselLemire64`) return no error and give up on every input whose value is out
of range, so the error is the overflow that the slow path finds on the decimal
read by `decimal.set`. -/
def parseFloatRangeError (lit : List Char) : Bool :=
  (decimalSet lit).overflows

/-- Whether every number literal of the text converts to a `float64` without
a range error. -/
def numbersFit (data : String) : Bool :=
  (numberLiterals .out data.toList).all (fun lit => !parseFloatRangeError lit)

/-- The kind of a JSON value, told by its first byte. -/
inductive Kind where
  | object | array | string | number | bool | null
  deriving DecidableEq, Repr

/-- The kind of the top-level value of a text: the decoder skips leading
space and dispatches on the first byte of the value. -/
def topKind (data : String) : Option Kind :=
  match data.toList.dropWhile isSpace with
  | [] => none
  | c :: _ =>
    some (if c = '{' then .object
      else if c = '[' then .array
      else if c = '"' then .string
      else if c = 't' || c = 'f' then .bool
      else if c = 'n' then .null
      else .number)

/-- The errors of `json.Unmarshal`. -/
inductive UnmarshalError where
  | syntaxError
  | typeError
  | rangeError
  deriving DecidableEq, Repr

/-- The two target types the repository decodes into. -/
inductive Target where
  | iface
  | mapStringIface
  deriving DecidableEq, Repr

/-- The function `json.Unmarshal(data, &v)` for `v` of the given target type,
as far as its error goes: `none` is Go's `nil`. -/
def Unmarshal (data : String) : Target → Option UnmarshalError
  | .iface =>
    if !checkValid data then some .syntaxError
    else if !numbersFit data then some .rangeError
    else none
  | .mapStringIface =>
    if !checkValid data then some .syntaxError
    else
      match topKind data with
      | some .object => if !numbersFit data then some .rangeError else none
      | some .null => none
      | _ => some .typeError

/-- The function `json.Valid`. -/
def Valid (data : String) : Bool := checkValid data

/-- A text is a JSON object when it is valid JSON and its top-level value is
an object. -/
def IsObject (data : String) : Prop :=
  Valid data = true ∧ topKind data = some .object

instance (data : String) : Decidable (IsObject data) := by
  unfold IsObject; infer_instance

/-! ## JSON texts by the grammar of RFC 8259

The claims speak of texts that are "a JSON object".  The definitions of this
section say what that means by the grammar of RFC 8259, without the scanner:
they are the reading of the claims, not a translation of code. -/

/-- A number of the grammar: an optional minus sign, the integer digits, the
fraction digits (none when there is no fraction), and the exponent: its
marker, its sign (`none`, `some false` for `+`, `some true` for `-`) and its
digits (none when there is no exponent). -/
structure NumberLit where
  neg : Bool := false
  int : List Char := ['0']
  frac : List Char := []
  expMarker : Char := 'e'
  expSign : Option Bool := none
  expDigits : List Char := []
  deriving DecidableEq, Repr

/-- The text of an exponent sign. -/
def signText : Option Bool → List Char
  | none => []
  | some false => ['+']
  | some true => ['-']

/-- The text of a number. -/
def NumberLit.render (n : NumberLit) : List Char :=
  (if n.neg then ['-'] else [])
    ++ (n.int
      ++ ((if n.frac = [] then [] else '.' :: n.frac)
        ++ (if n.expDigits = [] then [] else n.expMarker :: (signText n.expSign ++ n.expDigits))))

/-- The grammar of a number: `int` is `0` or a run of digits that starts with
`1` to `9`; fraction and exponent hold digits only; the marker is `e` or `E`. -/
def NumberLit.wellFormed (n : NumberLit) : Bool :=
  (match n.int with
    | [] => false
    | c :: cs => (c = '0' && cs.isEmpty) || (isDigit19 c && cs.all isDigit))
    && n.frac.all isDigit
    && (n.expMarker = 'e' || n.expMarker = 'E')
    && n.expDigits.all isDigit

/-- A number that `strconv.ParseFloat` certainly converts to a finite
`float64`: at most 800 digits before the exponent, at most four exponent
digits, and a magnitude `digits * 10 ^ (exponent - fraction length)` below
`float64Limit`. -/
def NumberLit.fits (n : NumberLit) : Bool :=
  decide ((n.int ++ n.frac).length ≤ 800)
    && decide (n.expDigits.length ≤ 4)
    && (if n.expSign = some true then
          decide (digitsValue (n.int ++ n.frac)
            < float64Limit * 10 ^ (digitsValue n.expDigits + n.frac.length))
        else if n.frac.length ≤ digitsValue n.expDigits then
          decide (digitsValue (n.int ++ n.frac) * 10 ^ (digitsValue n.expDigits - n.frac.length)
            < float64Limit)
        else
          decide (digitsValue (n.int ++ n.frac)
            < float64Limit * 10 ^ (n.frac.length - digitsValue n.expDigits)))

/-- The characters between the quotes of a string of the grammar: unescaped
characters from U+0020 on other than the quote and the backslash, the
two-character escapes, and `\u` with four hexadecimal digits. -/
inductive StringBody : List Char → Prop where
  | nil : StringBody []
  | plain (c : Char) (b : List Char) (hc : 0x20 ≤ c.toNat) (hq : c ≠ '"') (hb : c ≠ '\\')
      (h : StringBody b) : StringBody (c :: b)
  | escape (c : Char) (b : List Char)
      (hc : c = '"' ∨ c = '\\' ∨ c = '/' ∨ c = 'b' ∨ c = 'f' ∨ c = 'n' ∨ c = 'r' ∨ c = 't')
      (h : StringBody b) : StringBody ('\\' :: c :: b)
  | unicode (h1 h2 h3 h4 : Char) (b : List Char)
      (hx : isHex h1 = true ∧ isHex h2 = true ∧ isHex h3 = true ∧ isHex h4 = true)
      (h : StringBody b) : StringBody ('\\' :: 'u' :: h1 :: h2 :: h3 :: h4 :: b)

/-- The three kinds of text of the grammar: a value, the elements of an array
(what stands between its brackets) and the members of an object (what stands
between its braces). -/
inductive Part where
  | value | elements | members
  deriving DecidableEq, Repr

/-- The grammar: `Gram P part d cs` says that `cs` is a text of kind `part`,
nested at most `d` deep, every number of which satisfies `P`.  The lists `w`,
`w1`, ... are insignificant whitespace. -/
inductive Gram (P : NumberLit → Prop) : Part → Nat → List Char → Prop where
  | null (d : Nat) : Gram P .value d ['n', 'u', 'l', 'l']
  | true_ (d : Nat) : Gram P .value d ['t', 'r', 'u', 'e']
  | false_ (d : Nat) : Gram P .value d ['f', 'a', 'l', 's', 'e']
  | number (d : Nat) (n : NumberLit) (hw : n.wellFormed = true) (hp : P n) :
      Gram P .value d n.render
  | string (d : Nat) (b : List Char) (hb : StringBody b) : Gram P .value d ('"' :: (b ++ ['"']))
  | emptyArray (d : Nat) (w : List Char) (hw : w.all isSpace = true) :
      Gram P .value (d + 1) ('[' :: (w ++ [']']))
  | array (d : Nat) (es : List Char) (h : Gram P .elements d es) :
      Gram P .value (d + 1) ('[' :: (es ++ [']']))
  | emptyObject (d : Nat) (w : List Char) (hw : w.all isSpace = true) :
      Gram P .value (d + 1) ('{' :: (w ++ ['}']))
  | object (d : Nat) (ms : List Char) (h : Gram P .members d ms) :
      Gram P .value (d + 1) ('{' :: (ms ++ ['}']))
  | element (d : Nat) (w1 v w2 : List Char) (h1 : w1.all isSpace = true)
      (h2 : w2.all isSpace = true) (hv : Gram P .value d v) :
      Gram P .elements d (w1 ++ (v ++ w2))
  | elementCons (d : Nat) (w1 v w2 es : List Char) (h1 : w1.all isSpace = true)
      (h2 : w2.all isSpace = true) (hv : Gram P .value d v) (hes : Gram P .elements d es) :
      Gram P .elements d (w1 ++ (v ++ (w2 ++ ',' :: es)))
  | member (d : Nat) (w1 k w2 w3 v w4 : List Char) (h1 : w1.all isSpace = true)
      (h2 : w2.all isSpace = true) (h3 : w3.all isSpace = true) (h4 : w4.all isSpace = true)
      (hk : StringBody k) (hv : Gram P .value d v) :
      Gram P .members d (w1 ++ ('"' :: (k ++ ('"' :: (w2 ++ (':' :: (w3 ++ (v ++ w4))))))))
  | memberCons (d : Nat) (w1 k w2 w3 v w4 ms : List Char) (h1 : w1.all isSpace = true)
      (h2 : w2.all isSpace = true) (h3 : w3.all isSpace = true) (h4 : w4.all isSpace = true)
      (hk : StringBody k) (hv : Gram P .value d v) (hms : Gram P .members d ms) :
      Gram P .members d
        (w1 ++ ('"' :: (k ++ ('"' :: (w2 ++ (':' :: (w3 ++ (v ++ (w4 ++ ',' :: ms)))))))))

/-- A JSON object of the grammar, nested at most `d` deep, every number of
which satisfies `P`: an object between optional whitespace. -/
def ObjectText (P : NumberLit → Prop) (d : Nat) (text : String) : Prop :=
  ∃ w1 v w2 : List Char, w1.all isSpace = true ∧ w2.all isSpace = true
    ∧ Gram P .value d v ∧ v.head? = some '{' ∧ text.toList = w1 ++ (v ++ w2)

/-! ## The scanner on texts of the grammar

The definitions of this section serve the proofs that the scanner accepts the
texts of the grammar. -/

/-- The scanner in step `step` with parse-state stack `st`, no error recorded. -/
def Scanner.inState (step : Step) (st : List ParseState) : Scanner :=
  { step := step, endTop := false, parseState := st, err := false }

/-- What may follow a number: the end of the text, or a byte that cannot
continue a number literal. -/
def Follow (rest : List Char) : Prop :=
  ∀ c, rest.head? = some c → isNumChar c = false

/-- What the scanner does on a text of the grammar, by kind of text: a value is
consumed from a begin-value state to the end-value state; elements and
members are consumed together with the closing bracket or brace. -/
def Scans : Part → Nat → List Char → Prop
  | .value, d, cs => ∀ (st : List ParseState) (rest : List Char) (b : Step),
      b = .beginValue ∨ b = .beginValueOrEmpty → st.length + d ≤ maxNestingDepth → Follow rest →
      checkLoop (Scanner.inState b st) (cs ++ rest) = checkLoop (Scanner.inState .endValue st) rest
  | .elements, d, cs => ∀ (st : List ParseState) (rest : List Char) (b : Step),
      b = .beginValue ∨ b = .beginValueOrEmpty → st.length + 1 + d ≤ maxNestingDepth →
      checkLoop (Scanner.inState b (.arrayValue :: st)) (cs ++ ']' :: rest)
        = checkLoop (Scanner.inState .endValue st) rest
  | .members, d, cs => ∀ (st : List ParseState) (rest : List Char) (b : Step),
      b = .beginString ∨ b = .beginStringOrEmpty → st.length + 1 + d ≤ maxNestingDepth →
      checkLoop (Scanner.inState b (.objectKey :: st)) (cs ++ '}' :: rest)
        = checkLoop (Scanner.inState .endValue st) rest

end Json

/-! ## The resource schema (`api/v1/jsonserver_types.go`) and the child types -/

/-- A Go `map[string]string`, as an association list with one entry per key. -/
abbrev StrMap := List (String × String)

/-- The assignment `m[k] = v`: replace the entry of `k` in place, or add one. -/
def StrMap.set : StrMap → String → String → StrMap
  | [], k, v => [(k, v)]
  | (k1, v1) :: rest, k, v =>
    if k1 = k then (k, v) :: rest else (k1, v1) :: StrMap.set rest k v

/-- The map lookup `m[k]`. -/
def StrMap.get : StrMap → String → Option String
  | [], _ => none
  | (k1, v1) :: rest, k => if k1 = k then some v1 else StrMap.get rest k

/-- The type `metav1.OwnerReference`. -/
structure OwnerReference where
  APIVersion : String := ""
  Kind : String := ""
  Name : String := ""
  UID : String := ""
  Controller : Option Bool := none
  BlockOwnerDeletion : Option Bool := none
  deriving DecidableEq, Repr

/-- The fields of `metav1.ObjectMeta` that the code reads or writes. -/
structure ObjectMeta where
  Name : String := ""
  Namespace : String := ""
  UID : String := ""
  Labels : StrMap := []
  OwnerReferences : List OwnerReference := []
  deriving DecidableEq, Repr

/-- The type `JsonServerSpec`; `Replicas` is a `*int32`, `none` being the nil pointer. -/
structure JsonServerSpec where
  Replicas : Option Int := none
  JsonConfig : String := ""
  Image : String := ""
  deriving DecidableEq, Repr

/-- The type `JsonServerStatus`. -/
structure JsonServerStatus where
  State : String := ""
  Message : String := ""
  Replicas : Int := 0
  Selector : String := ""
  deriving DecidableEq, Repr

/-- The type `JsonServer`: the embedded object metadata, the spec and the status. -/
structure JsonServer extends ObjectMeta where
  Spec : JsonServerSpec := {}
  Status : JsonServerStatus := {}
  deriving DecidableEq, Repr

namespace v1

/-! ## The admission gate (`api/v1/jsonserver_webhook.go`) -/

/-- The function `strings.HasPrefix`. -/
def HasPrefix (s p : String) : Bool :=
  p.toList.isPrefixOf s.toList

/-- The method `Default`: set `spec.replicas` to 1 when it is nil. -/
def Default (r : JsonServer) : JsonServer :=
  if r.Spec.Replicas = none then
    { r with Spec := { r.Spec with Replicas := some 1 } }
  else r

/-- The method `ValidateCreate`; the result is the returned `error`, `none` being `nil`. -/
def ValidateCreate (r : JsonServer) : Option String :=
  if !HasPrefix r.Name "app-" then
    some "name must start with app-"
  else if (Json.Unmarshal r.Spec.JsonConfig .mapStringIface).isSome then
    some "Error: spec.jsonConfig is not a valid json object"
  else none

/-- The method `ValidateUpdate`; `old` is the stored object, which the body never reads. -/
def ValidateUpdate (r : JsonServer) (_old : JsonServer) : Option String :=
  if !HasPrefix r.Name "app-" then
    some "name must start with app-"
  else if (Json.Unmarshal r.Spec.JsonConfig .mapStringIface).isSome then
    some "Error: spec.jsonConfig is not a valid json object"
  else none

/-- The method `ValidateDelete`. -/
def ValidateDelete (_r : JsonServer) : Option String := none

end v1

namespace controller

/-! ## The child resource types, as far as the reconciler fills them in -/

/-- The type `types.NamespacedName`. -/
structure NamespacedName where
  Namespace : String := ""
  Name : String := ""
  deriving DecidableEq, Repr

/-- The type `corev1.ConfigMap`. -/
structure ConfigMap extends ObjectMeta where
  Data : StrMap := []
  deriving DecidableEq, Repr

/-- The type `corev1.ContainerPort`. -/
structure ContainerPort where
  ContainerPort : Int := 0
  deriving DecidableEq, Repr

/-- The type `corev1.VolumeMount`. -/
structure VolumeMount where
  Name : String := ""
  MountPath : String := ""
  deriving DecidableEq, Repr

/-- The type `corev1.Container`. -/
structure Container where
  Name : String := ""
  Image : String := ""
  ImagePullPolicy : String := ""
  Args : List String := []
  Ports : List ContainerPort := []
  VolumeMounts : List VolumeMount := []
  deriving DecidableEq, Repr

/-- The type `corev1.KeyToPath`. -/
structure KeyToPath where
  Key : String := ""
  Path : String := ""
  deriving DecidableEq, Repr

/-- The type `corev1.ConfigMapVolumeSource`, its `LocalObjectReference` inlined. -/
structure ConfigMapVolumeSource where
  Name : String := ""
  Items : List KeyToPath := []
  deriving DecidableEq, Repr

/-- The type `corev1.Volume` with the one volume source the code uses. -/
structure Volume where
  Name : String := ""
  ConfigMap : Option ConfigMapVolumeSource := none
  deriving DecidableEq, Repr

/-- The type `corev1.PodSpec`. -/
structure PodSpec where
  Containers : List Container := []
  Volumes : List Volume := []
  deriving DecidableEq, Repr

/-- The type `corev1.PodTemplateSpec`; `Labels` are the labels of its object metadata. -/
structure PodTemplateSpec where
  Labels : StrMap := []
  Spec : PodSpec := {}
  deriving DecidableEq, Repr

/-- The type `appsv1.DeploymentSpec`; `Selector` holds the `MatchLabels` of the
label selector, `none` being the nil pointer. -/
structure DeploymentSpec where
  Replicas : Option Int := none
  Selector : Option StrMap := none
  Template : PodTemplateSpec := {}
  deriving DecidableEq, Repr

/-- The type `appsv1.DeploymentStatus`: the observed replica count. -/
structure DeploymentStatus where
  Replicas : Int := 0
  deriving DecidableEq, Repr

/-- The type `appsv1.Deployment`. -/
structure Deployment extends ObjectMeta where
  Spec : DeploymentSpec := {}
  Status : DeploymentStatus := {}
  deriving DecidableEq, Repr

/-- The type `corev1.ServicePort`. -/
structure ServicePort where
  Name : String := ""
  Protocol : String := ""
  Port : Int := 0
  TargetPort : Int := 0
  NodePort : Int := 0
  deriving DecidableEq, Repr

/-- The type `corev1.ServiceSpec`: the fields the code sets (`Ports`, `Selector`)
and three of the fields it does not name (`Type_` is Go's `Type`). -/
structure ServiceSpec where
  Ports : List ServicePort := []
  Selector : StrMap := []
  ClusterIP : String := ""
  Type_ : String := ""
  SessionAffinity : String := ""
  deriving DecidableEq, Repr

/-- The type `corev1.Service`. -/
structure Service extends ObjectMeta where
  Spec : ServiceSpec := {}
  deriving DecidableEq, Repr

/-! ## The cluster: an object store with failure injection

The store is keyed by namespace and name, one table per resource type.  A
pass issues its cluster calls in sequence; every call is appended to a log.
`Faults` decides, by the number of calls issued before it, whether a call
fails with an injected error instead of reaching the store. -/

/-- The errors a cluster call or a helper can return. `notFound`, `conflict`
and `alreadyExists` are the API status reasons tested by `apierrors.IsNotFound`
and `apierrors.IsConflict`; `alreadyOwned` is controllerutil's
`AlreadyOwnedError`. -/
inductive Err where
  | notFound
  | conflict
  | alreadyExists
  | alreadyOwned
  | other (msg : String)
  deriving DecidableEq, Repr

/-- The four resource types of the store. -/
inductive ResourceKind where
  | jsonServer | configMap | deployment | service
  deriving DecidableEq, Repr

/-- A cluster call, as logged. -/
inductive Call where
  | get (kind : ResourceKind) (key : NamespacedName)
  | create (kind : ResourceKind) (key : NamespacedName)
  | update (kind : ResourceKind) (key : NamespacedName)
  | statusUpdate (js : JsonServer)
  deriving DecidableEq, Repr

/-- The stored objects. -/
structure Cluster where
  jsonServers : NamespacedName → Option JsonServer := fun _ => none
  configMaps : NamespacedName → Option ConfigMap := fun _ => none
  deployments : NamespacedName → Option Deployment := fun _ => none
  services : NamespacedName → Option Service := fun _ => none

/-- The cluster together with the log of the calls issued so far. -/
structure World where
  cluster : Cluster := {}
  log : List Call := []

/-- The injected failures: `F i` is the error of the call issued after `i`
earlier calls, `none` when that call reaches the store. -/
abbrev Faults := Nat → Option Err

/-- No injected failure: every cluster call reaches the store. -/
def noFaults : Faults := fun _ => none

/-- A table with the entry of `k` replaced by `v`. -/
def upd {α : Type} (f : NamespacedName → Option α) (k : NamespacedName) (v : Option α) :
    NamespacedName → Option α :=
  fun k1 => if k1 = k then v else f k1

/-- What the client needs of a resource type (`client.Object`): its metadata
and its table in the store. -/
class ClientObject (α : Type) where
  kind : ResourceKind
  getMeta : α → ObjectMeta
  setMeta : α → ObjectMeta → α
  read : Cluster → NamespacedName → Option α
  write : Cluster → NamespacedName → α → Cluster

instance instJsonServer : ClientObject JsonServer where
  kind := .jsonServer
  getMeta o := o.toObjectMeta
  setMeta o m := { o with toObjectMeta := m }
  read c := c.jsonServers
  write c k o := { c with jsonServers := upd c.jsonServers k (some o) }

instance instConfigMap : ClientObject ConfigMap where
  kind := .configMap
  getMeta o := o.toObjectMeta
  setMeta o m := { o with toObjectMeta := m }
  read c := c.configMaps
  write c k o := { c with configMaps := upd c.configMaps k (some o) }

instance instDeployment : ClientObject Deployment where
  kind := .deployment
  getMeta o := o.toObjectMeta
  setMeta o m := { o with toObjectMeta := m }
  read c := c.deployments
  write c k o := { c with deployments := upd c.deployments k (some o) }

instance instService : ClientObject Service where
  kind := .service
  getMeta o := o.toObjectMeta
  setMeta o m := { o with toObjectMeta := m }
  read c := c.services
  write c k o := { c with services := upd c.services k (some o) }

open ClientObject in
/-- The function `client.ObjectKeyFromObject`. -/
def ObjectKeyFromObject {α : Type} [ClientObject α] (obj : α) : NamespacedName :=
  { Namespace := (getMeta obj).Namespace, Name := (getMeta obj).Name }

/-- Append a call to the log. -/
def World.record (w : World) (c : Call) : World :=
  { w with log := w.log ++ [c] }

open ClientObject in
/-- The object stored under a key, as a read returns it: it carries the key as
its name and namespace. -/
def lookup {α : Type} [ClientObject α] (c : Cluster) (key : NamespacedName) : Option α :=
  (read c key).map
    (fun o => setMeta o { getMeta o with Name := key.Name, Namespace := key.Namespace })

open ClientObject in
/-- The method `client.Get(ctx, key, obj)`: the returned error, the object
(overwritten by the stored one on success) and the world. -/
def Get {α : Type} [ClientObject α] (F : Faults) (key : NamespacedName) (obj : α) (w : World) :
    Option Err × α × World :=
  let w1 := w.record (.get (kind α) key)
  match F w.log.length with
  | some e => (some e, obj, w1)
  | none =>
    match lookup w.cluster key with
    | none => (some .notFound, obj, w1)
    | some o => (none, o, w1)

open ClientObject in
/-- The method `client.Create(ctx, obj)`: it fails when the key is taken.  (The
API server resets the status of a created object; the objects this code
creates carry an empty status.) -/
def Create {α : Type} [ClientObject α] (F : Faults) (obj : α) (w : World) : Option Err × World :=
  let key := ObjectKeyFromObject obj
  let w1 := w.record (.create (kind α) key)
  match F w.log.length with
  | some e => (some e, w1)
  | none =>
    match read (α := α) w.cluster key with
    | some _ => (some .alreadyExists, w1)
    | none => (none, { w1 with cluster := write w.cluster key obj })

open ClientObject in
/-- The method `client.Update(ctx, obj)`: it fails when nothing is stored under
the key.  (The API server keeps the stored status on an update of a child; the
objects this code updates carry the status they were read with.) -/
def Update {α : Type} [ClientObject α] (F : Faults) (obj : α) (w : World) : Option Err × World :=
  let key := ObjectKeyFromObject obj
  let w1 := w.record (.update (kind α) key)
  match F w.log.length with
  | some e => (some e, w1)
  | none =>
    match read (α := α) w.cluster key with
    | none => (some .notFound, w1)
    | some _ => (none, { w1 with cluster := write w.cluster key obj })

/-- The call `r.Status().Update(ctx, &js)`: only the status of the stored
resource is replaced. -/
def StatusUpdate (F : Faults) (js : JsonServer) (w : World) : Option Err × World :=
  let key : NamespacedName := { Namespace := js.Namespace, Name := js.Name }
  let w1 := w.record (.statusUpdate js)
  match F w.log.length with
  | some e => (some e, w1)
  | none =>
    match w.cluster.jsonServers key with
    | none => (some .notFound, w1)
    | some stored =>
      let stored1 : JsonServer := { stored with Status := js.Status }
      (none, { w1 with cluster := ClientObject.write w.cluster key stored1 })

/-- The function `client.IgnoreNotFound`. -/
def IgnoreNotFound (err : Err) : Option Err :=
  if err = .notFound then none else some err

/-! ## controller-runtime and client-go helpers -/

/-- The function `schema.ParseGroupVersion`: group and version of an
`apiVersion` string, `none` when it has more than one slash. -/
def ParseGroupVersion (gv : String) : Option (String × String) :=
  if gv = "" ∨ gv = "/" then some ("", "")
  else
    match (gv.toList.filter (fun c => c = '/')).length with
    | 0 => some ("", gv)
    | 1 =>
      some (String.mk (gv.toList.takeWhile (fun c => c ≠ '/')),
        String.mk (gv.toList.dropWhile (fun c => c ≠ '/')).tail)
    | _ => none

/-- The function `referSameObject` of controllerutil: same group, kind and name. -/
def referSameObject (a b : OwnerReference) : Bool :=
  match ParseGroupVersion a.APIVersion, ParseGroupVersion b.APIVersion with
  | some aGV, some bGV => aGV.1 = bGV.1 && a.Kind = b.Kind && a.Name = b.Name
  | _, _ => false

/-- The function `metav1.GetControllerOf`: the first owner reference whose
`Controller` flag is set. -/
def GetControllerOf (refs : List OwnerReference) : Option OwnerReference :=
  refs.find? (fun r => r.Controller = some true)

/-- The function `upsertOwnerRef`: replace the first reference to the same
object, or append. -/
def upsertOwnerRef (ref : OwnerReference) : List OwnerReference → List OwnerReference
  | [] => [ref]
  | r :: rs => if referSameObject r ref then ref :: rs else r :: upsertOwnerRef ref rs

/-- The group/version under which the scheme knows `JsonServer` (the
kubebuilder markers of the webhook: `groups=example.com`, `versions=v1`). -/
def ownerAPIVersion : String := "example.com/v1"

/-- The controller reference that `SetControllerReference` builds for an owner. -/
def controllerRef (owner : JsonServer) : OwnerReference :=
  { APIVersion := ownerAPIVersion, Kind := "JsonServer", Name := owner.Name, UID := owner.UID,
    BlockOwnerDeletion := some true, Controller := some true }

open ClientObject in
/-- The function `controllerutil.SetControllerReference(&js, controlled, r.Scheme)`:
the returned error and the controlled object.  It fails when the owner is
namespaced and the controlled object lies in another namespace or in none
(`validateOwner`), and when the object already has a controller that is
another object. -/
def SetControllerReference {α : Type} [ClientObject α] (owner : JsonServer) (controlled : α) :
    Option Err × α :=
  let m := getMeta controlled
  if owner.Namespace ≠ "" ∧ m.Namespace = "" then
    (some (.other "cluster-scoped resource must not have a namespace-scoped owner"), controlled)
  else if owner.Namespace ≠ "" ∧ owner.Namespace ≠ m.Namespace then
    (some (.other "cross-namespace owner references are disallowed"), controlled)
  else
    let ref := controllerRef owner
    match GetControllerOf m.OwnerReferences with
    | some existing =>
      if !referSameObject existing ref then (some .alreadyOwned, controlled)
      else (none, setMeta controlled { m with OwnerReferences := upsertOwnerRef ref m.OwnerReferences })
    | none =>
      (none, setMeta controlled { m with OwnerReferences := upsertOwnerRef ref m.OwnerReferences })

/-- The function `mutate` of controllerutil: run the mutate function and
refuse a changed name or namespace. -/
def mutate {α : Type} [ClientObject α] (f : α → Option Err × α) (key : NamespacedName) (obj : α) :
    Option Err × α :=
  match f obj with
  | (some err, obj1) => (some err, obj1)
  | (none, obj1) =>
    if key ≠ ObjectKeyFromObject obj1 then
      (some (.other "MutateFn cannot mutate object name and/or object namespace"), obj1)
    else (none, obj1)

/-- The function `controllerutil.CreateOrUpdate(ctx, c, obj, f)`: read the
object; when it is not found, mutate and create; when it is found, mutate and
update unless the mutation changed nothing (`equality.Semantic.DeepEqual`). -/
def CreateOrUpdate {α : Type} [ClientObject α] [DecidableEq α] (F : Faults) (obj : α)
    (f : α → Option Err × α) (w : World) : Option Err × α × World :=
  let key := ObjectKeyFromObject obj
  match Get F key obj w with
  | (some err, obj1, w1) =>
    if err ≠ .notFound then (some err, obj1, w1)
    else
      match mutate f key obj1 with
      | (some err1, obj2) => (some err1, obj2, w1)
      | (none, obj2) =>
        match Create F obj2 w1 with
        | (some err2, w2) => (some err2, obj2, w2)
        | (none, w2) => (none, obj2, w2)
  | (none, existing, w1) =>
    match mutate f key existing with
    | (some err1, obj2) => (some err1, obj2, w1)
    | (none, obj2) =>
      if existing = obj2 then (none, obj2, w1)
      else
        match Update F obj2 w1 with
        | (some err2, w2) => (some err2, obj2, w2)
        | (none, w2) => (none, obj2, w2)

/-- The loop of `retry.OnError` over `wait.ExponentialBackoff`: run `fn` at
most `steps` times, again only after a conflict; when the steps run out the
last conflict is returned. -/
def retryLoop {σ : Type} (fn : σ → Option Err × σ) : Nat → Option Err → σ → Option Err × σ
  | 0, lastErr, s => (lastErr, s)
  | n + 1, _, s =>
    match fn s with
    | (none, s1) => (none, s1)
    | (some err, s1) =>
      if err = .conflict then retryLoop fn n (some err) s1 else (some err, s1)

/-- The number of attempts of `retry.DefaultRetry` (`Steps: 5`). -/
def DefaultRetrySteps : Nat := 5

/-- The function `retry.RetryOnConflict(retry.DefaultRetry, fn)`. -/
def RetryOnConflict {σ : Type} (fn : σ → Option Err × σ) (s : σ) : Option Err × σ :=
  retryLoop fn DefaultRetrySteps none s

/-- A byte of `[A-Za-z0-9]`. -/
def isAlnum (c : Char) : Bool :=
  ('a'.toNat ≤ c.toNat && c.toNat ≤ 'z'.toNat) || ('A'.toNat ≤ c.toNat && c.toNat ≤ 'Z'.toNat)
    || ('0'.toNat ≤ c.toNat && c.toNat ≤ '9'.toNat)

/-- The function `validation.IsValidLabelValue`, as a test: at most 63 bytes,
and empty or matching `[A-Za-z0-9]([-A-Za-z0-9_.]*[A-Za-z0-9])?`. -/
def IsValidLabelValue (value : String) : Bool :=
  let cs := value.toList
  decide (cs.length ≤ 63)
    && cs.all (fun c => isAlnum c || c = '-' || c = '_' || c = '.')
    && (match cs.head? with
        | none => true
        | some c => isAlnum c)
    && (match cs.getLast? with
        | none => true
        | some c => isAlnum c)

/-- The function `metav1.FormatLabelSelector` on the selector
`MatchLabels: {"app": name}`: the requirement `app=<name>` printed, or
`<error>` when `name` is not a valid label value. -/
def FormatLabelSelector (name : String) : String :=
  if IsValidLabelValue name then "app=" ++ name else "<error>"

/-! ## The reconciler (`internal/controller/jsonserver_controller.go`) -/

/-- The label map `labels := map[string]string{"app": name}`. -/
def labels (name : String) : StrMap := [("app", name)]

/-- The value `desiredDeploy` built from the resource. -/
def desiredDeploy (js : JsonServer) : Deployment :=
  let name := js.Name
  let namespace_ := js.Namespace
  let replicas : Int :=
    match js.Spec.Replicas with
    | some n => n
    | none => 1
  let image := if js.Spec.Image = "" then "backplane/json-server" else js.Spec.Image
  { Name := name, Namespace := namespace_, Labels := labels name,
    Spec :=
      { Replicas := some replicas,
        Selector := some (labels name),
        Template :=
          { Labels := labels name,
            Spec :=
              { Containers :=
                  [{ Name := "json-server",
                     Image := image,
                     ImagePullPolicy := "IfNotPresent",
                     Args := ["/data/db.json"],
                     Ports := [{ ContainerPort := 3000 }],
                     VolumeMounts := [{ Name := "data", MountPath := "/data" }] }],
                Volumes :=
                  [{ Name := "data",
                     ConfigMap := some { Name := name, Items := [{ Key := "db.json", Path := "db.json" }] } }] } } } }

/-- The value `desiredSvc` built from the resource. -/
def desiredSvc (js : JsonServer) : Service :=
  { Name := js.Name, Namespace := js.Namespace,
    Spec := { Selector := labels js.Name,
              Ports := [{ Port := 3000, TargetPort := 3000, Protocol := "TCP" }] } }

/-- The mutate function of the ConfigMap step (lines 72 to 78); the nil map and
the empty map are the same association list. -/
def mutateConfigMap (js : JsonServer) (cm : ConfigMap) : Option Err × ConfigMap :=
  SetControllerReference js { cm with Data := cm.Data.set "db.json" js.Spec.JsonConfig }

/-- The mutate function of the Deployment step (lines 140 to 144). -/
def mutateDeployment (js : JsonServer) (deploy : Deployment) : Option Err × Deployment :=
  SetControllerReference js
    { deploy with Labels := labels js.Name, Spec := (desiredDeploy js).Spec }

/-- The mutate function of the Service step (lines 171 to 174). -/
def mutateService (js : JsonServer) (svc : Service) : Option Err × Service :=
  SetControllerReference js { svc with Spec := (desiredSvc js).Spec }

/-- The ConfigMap step (lines 70 to 78): `CreateOrUpdate` on a ConfigMap of the
resource's name and namespace. -/
def convergeConfigMap (F : Faults) (js : JsonServer) (w : World) : Option Err × World :=
  let cm : ConfigMap := { Name := js.Name, Namespace := js.Namespace }
  match CreateOrUpdate F cm (mutateConfigMap js) w with
  | (err, _, w1) => (err, w1)

/-- One run of the function retried by the Deployment step (lines 132 to 146),
on the variable `deploy` and the world. -/
def deploymentAttempt (F : Faults) (js : JsonServer) (st : Deployment × World) :
    Option Err × (Deployment × World) :=
  match Get F (ObjectKeyFromObject st.1) st.1 st.2 with
  | (some err, deploy1, w1) =>
    if err = .notFound then
      match CreateOrUpdate F ({ Name := js.Name, Namespace := js.Namespace } : Deployment)
          (mutateDeployment js) w1 with
      | (err1, deploy2, w2) => (err1, (deploy2, w2))
    else (some err, (deploy1, w1))
  | (none, deploy1, w1) =>
    match CreateOrUpdate F deploy1 (mutateDeployment js) w1 with
    | (err1, deploy2, w2) => (err1, (deploy2, w2))

/-- The Deployment step (lines 130 to 146): the returned error, the variable
`deploy` and the world. -/
def convergeDeployment (F : Faults) (js : JsonServer) (w : World) :
    Option Err × (Deployment × World) :=
  RetryOnConflict (deploymentAttempt F js)
    (({ Name := js.Name, Namespace := js.Namespace } : Deployment), w)

/-- One run of the function retried by the Service step (lines 163 to 176). -/
def serviceAttempt (F : Faults) (js : JsonServer) (st : Service × World) :
    Option Err × (Service × World) :=
  match Get F (ObjectKeyFromObject st.1) st.1 st.2 with
  | (some err, svc1, w1) =>
    if err = .notFound then
      match CreateOrUpdate F ({ Name := js.Name, Namespace := js.Namespace } : Service)
          (mutateService js) w1 with
      | (err1, svc2, w2) => (err1, (svc2, w2))
    else (some err, (svc1, w1))
  | (none, svc1, w1) =>
    match CreateOrUpdate F svc1 (mutateService js) w1 with
    | (err1, svc2, w2) => (err1, (svc2, w2))

/-- The Service step (lines 161 to 176). -/
def convergeService (F : Faults) (js : JsonServer) (w : World) :
    Option Err × (Service × World) :=
  RetryOnConflict (serviceAttempt F js)
    (({ Name := js.Name, Namespace := js.Namespace } : Service), w)

/-- The diagnostic of the validation exit (line 59). -/
def invalidMessage : String := "Error: spec.jsonConfig is not a valid json object"

/-- The diagnostic of a failed step (lines 82, 150 and 180). -/
def failureMessage : String := "Error: json-server unexpected failure"

/-- The resource with `Status.State` and `Status.Message` assigned. -/
def withState (js : JsonServer) (state message : String) : JsonServer :=
  { js with Status := { js.Status with State := state, Message := message } }

/-- The error exit of a failed step (lines 81 to 84, 149 to 152, 179 to 182):
set the status to `Error`, call the status update and drop its error, return
the step's error. -/
def failStep (F : Faults) (js : JsonServer) (err : Err) (w : World) : Option Err × World :=
  (some err, (StatusUpdate F (withState js "Error" failureMessage) w).2)

/-- The method `Reconcile`: the returned error (`none` is `nil`; the returned
`ctrl.Result` is always empty) and the world it leaves. -/
def Reconcile (F : Faults) (req : NamespacedName) (w : World) : Option Err × World :=
  match Get F req ({} : JsonServer) w with
  | (some err, _, w1) => (IgnoreNotFound err, w1)
  | (none, js, w1) =>
    if (Json.Unmarshal js.Spec.JsonConfig .iface).isSome then
      match StatusUpdate F (withState js "Error" invalidMessage) w1 with
      | (some uerr, w2) => (some uerr, w2)
      | (none, w2) => (none, w2)
    else
      match convergeConfigMap F js w1 with
      | (some err, w2) => failStep F js err w2
      | (none, w2) =>
        match convergeDeployment F js w2 with
        | (some err, _, w3) => failStep F js err w3
        | (none, deploy, w3) =>
          match convergeService F js w3 with
          | (some err, _, w4) => failStep F js err w4
          | (none, _, w4) =>
            match Get F req deploy w4 with
            | (some err, _, w5) => (some err, w5)
            | (none, deploy1, w5) =>
              let js1 : JsonServer :=
                { js with Status :=
                    { State := "Synced", Message := "Synced succesfully!",
                      Replicas := deploy1.Status.Replicas,
                      Selector := FormatLabelSelector js.Name } }
              match StatusUpdate F js1 w5 with
              | (some err, w6) => (some err, w6)
              | (none, w6) => (none, w6)

/-! ## The phases of a pass

The results of the first read and of the three converge steps of a pass, so
that a statement can speak of the step at which a pass fails. -/

/-- The first read of the pass (line 51). -/
def fetch (F : Faults) (req : NamespacedName) (w : World) : Option Err × JsonServer × World :=
  Get F req ({} : JsonServer) w

/-- The ConfigMap step of the pass, run after the first read. -/
def afterConfigMap (F : Faults) (req : NamespacedName) (w : World) : Option Err × World :=
  convergeConfigMap F (fetch F req w).2.1 (fetch F req w).2.2

/-- The Deployment step of the pass, run after the ConfigMap step. -/
def afterDeployment (F : Faults) (req : NamespacedName) (w : World) :
    Option Err × (Deployment × World) :=
  convergeDeployment F (fetch F req w).2.1 (afterConfigMap F req w).2

/-- The Service step of the pass, run after the Deployment step. -/
def afterService (F : Faults) (req : NamespacedName) (w : World) :
    Option Err × (Service × World) :=
  convergeService F (fetch F req w).2.1 (afterDeployment F req w).2.2

/-- The resource as a failed step reports it: `status.state = "Error"` with the
generic diagnostic. -/
def failed (js : JsonServer) : JsonServer :=
  withState js "Error" failureMessage

/-- The resource as the last step publishes it (lines 194 to 197). -/
def synced (js : JsonServer) (deploy : Deployment) : JsonServer :=
  { js with Status :=
      { State := "Synced", Message := "Synced succesfully!",
        Replicas := deploy.Status.Replicas,
        Selector := FormatLabelSelector js.Name } }

/-! ## The effect of a pass on the store when no failure is injected

When no cluster call is made to fail, the error a pass returns and the store
it leaves depend on the store alone.  The definitions below compute them
directly; `Reconcile_noFaults` proves that `Reconcile` agrees with them. -/

open ClientObject

/-- The effect on the store of one `CreateOrUpdate` without injected failure. -/
def converge {α : Type} [ClientObject α] [DecidableEq α] (f : α → Option Err × α)
    (key : NamespacedName) (fresh : α) (c : Cluster) : Option Err × Cluster :=
  match lookup (α := α) c key with
  | none =>
    match f fresh with
    | (some e, _) => (some e, c)
    | (none, o2) => (none, write c key o2)
  | some ex =>
    match f ex with
    | (some e, _) => (some e, c)
    | (none, o2) => if ex = o2 then (none, c) else (none, write c key o2)

/-- The laws of a resource type: metadata can be read back, and a table entry
can be read back. -/
class LawfulClientObject (α : Type) [ClientObject α] : Prop where
  getMeta_setMeta : ∀ (o : α) (m : ObjectMeta), getMeta (setMeta o m) = m
  setMeta_getMeta : ∀ (o : α), setMeta o (getMeta o) = o
  read_write : ∀ (c : Cluster) (k : NamespacedName) (o : α) (k1 : NamespacedName),
    read (write c k o) k1 = if k1 = k then some o else read c k1

instance : LawfulClientObject JsonServer where
  getMeta_setMeta _ _ := rfl
  setMeta_getMeta _ := rfl
  read_write _ _ _ _ := rfl

instance : LawfulClientObject ConfigMap where
  getMeta_setMeta _ _ := rfl
  setMeta_getMeta _ := rfl
  read_write _ _ _ _ := rfl

instance : LawfulClientObject Deployment where
  getMeta_setMeta _ _ := rfl
  setMeta_getMeta _ := rfl
  read_write _ _ _ _ := rfl

instance : LawfulClientObject Service where
  getMeta_setMeta _ _ := rfl
  setMeta_getMeta _ := rfl
  read_write _ _ _ _ := rfl

/-- The key of the children of a resource. -/
def childKey (js : JsonServer) : NamespacedName :=
  { Namespace := js.Namespace, Name := js.Name }

/-- The effect on the store of a status update without injected failure. -/
def publish (c : Cluster) (js : JsonServer) : Option Err × Cluster :=
  match c.jsonServers (childKey js) with
  | none => (some .notFound, c)
  | some stored =>
    (none, write c (childKey js) ({ stored with Status := js.Status } : JsonServer))

/-- The effect on the store of a pass without injected failure. -/
def reconcilePure (req : NamespacedName) (c : Cluster) : Option Err × Cluster :=
  match lookup (α := JsonServer) c req with
  | none => (none, c)
  | some js =>
    if (Json.Unmarshal js.Spec.JsonConfig .iface).isSome then
      publish c (withState js "Error" invalidMessage)
    else
      let r3 := converge (mutateConfigMap js) (childKey js)
        ({ Name := js.Name, Namespace := js.Namespace } : ConfigMap) c
      match r3.1 with
      | some err => (some err, (publish r3.2 (failed js)).2)
      | none =>
        let r4 := converge (mutateDeployment js) (childKey js)
          ({ Name := js.Name, Namespace := js.Namespace } : Deployment) r3.2
        match r4.1 with
        | some err => (some err, (publish r4.2 (failed js)).2)
        | none =>
          let r5 := converge (mutateService js) (childKey js)
            ({ Name := js.Name, Namespace := js.Namespace } : Service) r4.2
          match r5.1 with
          | some err => (some err, (publish r5.2 (failed js)).2)
          | none =>
            match lookup (α := Deployment) r5.2 req with
            | none => (some .notFound, r5.2)
            | some d => publish r5.2 (synced js d)

/-- The fresh ConfigMap of the ConfigMap step. -/
abbrev freshCM (js : JsonServer) : ConfigMap := { Name := js.Name, Namespace := js.Namespace }

/-- The fresh Deployment of the Deployment step. -/
abbrev freshD (js : JsonServer) : Deployment := { Name := js.Name, Namespace := js.Namespace }

/-- The fresh Service of the Service step. -/
abbrev freshS (js : JsonServer) : Service := { Name := js.Name, Namespace := js.Namespace }

/-- The store after the ConfigMap step of a pass without injected failure. -/
abbrev after3 (js : JsonServer) (c : Cluster) : Option Err × Cluster :=
  converge (mutateConfigMap js) (childKey js) (freshCM js) c

/-- The store after the Deployment step of a pass without injected failure. -/
abbrev after4 (js : JsonServer) (c : Cluster) : Option Err × Cluster :=
  converge (mutateDeployment js) (childKey js) (freshD js) (after3 js c).2

/-- The store after the Service step of a pass without injected failure. -/
abbrev after5 (js : JsonServer) (c : Cluster) : Option Err × Cluster :=
  converge (mutateService js) (childKey js) (freshS js) (after4 js c).2

/-- Whether `SetControllerReference` may take over an object with these owner
references: it has no controller, or its controller is the resource itself. -/
def adoptable (js : JsonServer) (refs : List OwnerReference) : Bool :=
  match GetControllerOf refs with
  | none => true
  | some existing => referSameObject existing (controllerRef js)

/-- The replica count a read of the Deployment under the key observes, zero
when there is none. -/
def observedReplicas (c : Cluster) (key : NamespacedName) : Int :=
  match lookup (α := Deployment) c key with
  | some d => d.Status.Replicas
  | none => 0

/-! ## Concrete scenarios -/

/-- The text `{"todos":[]}` of the spec's scenario. -/
def todosJson : String := "\x7b\"todos\":[]\x7d"

/-- The text `{"a":1e999}`: a JSON object with a number beyond the `float64` range. -/
def bigNumberJson : String := "\x7b\"a\":1e999\x7d"

/-- The malformed text `{"todos":`. -/
def truncatedJson : String := "\x7b\"todos\":"

/-- The text `{}`, the empty JSON object. -/
def emptyJson : String := "\x7b\x7d"


/-- The key `default/app-demo`. -/
def demoKey : NamespacedName := { Namespace := "default", Name := "app-demo" }

/-- The resource `app-demo` of the spec's scenario, with the given
`spec.jsonConfig`; `spec.replicas` and `spec.image` are unset. -/
def demoResource (jsonConfig : String) : JsonServer :=
  { Name := "app-demo", Namespace := "default", UID := "uid-1", Spec := { JsonConfig := jsonConfig } }

/-- A world whose store holds the resource `app-demo` and nothing else. -/
def demoWorld (jsonConfig : String) : World :=
  { cluster := { jsonServers := upd (fun _ => none) demoKey (some (demoResource jsonConfig)) } }

/-- The status stored for `app-demo`. -/
def demoStatus (w : World) : Option JsonServerStatus :=
  (w.cluster.jsonServers demoKey).map (fun js => js.Status)

/-- A fault pattern with the single injected error `Err.other "boom"` at call `i`. -/
def failAt (i : Nat) : Faults :=
  fun j => if j = i then some (.other "boom") else none

/-- A Service `default/app-demo` as a user may have created it: of type
`NodePort`, with an allocated cluster IP, an old port and an old selector. -/
def nodePortService : Service :=
  { Name := "app-demo", Namespace := "default",
    Spec := { Ports := [{ Port := 80, TargetPort := 8080, Protocol := "TCP", NodePort := 30080 }],
              Selector := [("app", "old")],
              ClusterIP := "10.0.0.7", Type_ := "NodePort", SessionAffinity := "ClientIP" } }

/-- The text `{"n":[1,-2.5e3]}`: a JSON object that holds numbers. -/
def numbersJson : String := "\x7b\"n\":[1,-2.5e3]\x7d"

/-- A Service `default/app-demo` that another object controls. -/
def adoptedService : Service :=
  { nodePortService with
    OwnerReferences := [{ APIVersion := "apps/v1", Kind := "Deployment", Name := "other",
                          UID := "uid-9", Controller := some true }] }

end controller


/-! ## `encoding/json` on the texts of the grammar

The scanner accepts every text of the grammar that is nested at most
`maxNestingDepth` deep, the lexer finds in it the numbers of the grammar, and
`strconv.ParseFloat` reports no range error for a number that `fits`. -/

namespace Json

theorem isSpace_cases {c : Char} (h : isSpace c = true) :
    c = ' ' ∨ c = '\t' ∨ c = '\r' ∨ c = '\n' := by
  simp only [isSpace, Bool.or_eq_true, decide_eq_true_eq] at h
  tauto

theorem isDigit_not {c : Char} (h : isDigit c = true) :
    isSpace c = false ∧ c ≠ '.' ∧ c ≠ 'e' ∧ c ≠ 'E' ∧ c ≠ '"' ∧ c ≠ '-' ∧ c ≠ '+' ∧ c ≠ '\\' := by
  refine ⟨?_, ?_, ?_, ?_, ?_, ?_, ?_, ?_⟩
  · cases hs : isSpace c
    · rfl
    · rcases isSpace_cases hs with rfl | rfl | rfl | rfl <;> exact absurd h (by decide)
  all_goals (rintro rfl; exact absurd h (by decide))

theorem isDigit19_isDigit {c : Char} (h : isDigit19 c = true) : isDigit c = true := by
  simp only [isDigit19, isDigit, Bool.and_eq_true, decide_eq_true_eq] at h ⊢
  have : '0'.toNat ≤ '1'.toNat := by decide
  omega

theorem isDigit19_not {c : Char} (h : isDigit19 c = true) :
    isSpace c = false ∧ c ≠ '{' ∧ c ≠ '[' ∧ c ≠ ']' ∧ c ≠ '"' ∧ c ≠ '-' ∧ c ≠ '0' ∧ c ≠ 't'
      ∧ c ≠ 'f' ∧ c ≠ 'n' := by
  refine ⟨(isDigit_not (isDigit19_isDigit h)).1, ?_, ?_, ?_, ?_, ?_, ?_, ?_, ?_, ?_⟩
  all_goals (rintro rfl; exact absurd h (by decide))

theorem checkLoop_step (s s1 : Scanner) (op : Scan) (c : Char) (cs : List Char)
    (h : s.run c = (op, s1)) (hop : op ≠ .scanError) :
    checkLoop s (c :: cs) = checkLoop s1 cs := by
  cases op <;> first | exact absurd rfl hop | simp only [checkLoop, h]

/-- Whitespace is skipped in the four begin states. -/
theorem skip_begin (st : List ParseState) (b : Step)
    (hb : b = .beginValue ∨ b = .beginValueOrEmpty ∨ b = .beginString ∨ b = .beginStringOrEmpty)
    (w rest : List Char) (hw : w.all isSpace = true) :
    checkLoop (Scanner.inState b st) (w ++ rest) = checkLoop (Scanner.inState b st) rest := by
  induction w with
  | nil => rfl
  | cons c w ih =>
    simp only [List.all_cons, Bool.and_eq_true] at hw
    rw [List.cons_append, checkLoop_step _ (Scanner.inState b st) .scanSkipSpace c _ ?_ (by decide)]
    · exact ih hw.2
    · rcases hb with rfl | rfl | rfl | rfl <;>
        simp [Scanner.run, Scanner.inState, stateBeginValue, stateBeginString, hw.1]

/-- Whitespace is skipped after a value inside an array or object. -/
theorem skip_end (p : ParseState) (st : List ParseState)
    (w rest : List Char) (hw : w.all isSpace = true) :
    checkLoop (Scanner.inState .endValue (p :: st)) (w ++ rest)
      = checkLoop (Scanner.inState .endValue (p :: st)) rest := by
  induction w with
  | nil => rfl
  | cons c w ih =>
    simp only [List.all_cons, Bool.and_eq_true] at hw
    rw [List.cons_append,
      checkLoop_step _ (Scanner.inState .endValue (p :: st)) .scanSkipSpace c _ ?_ (by decide)]
    · exact ih hw.2
    · simp [Scanner.run, Scanner.inState, stateEndValue, hw.1]

/-- Trailing whitespace after the top-level value ends the text. -/
theorem skip_top (w : List Char) (hw : w.all isSpace = true) :
    checkLoop (Scanner.inState .endValue []) w = true := by
  have key : ∀ w : List Char, w.all isSpace = true →
      checkLoop { step := .endTop, endTop := true, parseState := [], err := false } w = true := by
    intro w
    induction w with
    | nil => intro _; rfl
    | cons c w ih =>
      intro hw
      simp only [List.all_cons, Bool.and_eq_true] at hw
      rw [checkLoop_step _ { step := .endTop, endTop := true, parseState := [], err := false }
        .scanEnd c _ ?_ (by decide)]
      · exact ih hw.2
      · simp [Scanner.run, stateEndTop, hw.1]
  cases w with
  | nil => rfl
  | cons c w =>
    simp only [List.all_cons, Bool.and_eq_true] at hw
    rw [checkLoop_step _ { step := .endTop, endTop := true, parseState := [], err := false }
      .scanEnd c _ ?_ (by decide)]
    · exact key w hw.2
    · simp [Scanner.run, Scanner.inState, stateEndValue, stateEndTop, hw.1]

theorem stateEndValue_step (x : Step) (st : List ParseState) (c : Char) :
    stateEndValue (Scanner.inState x st) c = stateEndValue (Scanner.inState .endValue st) c := by
  cases st with
  | nil => rfl
  | cons p st => cases p <;> rfl

theorem isNumChar_false {c : Char} (h : isNumChar c = false) :
    isDigit c = false ∧ c ≠ '-' ∧ c ≠ '+' ∧ c ≠ '.' ∧ c ≠ 'e' ∧ c ≠ 'E' := by
  simpa [isNumChar, and_assoc] using h

/-- A number state hands the byte after the number to `stateEndValue`. -/
theorem endValue_of (x : Step) (hx : x = .s0 ∨ x = .s1 ∨ x = .dot0 ∨ x = .e0)
    (st : List ParseState) (rest : List Char) (hf : Follow rest) :
    checkLoop (Scanner.inState x st) rest = checkLoop (Scanner.inState .endValue st) rest := by
  cases rest with
  | nil =>
    have h : (Scanner.inState x st).run ' ' = stateEndValue (Scanner.inState x st) ' ' := by
      rcases hx with rfl | rfl | rfl | rfl <;> rfl
    simp only [checkLoop, Scanner.eof]
    rw [h, stateEndValue_step]
    rfl
  | cons c cs =>
    obtain ⟨h1, -, -, h2, h3, h4⟩ := isNumChar_false (hf c rfl)
    have h : (Scanner.inState x st).run c = stateEndValue (Scanner.inState x st) c := by
      rcases hx with rfl | rfl | rfl | rfl <;> simp [Scanner.run, Scanner.inState, state0, h1, h2, h3, h4]
    simp only [checkLoop]
    rw [h, stateEndValue_step]
    rfl

/-- The state after the closing bracket or brace. -/
theorem checkLoop_pop (x : Step) (p : ParseState) (st : List ParseState) (rest : List Char) :
    checkLoop (Scanner.popParseState (Scanner.inState x (p :: st))) rest
      = checkLoop (Scanner.inState .endValue st) rest := by
  cases st with
  | nil => cases rest <;> rfl
  | cons q st => rfl

/-- A run of digits in one of the digit states. -/
theorem scan_digits (x : Step) (hx : x = .s1 ∨ x = .dot0 ∨ x = .e0) (st : List ParseState)
    (ds rest : List Char) (hd : ds.all isDigit = true) :
    checkLoop (Scanner.inState x st) (ds ++ rest) = checkLoop (Scanner.inState x st) rest := by
  induction ds with
  | nil => rfl
  | cons c ds ih =>
    simp only [List.all_cons, Bool.and_eq_true] at hd
    rw [List.cons_append,
      checkLoop_step _ (Scanner.inState x st) .scanContinue c _ ?_ (by decide)]
    · exact ih hd.2
    · rcases hx with rfl | rfl | rfl <;> simp [Scanner.run, Scanner.inState, hd.1]

/-- The body of a string literal up to the closing quote. -/
theorem scan_string (st : List ParseState) (b rest : List Char) (hb : StringBody b) :
    checkLoop (Scanner.inState .inString st) (b ++ '"' :: rest)
      = checkLoop (Scanner.inState .endValue st) rest := by
  induction hb with
  | nil => rfl
  | plain c b hc hq hb _ ih =>
    rw [List.cons_append,
      checkLoop_step _ (Scanner.inState .inString st) .scanContinue c _ ?_ (by decide)]
    · exact ih
    · have : ¬ c.toNat < 32 := by omega
      simp [Scanner.run, Scanner.inState, hq, hb, this]
  | escape c b hc _ ih =>
    rw [List.cons_append, List.cons_append,
      checkLoop_step _ (Scanner.inState .inStringEsc st) .scanContinue '\\' _ (by rfl) (by decide),
      checkLoop_step _ (Scanner.inState .inString st) .scanContinue c _ ?_ (by decide)]
    · exact ih
    · rcases hc with rfl | rfl | rfl | rfl | rfl | rfl | rfl | rfl <;> rfl
  | unicode h1 h2 h3 h4 b hx _ ih =>
    simp only [List.cons_append]
    rw [checkLoop_step _ (Scanner.inState .inStringEsc st) .scanContinue '\\' _ (by rfl) (by decide),
      checkLoop_step _ (Scanner.inState .inStringEscU st) .scanContinue 'u' _ (by rfl) (by decide),
      checkLoop_step _ (Scanner.inState .inStringEscU1 st) .scanContinue h1 _
        (by simp [Scanner.run, Scanner.inState, stateHex, hx.1]) (by decide),
      checkLoop_step _ (Scanner.inState .inStringEscU12 st) .scanContinue h2 _
        (by simp [Scanner.run, Scanner.inState, stateHex, hx.2.1]) (by decide),
      checkLoop_step _ (Scanner.inState .inStringEscU123 st) .scanContinue h3 _
        (by simp [Scanner.run, Scanner.inState, stateHex, hx.2.2.1]) (by decide),
      checkLoop_step _ (Scanner.inState .inString st) .scanContinue h4 _
        (by simp [Scanner.run, Scanner.inState, stateHex, hx.2.2.2]) (by decide)]
    exact ih

/-- The exponent of a number, from the state after the integer or the fraction. -/
theorem scan_exponent (x : Step) (hx : x = .s0 ∨ x = .s1 ∨ x = .dot0) (st : List ParseState)
    (m : Char) (sg : Option Bool) (ed rest : List Char)
    (hm : m = 'e' ∨ m = 'E') (hd : ed.all isDigit = true) (hf : Follow rest) :
    checkLoop (Scanner.inState x st)
        ((if ed = [] then [] else m :: (signText sg ++ ed)) ++ rest)
      = checkLoop (Scanner.inState .endValue st) rest := by
  cases ed with
  | nil => exact endValue_of x (by tauto) st rest hf
  | cons d ds =>
    simp only [List.all_cons, Bool.and_eq_true] at hd
    obtain ⟨-, -, -, -, -, hd1, hd2, -⟩ := isDigit_not hd.1
    have hE : (Scanner.inState x st).run m = (.scanContinue, Scanner.inState .e st) := by
      rcases hm with rfl | rfl <;> rcases hx with rfl | rfl | rfl <;> rfl
    have hrest : checkLoop (Scanner.inState .e0 st) (ds ++ rest)
        = checkLoop (Scanner.inState .endValue st) rest := by
      rw [scan_digits .e0 (by tauto) st ds rest hd.2]
      exact endValue_of .e0 (by tauto) st rest hf
    simp only [reduceCtorEq, if_false, List.cons_append]
    rw [checkLoop_step _ _ _ m _ hE (by decide)]
    cases sg with
    | none =>
      simp only [signText, List.nil_append, List.cons_append]
      rw [checkLoop_step _ (Scanner.inState .e0 st) .scanContinue d _ ?_ (by decide)]
      · exact hrest
      · simp [Scanner.run, Scanner.inState, stateESign, hd.1, hd1, hd2]
    | some s =>
      have hS : (Scanner.inState .e st).run (if s then '-' else '+')
          = (.scanContinue, Scanner.inState .eSign st) := by
        cases s <;> rfl
      have hT : signText (some s) = [if s then '-' else '+'] := by cases s <;> rfl
      rw [hT]
      simp only [List.cons_append, List.nil_append]
      rw [checkLoop_step _ _ _ _ _ hS (by decide),
        checkLoop_step _ (Scanner.inState .e0 st) .scanContinue d _ ?_ (by decide)]
      · exact hrest
      · simp [Scanner.run, Scanner.inState, stateESign, hd.1]

/-- The fraction and the exponent of a number, from the state after the integer. -/
theorem scan_fraction (x : Step) (hx : x = .s0 ∨ x = .s1) (st : List ParseState)
    (fr : List Char) (m : Char) (sg : Option Bool) (ed rest : List Char)
    (hfr : fr.all isDigit = true)
    (hm : m = 'e' ∨ m = 'E') (hd : ed.all isDigit = true) (hf : Follow rest) :
    checkLoop (Scanner.inState x st)
        (((if fr = [] then [] else '.' :: fr)
          ++ (if ed = [] then [] else m :: (signText sg ++ ed))) ++ rest)
      = checkLoop (Scanner.inState .endValue st) rest := by
  cases fr with
  | nil =>
    simp only [if_true, List.nil_append]
    exact scan_exponent x (by tauto) st m sg ed rest hm hd hf
  | cons c cs =>
    simp only [List.all_cons, Bool.and_eq_true] at hfr
    have hD : (Scanner.inState x st).run '.' = (.scanContinue, Scanner.inState .dot st) := by
      rcases hx with rfl | rfl <;> rfl
    simp only [reduceCtorEq, if_false, List.cons_append, List.append_assoc]
    rw [checkLoop_step _ _ _ _ _ hD (by decide),
      checkLoop_step _ (Scanner.inState .dot0 st) .scanContinue c _ ?_ (by decide),
      scan_digits .dot0 (by tauto) st cs _ hfr.2]
    · exact scan_exponent .dot0 (by tauto) st m sg ed rest hm hd hf
    · simp [Scanner.run, Scanner.inState, hfr.1]

/-- A number of the grammar, followed by a byte that ends it, is scanned as one value. -/
theorem scan_number (n : NumberLit) (hw : n.wellFormed = true) (st : List ParseState)
    (rest : List Char) (hf : Follow rest) (b : Step)
    (hb : b = .beginValue ∨ b = .beginValueOrEmpty) :
    checkLoop (Scanner.inState b st) (n.render ++ rest)
      = checkLoop (Scanner.inState .endValue st) rest := by
  obtain ⟨neg, int, fr, m, sg, ed⟩ := n
  simp only [NumberLit.wellFormed, Bool.and_eq_true, Bool.or_eq_true, decide_eq_true_eq] at hw
  obtain ⟨⟨⟨hi, hfr⟩, hm⟩, hd⟩ := hw
  have tail : ∀ x, x = Step.s0 ∨ x = Step.s1 →
      checkLoop (Scanner.inState x st)
        (((if fr = [] then [] else '.' :: fr)
          ++ (if ed = [] then [] else m :: (signText sg ++ ed))) ++ rest)
      = checkLoop (Scanner.inState .endValue st) rest :=
    fun x hx => scan_fraction x hx st fr m sg ed rest hfr hm hd hf
  cases int with
  | nil => simp at hi
  | cons c cs =>
    simp only [Bool.or_eq_true, Bool.and_eq_true, decide_eq_true_eq, List.isEmpty_iff] at hi
    have body : ∀ y, y = Step.neg ∨ y = Step.beginValue ∨ y = Step.beginValueOrEmpty →
        checkLoop (Scanner.inState y st)
          ((c :: cs) ++ (((if fr = [] then [] else '.' :: fr)
            ++ (if ed = [] then [] else m :: (signText sg ++ ed))) ++ rest))
        = checkLoop (Scanner.inState .endValue st) rest := by
      intro y hy
      rcases hi with ⟨rfl, rfl⟩ | ⟨h19, hcs⟩
      · have h0 : ∃ op, op ≠ Scan.scanError
            ∧ (Scanner.inState y st).run '0' = (op, Scanner.inState .s0 st) := by
          rcases hy with rfl | rfl | rfl
          · exact ⟨_, by decide, rfl⟩
          · exact ⟨.scanBeginLiteral, by decide, rfl⟩
          · exact ⟨.scanBeginLiteral, by decide, rfl⟩
        obtain ⟨op, hop, h0⟩ := h0
        rw [List.cons_append, List.nil_append, checkLoop_step _ _ _ _ _ h0 hop]
        exact tail _ (by tauto)
      · obtain ⟨n1, n2, n3, n4, n5, n6, n7, n8, n9, n10⟩ := isDigit19_not h19
        have h1 : ∃ op, op ≠ Scan.scanError
            ∧ (Scanner.inState y st).run c = (op, Scanner.inState .s1 st) := by
          rcases hy with rfl | rfl | rfl
          · exact ⟨.scanContinue, by decide, by simp [Scanner.run, Scanner.inState, h19, n7]⟩
          · exact ⟨.scanBeginLiteral, by decide, by
              simp [Scanner.run, Scanner.inState, stateBeginValue, *]⟩
          · exact ⟨.scanBeginLiteral, by decide, by
              simp [Scanner.run, Scanner.inState, stateBeginValue, *]⟩
        obtain ⟨op, hop, h1⟩ := h1
        rw [List.cons_append, checkLoop_step _ _ _ _ _ h1 hop,
          scan_digits .s1 (by tauto) st cs _ hcs]
        exact tail _ (by tauto)
    cases neg with
    | false =>
      simp only [NumberLit.render, Bool.false_eq_true, if_false, List.nil_append,
        List.append_assoc]
      simpa only [List.append_assoc] using body b (by tauto)
    | true =>
      simp only [NumberLit.render, if_true, List.append_assoc, List.cons_append, List.nil_append]
      have hN : (Scanner.inState b st).run '-' = (.scanBeginLiteral, Scanner.inState .neg st) := by
        rcases hb with rfl | rfl <;> rfl
      rw [checkLoop_step _ _ _ _ _ hN (by decide)]
      simpa only [List.append_assoc, List.cons_append] using body .neg (by tauto)

theorem Follow.nil : Follow [] := by
  intro c h; simp at h

theorem Follow.cons {c : Char} (rest : List Char) (h : isNumChar c = false) :
    Follow (c :: rest) := by
  intro c1 h1
  simp only [List.head?_cons, Option.some.injEq] at h1
  exact h1 ▸ h

theorem Follow.space (w rest : List Char) (hw : w.all isSpace = true) (h : Follow rest) :
    Follow (w ++ rest) := by
  cases w with
  | nil => exact h
  | cons c w =>
    simp only [List.all_cons, Bool.and_eq_true] at hw
    refine Follow.cons _ ?_
    rcases isSpace_cases hw.1 with rfl | rfl | rfl | rfl <;> rfl

theorem push_le (x : Step) (st : List ParseState) (p : ParseState) (op : Scan)
    (h : st.length + 1 ≤ maxNestingDepth) :
    Scanner.pushParseState (Scanner.inState x st) p op = (op, Scanner.inState x (p :: st)) := by
  simp [Scanner.pushParseState, Scanner.inState, h]

theorem scan_open (b : Step) (hb : b = .beginValue ∨ b = .beginValueOrEmpty)
    (st : List ParseState) (h : st.length + 1 ≤ maxNestingDepth) :
    (Scanner.inState b st).run '[' = (.scanBeginArray, Scanner.inState .beginValueOrEmpty (.arrayValue :: st))
    ∧ (Scanner.inState b st).run '{'
      = (.scanBeginObject, Scanner.inState .beginStringOrEmpty (.objectKey :: st)) := by
  have h1 := push_le .beginValueOrEmpty st .arrayValue .scanBeginArray h
  have h2 := push_le .beginStringOrEmpty st .objectKey .scanBeginObject h
  rcases hb with rfl | rfl
  · exact ⟨h1, h2⟩
  · exact ⟨h1, h2⟩

theorem scan_close_array (st : List ParseState) (b : Step)
    (hb : b = .endValue ∨ b = .beginValueOrEmpty) (rest : List Char) :
    checkLoop (Scanner.inState b (.arrayValue :: st)) (']' :: rest)
      = checkLoop (Scanner.inState .endValue st) rest := by
  rw [checkLoop_step _ (Scanner.popParseState (Scanner.inState b (.arrayValue :: st)))
    .scanEndArray ']' _ (by rcases hb with rfl | rfl <;> rfl) (by decide)]
  exact checkLoop_pop _ _ _ _

theorem scan_close_object (st : List ParseState) (rest : List Char) :
    checkLoop (Scanner.inState .endValue (.objectValue :: st)) ('}' :: rest)
      = checkLoop (Scanner.inState .endValue st) rest
    ∧ checkLoop (Scanner.inState .beginStringOrEmpty (.objectKey :: st)) ('}' :: rest)
      = checkLoop (Scanner.inState .endValue st) rest := by
  constructor
  · rw [checkLoop_step _ (Scanner.popParseState (Scanner.inState .endValue (.objectValue :: st)))
      .scanEndObject '}' _ (by rfl) (by decide)]
    exact checkLoop_pop _ _ _ _
  · rw [checkLoop_step _
      (Scanner.popParseState (Scanner.inState .beginStringOrEmpty (.objectValue :: st)))
      .scanEndObject '}' _ (by rfl) (by decide)]
    exact checkLoop_pop _ _ _ _

/-- A key with its colon, up to the start of the member's value. -/
theorem scan_key (st : List ParseState) (b : Step)
    (hb : b = .beginString ∨ b = .beginStringOrEmpty)
    (w1 k w2 w3 rest : List Char) (h1 : w1.all isSpace = true) (h2 : w2.all isSpace = true)
    (h3 : w3.all isSpace = true) (hk : StringBody k) :
    checkLoop (Scanner.inState b (.objectKey :: st))
        (w1 ++ ('"' :: (k ++ ('"' :: (w2 ++ (':' :: (w3 ++ rest)))))))
      = checkLoop (Scanner.inState .beginValue (.objectValue :: st)) rest := by
  rw [skip_begin _ b (by tauto) w1 _ h1,
    checkLoop_step _ (Scanner.inState .inString (.objectKey :: st)) .scanBeginLiteral '"' _
      (by rcases hb with rfl | rfl <;> rfl) (by decide),
    scan_string _ k _ hk, skip_end _ _ w2 _ h2,
    checkLoop_step _ (Scanner.inState .beginValue (.objectValue :: st)) .scanObjectKey ':' _
      (by rfl) (by decide),
    skip_begin _ .beginValue (by tauto) w3 _ h3]

/-- The scanner accepts the texts of the grammar that are nested at most
`maxNestingDepth` deep. -/
theorem gram_scans (P : NumberLit → Prop) (part : Part) (d : Nat) (cs : List Char)
    (h : Gram P part d cs) : Scans part d cs := by
  induction h with
  | null d =>
    intro st rest b hb _ _
    rcases hb with rfl | rfl <;> rfl
  | true_ d =>
    intro st rest b hb _ _
    rcases hb with rfl | rfl <;> rfl
  | false_ d =>
    intro st rest b hb _ _
    rcases hb with rfl | rfl <;> rfl
  | number d n hw hp =>
    intro st rest b hb _ hf
    exact scan_number n hw st rest hf b hb
  | string d k hk =>
    intro st rest b hb _ _
    simp only [List.cons_append, List.append_assoc, List.nil_append]
    rw [checkLoop_step _ (Scanner.inState .inString st) .scanBeginLiteral '"' _
      (by rcases hb with rfl | rfl <;> rfl) (by decide)]
    exact scan_string st k rest hk
  | emptyArray d w hw =>
    intro st rest b hb hd _
    simp only [List.cons_append, List.append_assoc, List.nil_append]
    rw [checkLoop_step _ _ _ _ _ (scan_open b hb st (by omega)).1 (by decide),
      skip_begin _ .beginValueOrEmpty (by tauto) w _ hw]
    exact scan_close_array st _ (by tauto) rest
  | array d es _ ih =>
    intro st rest b hb hd _
    simp only [List.cons_append, List.append_assoc, List.nil_append]
    rw [checkLoop_step _ _ _ _ _ (scan_open b hb st (by omega)).1 (by decide)]
    exact ih st rest .beginValueOrEmpty (by tauto) (by omega)
  | emptyObject d w hw =>
    intro st rest b hb hd _
    simp only [List.cons_append, List.append_assoc, List.nil_append]
    rw [checkLoop_step _ _ _ _ _ (scan_open b hb st (by omega)).2 (by decide),
      skip_begin _ .beginStringOrEmpty (by tauto) w _ hw]
    exact (scan_close_object st rest).2
  | object d ms _ ih =>
    intro st rest b hb hd _
    simp only [List.cons_append, List.append_assoc, List.nil_append]
    rw [checkLoop_step _ _ _ _ _ (scan_open b hb st (by omega)).2 (by decide)]
    exact ih st rest .beginStringOrEmpty (by tauto) (by omega)
  | element d w1 v w2 h1 h2 _ ih =>
    intro st rest b hb hd
    simp only [List.append_assoc]
    rw [skip_begin _ b (by tauto) w1 _ h1,
      ih (.arrayValue :: st) _ b hb (by simpa [Nat.add_assoc] using hd)
        (Follow.space w2 _ h2 (Follow.cons _ (by rfl))),
      skip_end _ _ w2 _ h2]
    exact scan_close_array st _ (by tauto) rest
  | elementCons d w1 v w2 es h1 h2 _ _ ih ihs =>
    intro st rest b hb hd
    simp only [List.append_assoc, List.cons_append]
    rw [skip_begin _ b (by tauto) w1 _ h1,
      ih (.arrayValue :: st) _ b hb (by simpa [Nat.add_assoc] using hd)
        (Follow.space w2 _ h2 (Follow.cons _ (by rfl))),
      skip_end _ _ w2 _ h2,
      checkLoop_step _ (Scanner.inState .beginValue (.arrayValue :: st)) .scanArrayValue ',' _
        (by rfl) (by decide)]
    exact ihs st rest .beginValue (by tauto) hd
  | member d w1 k w2 w3 v w4 h1 h2 h3 h4 hk _ ih =>
    intro st rest b hb hd
    simp only [List.append_assoc, List.cons_append]
    rw [scan_key st b hb w1 k w2 w3 _ h1 h2 h3 hk,
      ih (.objectValue :: st) _ .beginValue (by tauto) (by simpa [Nat.add_assoc] using hd)
        (Follow.space w4 _ h4 (Follow.cons _ (by rfl))),
      skip_end _ _ w4 _ h4]
    exact (scan_close_object st rest).1
  | memberCons d w1 k w2 w3 v w4 ms h1 h2 h3 h4 hk _ _ ih ihs =>
    intro st rest b hb hd
    simp only [List.append_assoc, List.cons_append]
    rw [scan_key st b hb w1 k w2 w3 _ h1 h2 h3 hk,
      ih (.objectValue :: st) _ .beginValue (by tauto) (by simpa [Nat.add_assoc] using hd)
        (Follow.space w4 _ h4 (Follow.cons _ (by rfl))),
      skip_end _ _ w4 _ h4,
      checkLoop_step _ (Scanner.inState .beginString (.objectKey :: st)) .scanObjectValue ',' _
        (by rfl) (by decide)]
    exact ihs st rest .beginString (by tauto) hd

theorem gram_mono (P : NumberLit → Prop) (part : Part) (d e : Nat) (cs : List Char)
    (h : Gram P part d cs) (hde : d ≤ e) : Gram P part e cs := by
  induction h generalizing e with
  | null d => exact .null e
  | true_ d => exact .true_ e
  | false_ d => exact .false_ e
  | number d n hw hp => exact .number e n hw hp
  | string d k hk => exact .string e k hk
  | emptyArray d w hw =>
    obtain ⟨e, rfl⟩ : ∃ e1, e = e1 + 1 := ⟨e - 1, by omega⟩
    exact .emptyArray e w hw
  | array d es _ ih =>
    obtain ⟨e, rfl⟩ : ∃ e1, e = e1 + 1 := ⟨e - 1, by omega⟩
    exact .array e es (ih e (by omega))
  | emptyObject d w hw =>
    obtain ⟨e, rfl⟩ : ∃ e1, e = e1 + 1 := ⟨e - 1, by omega⟩
    exact .emptyObject e w hw
  | object d ms _ ih =>
    obtain ⟨e, rfl⟩ : ∃ e1, e = e1 + 1 := ⟨e - 1, by omega⟩
    exact .object e ms (ih e (by omega))
  | element d w1 v w2 h1 h2 _ ih => exact .element e w1 v w2 h1 h2 (ih e hde)
  | elementCons d w1 v w2 es h1 h2 _ _ ih ihs =>
    exact .elementCons e w1 v w2 es h1 h2 (ih e hde) (ihs e hde)
  | member d w1 k w2 w3 v w4 h1 h2 h3 h4 hk _ ih =>
    exact .member e w1 k w2 w3 v w4 h1 h2 h3 h4 hk (ih e hde)
  | memberCons d w1 k w2 w3 v w4 ms h1 h2 h3 h4 hk _ _ ih ihs =>
    exact .memberCons e w1 k w2 w3 v w4 ms h1 h2 h3 h4 hk (ih e hde) (ihs e hde)

theorem dropWhile_space (w rest : List Char) (hw : w.all isSpace = true) :
    (w ++ '{' :: rest).dropWhile isSpace = '{' :: rest := by
  induction w with
  | nil => rfl
  | cons c w ih =>
    simp only [List.all_cons, Bool.and_eq_true] at hw
    simp [List.dropWhile, hw.1, ih hw.2]

/-- An object of the grammar, nested at most `maxNestingDepth` deep, is valid
JSON for the scanner and its top-level value is an object. -/
theorem objectText_isObject (P : NumberLit → Prop) (d : Nat) (text : String)
    (hd : d ≤ maxNestingDepth) (h : ObjectText P d text) : IsObject text := by
  obtain ⟨w1, v, w2, h1, h2, hv, hh, ht⟩ := h
  constructor
  · have hs := gram_scans P .value d v hv [] w2 .beginValue (by tauto) (by simpa using hd)
      (by simpa using Follow.space w2 [] h2 Follow.nil)
    show checkLoop Scanner.reset text.toList = true
    rw [ht]
    show checkLoop (Scanner.inState .beginValue []) (w1 ++ (v ++ w2)) = true
    rw [skip_begin _ .beginValue (by tauto) w1 _ h1, hs]
    exact skip_top w2 h2
  · cases v with
    | nil => simp at hh
    | cons c v =>
      simp only [List.head?_cons, Option.some.injEq] at hh
      subst hh
      simp only [topKind, ht, List.cons_append]
      rw [dropWhile_space w1 _ h1]
      rfl

theorem lex_space (w rest : List Char) (hw : w.all isSpace = true) :
    numberLiterals .out (w ++ rest) = numberLiterals .out rest := by
  induction w with
  | nil => rfl
  | cons c w ih =>
    simp only [List.all_cons, Bool.and_eq_true] at hw
    rw [← ih hw.2]
    rcases isSpace_cases hw.1 with rfl | rfl | rfl | rfl <;> rfl

theorem isHex_not {c : Char} (h : isHex c = true) : c ≠ '\\' ∧ c ≠ '"' := by
  constructor <;> (rintro rfl; exact absurd h (by decide))

theorem lex_str_plain (c : Char) (rest : List Char) (h1 : c ≠ '\\') (h2 : c ≠ '"') :
    numberLiterals .str (c :: rest) = numberLiterals .str rest := by
  simp [numberLiterals, h1, h2]

theorem lex_string (b rest : List Char) (hb : StringBody b) :
    numberLiterals .str (b ++ '"' :: rest) = numberLiterals .out rest := by
  induction hb with
  | nil => rfl
  | plain c b hc hq hb _ ih =>
    rw [List.cons_append, lex_str_plain c _ hb hq]
    exact ih
  | escape c b hc _ ih =>
    rw [← ih]
    rfl
  | unicode h1 h2 h3 h4 b hx _ ih =>
    rw [← ih]
    show numberLiterals .str (h1 :: h2 :: h3 :: h4 :: (b ++ '"' :: rest)) = _
    rw [lex_str_plain h1 _ (isHex_not hx.1).1 (isHex_not hx.1).2,
      lex_str_plain h2 _ (isHex_not hx.2.1).1 (isHex_not hx.2.1).2,
      lex_str_plain h3 _ (isHex_not hx.2.2.1).1 (isHex_not hx.2.2.1).2,
      lex_str_plain h4 _ (isHex_not hx.2.2.2).1 (isHex_not hx.2.2.2).2]

theorem lex_num_end (lit rest : List Char) (hf : Follow rest) :
    numberLiterals (.num lit) rest = lit.reverse :: numberLiterals .out rest := by
  cases rest with
  | nil => rfl
  | cons c r =>
    obtain ⟨h1, h2, -, -, -, -⟩ := isNumChar_false (hf c rfl)
    simp [numberLiterals, hf c rfl, h1, h2]

theorem lex_num (cs lit rest : List Char) (hcs : cs.all isNumChar = true) (hf : Follow rest) :
    numberLiterals (.num lit) (cs ++ rest) = (lit.reverse ++ cs) :: numberLiterals .out rest := by
  induction cs generalizing lit with
  | nil => simpa using lex_num_end lit rest hf
  | cons c cs ih =>
    simp only [List.all_cons, Bool.and_eq_true] at hcs
    simp only [List.cons_append, numberLiterals, hcs.1, if_true, List.append_eq]
    rw [ih (c :: lit) hcs.2]
    simp

theorem all_isNumChar_of_isDigit (ds : List Char) (h : ds.all isDigit = true) :
    ds.all isNumChar = true := by
  simp only [List.all_eq_true] at h ⊢
  intro c hc
  simp [isNumChar, h c hc]

theorem render_isNumChar (n : NumberLit) (hw : n.wellFormed = true) :
    n.render.all isNumChar = true := by
  obtain ⟨neg, int, fr, m, sg, ed⟩ := n
  simp only [NumberLit.wellFormed, Bool.and_eq_true, Bool.or_eq_true, decide_eq_true_eq] at hw
  obtain ⟨⟨⟨hi, hfr⟩, hm⟩, hd⟩ := hw
  have hint : int.all isNumChar = true := by
    cases int with
    | nil => rfl
    | cons c cs =>
      simp only [Bool.or_eq_true, Bool.and_eq_true, decide_eq_true_eq, List.isEmpty_iff] at hi
      rcases hi with ⟨rfl, rfl⟩ | ⟨h19, hcs⟩
      · rfl
      · exact all_isNumChar_of_isDigit _ (by simp [isDigit19_isDigit h19, hcs])
  have hs : (signText sg).all isNumChar = true := by
    rcases sg with _ | _ | _ <;> rfl
  have hmc : isNumChar m = true := by rcases hm with rfl | rfl <;> rfl
  simp only [NumberLit.render, List.all_append, Bool.and_eq_true]
  refine ⟨by cases neg <;> rfl, hint, ?_, ?_⟩
  · split
    · rfl
    · simp only [List.all_cons, Bool.and_eq_true]
      exact ⟨rfl, all_isNumChar_of_isDigit _ hfr⟩
  · split
    · rfl
    · simp only [List.all_cons, List.all_append, Bool.and_eq_true]
      exact ⟨hmc, hs, all_isNumChar_of_isDigit _ hd⟩

theorem render_head (n : NumberLit) (hw : n.wellFormed = true) :
    ∃ c cs, n.render = c :: cs ∧ (c = '-' ∨ isDigit c = true) := by
  obtain ⟨neg, int, fr, m, sg, ed⟩ := n
  simp only [NumberLit.wellFormed, Bool.and_eq_true, Bool.or_eq_true, decide_eq_true_eq] at hw
  obtain ⟨⟨⟨hi, -⟩, -⟩, -⟩ := hw
  cases neg with
  | true => exact ⟨'-', _, rfl, Or.inl rfl⟩
  | false =>
    cases int with
    | nil => simp at hi
    | cons c cs =>
      simp only [Bool.or_eq_true, Bool.and_eq_true, decide_eq_true_eq, List.isEmpty_iff] at hi
      refine ⟨c, _, rfl, Or.inr ?_⟩
      rcases hi with ⟨rfl, -⟩ | ⟨h19, -⟩
      · rfl
      · exact isDigit19_isDigit h19

/-- A number of the grammar, followed by a byte that ends it, is one literal of the lexer. -/
theorem lex_number (n : NumberLit) (hw : n.wellFormed = true) (rest : List Char)
    (hf : Follow rest) :
    numberLiterals .out (n.render ++ rest) = n.render :: numberLiterals .out rest := by
  obtain ⟨c, cs, hr, hc⟩ := render_head n hw
  have hall := render_isNumChar n hw
  rw [hr] at hall ⊢
  simp only [List.all_cons, Bool.and_eq_true] at hall
  have hq : c ≠ '"' := by
    rcases hc with rfl | hc
    · decide
    · exact (isDigit_not hc).2.2.2.2.1
  have hd : (c = '-' ∨ isDigit c = true) := hc
  simp only [List.cons_append, numberLiterals, hq, if_false, Bool.or_eq_true, decide_eq_true_eq,
    hd, if_true, List.append_eq]
  rw [lex_num cs [c] rest hall.2 hf]
  rfl

/-- Every number literal the lexer finds in a text of the grammar satisfies a
test that every number of the grammar satisfies. -/
theorem gram_lexes (P : NumberLit → Prop) (Q : List Char → Bool)
    (hQ : ∀ n : NumberLit, n.wellFormed = true → P n → Q n.render = true)
    (part : Part) (d : Nat) (cs : List Char) (h : Gram P part d cs) :
    ∀ rest, Follow rest →
      (numberLiterals .out (cs ++ rest)).all Q = (numberLiterals .out rest).all Q := by
  induction h with
  | null d => intro rest _; rfl
  | true_ d => intro rest _; rfl
  | false_ d => intro rest _; rfl
  | number d n hw hp =>
    intro rest hf
    rw [lex_number n hw rest hf, List.all_cons, hQ n hw hp, Bool.true_and]
  | string d k hk =>
    intro rest _
    simp only [List.cons_append, List.append_assoc, List.nil_append]
    show (numberLiterals .str (k ++ '"' :: rest)).all Q = _
    rw [lex_string k rest hk]
  | emptyArray d w hw =>
    intro rest _
    simp only [List.cons_append, List.append_assoc, List.nil_append]
    show (numberLiterals .out (w ++ ']' :: rest)).all Q = _
    rw [lex_space w _ hw]
    rfl
  | array d es _ ih =>
    intro rest _
    simp only [List.cons_append, List.append_assoc, List.nil_append]
    show (numberLiterals .out (es ++ ']' :: rest)).all Q = _
    rw [ih _ (Follow.cons _ (by rfl))]
    rfl
  | emptyObject d w hw =>
    intro rest _
    simp only [List.cons_append, List.append_assoc, List.nil_append]
    show (numberLiterals .out (w ++ '}' :: rest)).all Q = _
    rw [lex_space w _ hw]
    rfl
  | object d ms _ ih =>
    intro rest _
    simp only [List.cons_append, List.append_assoc, List.nil_append]
    show (numberLiterals .out (ms ++ '}' :: rest)).all Q = _
    rw [ih _ (Follow.cons _ (by rfl))]
    rfl
  | element d w1 v w2 h1 h2 _ ih =>
    intro rest hf
    simp only [List.append_assoc]
    rw [lex_space w1 _ h1, ih _ (Follow.space w2 _ h2 hf), lex_space w2 _ h2]
  | elementCons d w1 v w2 es h1 h2 _ _ ih ihs =>
    intro rest hf
    simp only [List.append_assoc, List.cons_append]
    rw [lex_space w1 _ h1, ih _ (Follow.space w2 _ h2 (Follow.cons _ (by rfl))),
      lex_space w2 _ h2]
    show (numberLiterals .out (es ++ rest)).all Q = _
    exact ihs rest hf
  | member d w1 k w2 w3 v w4 h1 h2 h3 h4 hk _ ih =>
    intro rest hf
    simp only [List.append_assoc, List.cons_append]
    rw [lex_space w1 _ h1]
    show (numberLiterals .str (k ++ '"' :: (w2 ++ ':' :: (w3 ++ (v ++ (w4 ++ rest)))))).all Q = _
    rw [lex_string k _ hk, lex_space w2 _ h2]
    show (numberLiterals .out (w3 ++ (v ++ (w4 ++ rest)))).all Q = _
    rw [lex_space w3 _ h3, ih _ (Follow.space w4 _ h4 hf), lex_space w4 _ h4]
  | memberCons d w1 k w2 w3 v w4 ms h1 h2 h3 h4 hk _ _ ih ihs =>
    intro rest hf
    simp only [List.append_assoc, List.cons_append]
    rw [lex_space w1 _ h1]
    show (numberLiterals .str
      (k ++ '"' :: (w2 ++ ':' :: (w3 ++ (v ++ (w4 ++ ',' :: (ms ++ rest))))))).all Q = _
    rw [lex_string k _ hk, lex_space w2 _ h2]
    show (numberLiterals .out (w3 ++ (v ++ (w4 ++ ',' :: (ms ++ rest))))).all Q = _
    rw [lex_space w3 _ h3, ih _ (Follow.space w4 _ h4 (Follow.cons _ (by rfl))),
      lex_space w4 _ h4]
    show (numberLiterals .out (ms ++ rest)).all Q = _
    exact ihs rest hf

theorem isDigit_bounds {c : Char} (h : isDigit c = true) : 48 ≤ c.toNat ∧ c.toNat ≤ 57 := by
  simpa [isDigit] using h

theorem digitsValue_foldl (ys : List Char) (a : Nat) :
    ys.foldl (fun a c => 10 * a + (c.toNat - '0'.toNat)) a
      = a * 10 ^ ys.length + digitsValue ys := by
  induction ys generalizing a with
  | nil => simp [digitsValue]
  | cons c cs ih =>
    simp only [List.foldl_cons, List.length_cons, digitsValue]
    rw [ih, ih (10 * 0 + _)]
    ring

theorem digitsValue_append (xs ys : List Char) :
    digitsValue (xs ++ ys) = digitsValue xs * 10 ^ ys.length + digitsValue ys := by
  rw [digitsValue, List.foldl_append, digitsValue_foldl]
  rfl

/-- One digit of the digit loop, while the buffer has room. -/
theorem addDigit_spec (b : Decimal) (c : Char) (hl : b.d.length < decimalDigits) :
    digitsValue (b.addDigit c).d = digitsValue (b.d ++ [c])
    ∧ ((b.addDigit c).d.length : Int) - (b.addDigit c).dp = (b.d.length : Int) - b.dp + 1
    ∧ (b.addDigit c).d.length ≤ b.d.length + 1 := by
  unfold Decimal.addDigit
  by_cases h0 : c = '0' ∧ b.d = []
  · rw [if_pos h0]
    obtain ⟨rfl, h1⟩ := h0
    simp only [h1, List.nil_append, List.length_nil]
    refine ⟨by rfl, by omega, by omega⟩
  · rw [if_neg h0, if_pos hl]
    simp only [List.length_append, List.length_singleton, Nat.cast_add, Nat.cast_one]
    refine ⟨trivial, by omega, by omega⟩

/-- A run of digits of the digit loop, while the buffer has room. -/
theorem addDigits_spec (ds : List Char) (b : Decimal)
    (hl : b.d.length + ds.length ≤ decimalDigits) :
    digitsValue (ds.foldl Decimal.addDigit b).d = digitsValue (b.d ++ ds)
    ∧ ((ds.foldl Decimal.addDigit b).d.length : Int) - (ds.foldl Decimal.addDigit b).dp
        = (b.d.length : Int) - b.dp + ds.length
    ∧ (ds.foldl Decimal.addDigit b).d.length ≤ b.d.length + ds.length := by
  induction ds generalizing b with
  | nil => simp
  | cons c cs ih =>
    simp only [List.length_cons] at hl
    obtain ⟨h1, h2, h3⟩ := addDigit_spec b c (by omega)
    obtain ⟨i1, i2, i3⟩ := ih (b.addDigit c) (by omega)
    simp only [List.foldl_cons, List.length_cons]
    refine ⟨?_, ?_, by omega⟩
    · rw [i1, digitsValue_append, h1, digitsValue_append b.d (c :: cs), digitsValue_append b.d [c],
        show c :: cs = [c] ++ cs from rfl, digitsValue_append [c] cs]
      simp only [List.length_singleton, List.length_append]
      ring
    · rw [i2, h2]
      push_cast
      ring

theorem setDigits_digits (ds rest : List Char) (b : Decimal) (sd : Bool)
    (hd : ds.all isDigit = true) :
    setDigits b sd (ds ++ rest) = setDigits (ds.foldl Decimal.addDigit b) sd rest := by
  induction ds generalizing b with
  | nil => rfl
  | cons c cs ih =>
    simp only [List.all_cons, Bool.and_eq_true] at hd
    simp only [List.cons_append, setDigits, (isDigit_not hd.1).2.1, if_false, hd.1, if_true,
      List.foldl_cons]
    exact ih _ hd.2

/-- The digit loop stops at the end of the literal and at the exponent marker. -/
theorem setDigits_stop (b : Decimal) (sd : Bool) (m : Char) (hm : m = 'e' ∨ m = 'E')
    (rest : List Char) :
    setDigits b sd [] = (b, sd, []) ∧ setDigits b sd (m :: rest) = (b, sd, m :: rest) := by
  refine ⟨rfl, ?_⟩
  rcases hm with rfl | rfl <;> rfl

/-- The exponent loop on at most four digits reads their value. -/
theorem setExponent_spec (ds : List Char) (e k : Nat) (hd : ds.all isDigit = true)
    (he : e < 10 ^ k) (hk : k + ds.length ≤ 4) :
    setExponent e ds = e * 10 ^ ds.length + digitsValue ds := by
  induction ds generalizing e k with
  | nil => simp [setExponent, digitsValue]
  | cons c cs ih =>
    simp only [List.all_cons, Bool.and_eq_true] at hd
    simp only [List.length_cons] at hk
    obtain ⟨b1, b2⟩ := isDigit_bounds hd.1
    have hp : 10 ^ k ≤ 10 ^ 3 := Nat.pow_le_pow_right (by decide) (by omega)
    have he2 : e < 10000 := by omega
    have hz : '0'.toNat = 48 := rfl
    simp only [setExponent, hd.1, if_true, he2]
    rw [ih (e * 10 + (c.toNat - '0'.toNat)) (k + 1) hd.2 (by rw [pow_succ, hz]; omega) (by omega),
      show c :: cs = [c] ++ cs from rfl, digitsValue_append [c] cs]
    simp only [List.length_cons, List.singleton_append, pow_succ]
    have : digitsValue [c] = c.toNat - '0'.toNat := by simp [digitsValue]
    rw [this]
    ring

/-- The decimal point of a literal: `k` is the number of digits kept minus the
position of the point. -/
theorem overflows_false (b : Decimal) (k : Int) (hk : (b.d.length : Int) - b.dp = k)
    (h1 : 0 ≤ k → digitsValue b.d < float64Limit * 10 ^ k.toNat)
    (h2 : k ≤ 0 → digitsValue b.d * 10 ^ (-k).toNat < float64Limit) :
    b.overflows = false := by
  unfold Decimal.overflows
  split
  · rename_i h
    have := h2 (by omega)
    have e : (b.dp - (b.d.length : Int)) = -k := by omega
    rw [e]
    simpa using this
  · rename_i h
    have := h1 (by omega)
    have e : ((b.d.length : Int) - b.dp) = k := hk
    rw [e]
    simpa using this

theorem stripSign_render (n : NumberLit) (hw : n.wellFormed = true) :
    stripSign n.render
      = n.int ++ ((if n.frac = [] then [] else '.' :: n.frac)
          ++ (if n.expDigits = [] then [] else n.expMarker :: (signText n.expSign ++ n.expDigits))) := by
  obtain ⟨neg, int, fr, m, sg, ed⟩ := n
  simp only [NumberLit.wellFormed, Bool.and_eq_true, Bool.or_eq_true, decide_eq_true_eq] at hw
  obtain ⟨⟨⟨hi, -⟩, -⟩, -⟩ := hw
  cases neg with
  | true => rfl
  | false =>
    cases int with
    | nil => simp at hi
    | cons c cs =>
      simp only [Bool.or_eq_true, Bool.and_eq_true, decide_eq_true_eq, List.isEmpty_iff] at hi
      have hc : isDigit c = true := by
        rcases hi with ⟨rfl, -⟩ | ⟨h19, -⟩
        · rfl
        · exact isDigit19_isDigit h19
      obtain ⟨-, -, -, -, -, h1, h2, -⟩ := isDigit_not hc
      simp [NumberLit.render, stripSign, h1, h2]

theorem int_isDigit (n : NumberLit) (hw : n.wellFormed = true) : n.int.all isDigit = true := by
  obtain ⟨neg, int, fr, m, sg, ed⟩ := n
  simp only [NumberLit.wellFormed, Bool.and_eq_true, Bool.or_eq_true, decide_eq_true_eq] at hw
  obtain ⟨⟨⟨hi, -⟩, -⟩, -⟩ := hw
  cases int with
  | nil => rfl
  | cons c cs =>
    simp only [Bool.or_eq_true, Bool.and_eq_true, decide_eq_true_eq, List.isEmpty_iff] at hi
    rcases hi with ⟨rfl, rfl⟩ | ⟨h19, hcs⟩
    · rfl
    · simp [isDigit19_isDigit h19, hcs]

/-- The digit loop on a number of the grammar with at most 800 digits: it
stops at the exponent with every digit accounted for. -/
theorem setDigits_render (int fr x : List Char) (hi : int.all isDigit = true)
    (hfr : fr.all isDigit = true) (hl : (int ++ fr).length ≤ decimalDigits)
    (hx : ∀ b sd, setDigits b sd x = (b, sd, x)) :
    ∃ (b : Decimal) (sd : Bool),
      setDigits {} false (int ++ ((if fr = [] then [] else '.' :: fr) ++ x)) = (b, sd, x)
      ∧ digitsValue b.d = digitsValue (int ++ fr)
      ∧ (b.d.length : Int) - (if sd then b.dp else b.d.length) = fr.length := by
  simp only [List.length_append] at hl
  obtain ⟨a1, -, a3⟩ := addDigits_spec int {} (by simp only [List.length_nil]; omega)
  simp only [List.nil_append, List.length_nil, Nat.zero_add] at a1 a3
  rw [setDigits_digits int _ _ _ hi]
  cases fr with
  | nil =>
    refine ⟨List.foldl Decimal.addDigit {} int, false, ?_, ?_, ?_⟩
    · simp only [if_true, List.nil_append]
      exact hx _ _
    · simpa using a1
    · simp
  | cons f fs =>
    have hdot : ∀ (b : Decimal) (r : List Char),
        setDigits b false ('.' :: r) = setDigits { b with dp := b.d.length } true r := by
      intro b r; simp [setDigits]
    obtain ⟨c1, c2, -⟩ := addDigits_spec (f :: fs)
      { List.foldl Decimal.addDigit {} int with dp := (List.foldl Decimal.addDigit {} int).d.length }
      (by simp only [List.length_cons] at hl ⊢; omega)
    refine ⟨List.foldl Decimal.addDigit
      { List.foldl Decimal.addDigit {} int with
        dp := (List.foldl Decimal.addDigit {} int).d.length } (f :: fs), true, ?_, ?_, ?_⟩
    · simp only [reduceCtorEq, if_false, List.cons_append]
      rw [hdot, ← List.cons_append, setDigits_digits (f :: fs) _ _ _ hfr, hx]
    · rw [c1, digitsValue_append, a1, ← digitsValue_append]
    · simp only [if_true]
      rw [c2]
      simp

/-- The exponent of a number of the grammar with at most four exponent digits
moves the decimal point by its value. -/
theorem movePoint_render (b : Decimal) (m : Char) (sg : Option Bool) (ed : List Char)
    (hm : m = 'e' ∨ m = 'E') (hd : ed.all isDigit = true) (hl : ed.length ≤ 4) :
    (movePoint b (if ed = [] then [] else m :: (signText sg ++ ed))).d = b.d
    ∧ (movePoint b (if ed = [] then [] else m :: (signText sg ++ ed))).dp
      = b.dp + (if sg = some true then -1 else 1) * (digitsValue ed : Int) := by
  cases ed with
  | nil => simp [movePoint, digitsValue]
  | cons d ds =>
    have hsign : exponentSign (signText sg ++ d :: ds)
        = (if sg = some true then -1 else 1, d :: ds) := by
      simp only [List.all_cons, Bool.and_eq_true] at hd
      obtain ⟨-, -, -, -, -, h1, h2, -⟩ := isDigit_not hd.1
      rcases sg with _ | _ | _
      · simp [signText, exponentSign, h1, h2]
      · rfl
      · rfl
    have hexp := setExponent_spec (d :: ds) 0 0 hd (by decide) (by simpa using hl)
    simp only [Nat.zero_mul, Nat.zero_add] at hexp
    have hmv : movePoint b (m :: (signText sg ++ d :: ds))
        = { b with dp := b.dp + (exponentSign (signText sg ++ d :: ds)).1
            * (setExponent 0 (exponentSign (signText sg ++ d :: ds)).2 : Nat) } := by
      rcases hm with rfl | rfl <;> rfl
    simp only [reduceCtorEq, if_false]
    rw [hmv, hsign, hexp]
    exact ⟨rfl, rfl⟩

/-- The decimal that `decimal.set` reads from a number of the grammar with at
most 800 digits and at most four exponent digits. -/
theorem decimalSet_render (n : NumberLit) (hw : n.wellFormed = true)
    (h1 : (n.int ++ n.frac).length ≤ decimalDigits) (h2 : n.expDigits.length ≤ 4) :
    digitsValue (decimalSet n.render).d = digitsValue (n.int ++ n.frac)
    ∧ ((decimalSet n.render).d.length : Int) - (decimalSet n.render).dp
      = n.frac.length - (if n.expSign = some true then -1 else 1) * (digitsValue n.expDigits : Int) := by
  have hs := stripSign_render n hw
  have hi := int_isDigit n hw
  obtain ⟨neg, int, fr, m, sg, ed⟩ := n
  simp only [NumberLit.wellFormed, Bool.and_eq_true, Bool.or_eq_true, decide_eq_true_eq] at hw
  obtain ⟨⟨⟨-, hfr⟩, hm⟩, hd⟩ := hw
  simp only at hs hi h1 h2 ⊢
  have hx : ∀ b sd, setDigits b sd (if ed = [] then [] else m :: (signText sg ++ ed))
      = (b, sd, if ed = [] then [] else m :: (signText sg ++ ed)) := by
    intro b sd
    split
    · rfl
    · exact (setDigits_stop b sd m hm _).2
  obtain ⟨b, sd, e1, e3, e4⟩ := setDigits_render int fr _ hi hfr h1 hx
  obtain ⟨m1, m2⟩ := movePoint_render (if sd then b else { b with dp := b.d.length }) m sg ed
    hm hd h2
  simp only [decimalSet, hs, e1]
  rw [m1, m2]
  cases sd
  · simp only [Bool.false_eq_true, if_false] at e4 ⊢
    refine ⟨e3, ?_⟩
    omega
  · simp only [if_true] at e4 ⊢
    refine ⟨e3, ?_⟩
    omega

/-- A number of the grammar that `fits` gives no range error. -/
theorem fits_no_rangeError (n : NumberLit) (hw : n.wellFormed = true) (hf : n.fits = true) :
    parseFloatRangeError n.render = false := by
  simp only [NumberLit.fits, Bool.and_eq_true, decide_eq_true_eq] at hf
  obtain ⟨⟨h1, h2⟩, h3⟩ := hf
  obtain ⟨d1, d2⟩ := decimalSet_render n hw h1 h2
  refine overflows_false _ _ d2 ?_ ?_
  · intro hk
    rw [d1]
    split at h3
    · rename_i hsg
      simp only [decide_eq_true_eq] at h3
      rw [if_pos hsg] at hk ⊢
      have : ((n.frac.length : Int) - -1 * (digitsValue n.expDigits : Int)).toNat
          = digitsValue n.expDigits + n.frac.length := by omega
      rw [this]; exact h3
    · rename_i hsg
      rw [if_neg hsg] at hk ⊢
      split at h3
      · rename_i hle
        simp only [decide_eq_true_eq] at h3
        have e0 : digitsValue n.expDigits - n.frac.length = 0 := by omega
        have : ((n.frac.length : Int) - 1 * (digitsValue n.expDigits : Int)).toNat = 0 := by omega
        rw [this]
        rw [e0] at h3
        simpa using h3
      · rename_i hlt
        simp only [decide_eq_true_eq] at h3
        have : ((n.frac.length : Int) - 1 * (digitsValue n.expDigits : Int)).toNat
            = n.frac.length - digitsValue n.expDigits := by omega
        rw [this]; exact h3
  · intro hk
    rw [d1]
    split at h3
    · rename_i hsg
      simp only [decide_eq_true_eq] at h3
      rw [if_pos hsg] at hk ⊢
      have e0 : digitsValue n.expDigits + n.frac.length = 0 := by omega
      have : (-((n.frac.length : Int) - -1 * (digitsValue n.expDigits : Int))).toNat = 0 := by omega
      rw [this]
      rw [e0] at h3
      simpa using h3
    · rename_i hsg
      rw [if_neg hsg] at hk ⊢
      have hle : n.frac.length ≤ digitsValue n.expDigits := by omega
      rw [if_pos hle] at h3
      simp only [decide_eq_true_eq] at h3
      have : (-((n.frac.length : Int) - 1 * (digitsValue n.expDigits : Int))).toNat
          = digitsValue n.expDigits - n.frac.length := by omega
      rw [this]; exact h3

/-- Every number literal of an object of the grammar whose numbers fit
converts without a range error. -/
theorem objectText_numbersFit (d : Nat) (text : String)
    (h : ObjectText (fun n => n.fits = true) d text) : numbersFit text = true := by
  obtain ⟨w1, v, w2, h1, h2, hv, -, ht⟩ := h
  have hl := gram_lexes (fun n => n.fits = true) (fun lit => !parseFloatRangeError lit)
    (fun n hw hf => by simp [fits_no_rangeError n hw hf]) .value d v hv w2
    (by simpa using Follow.space w2 [] h2 Follow.nil)
  unfold numbersFit
  rw [ht, lex_space w1 _ h1, hl]
  have := lex_space w2 [] h2
  simp only [List.append_nil] at this
  rw [this]
  rfl

theorem StringBody.of_plain (k : List Char)
    (h : k.all (fun c => decide (0x20 ≤ c.toNat) && decide (c ≠ '"') && decide (c ≠ '\\')) = true) :
    StringBody k := by
  induction k with
  | nil => exact .nil
  | cons c k ih =>
    simp only [List.all_cons, Bool.and_eq_true, decide_eq_true_eq] at h
    exact .plain c k h.1.1.1 h.1.1.2 h.1.2 (ih (by simpa using h.2))

/-- An object with a single member, without whitespace. -/
theorem objectText_single (P : NumberLit → Prop) (d : Nat) (k v : List Char) (text : String)
    (hk : StringBody k) (hv : Gram P .value d v)
    (ht : text.toList = '{' :: '"' :: (k ++ '"' :: ':' :: (v ++ ['}']))) :
    ObjectText P (d + 1) text := by
  refine ⟨[], _, [], rfl, rfl,
    .object d _ (.member d [] k [] [] v [] rfl rfl rfl rfl hk hv), rfl, ?_⟩
  simpa using ht

theorem objectText_mono (P : NumberLit → Prop) (d e : Nat) (text : String)
    (h : ObjectText P d text) (hde : d ≤ e) : ObjectText P e text := by
  obtain ⟨w1, v, w2, h1, h2, hv, hh, ht⟩ := h
  exact ⟨w1, v, w2, h1, h2, gram_mono P .value d e v hv hde, hh, ht⟩

end Json


/-! ## The admission gate: validation and defaulting -/

open v1 controller

/-- C1 (validation parity), evaluated at `spec.jsonConfig = "[1,2,3]"` on the
resource `app-demo`: the gate's check rejects the text in `ValidateCreate` and
in `ValidateUpdate`, while the reconciler's check (`json.Unmarshal` into an
`interface{}`) accepts it, so that `Reconcile` does not take the early exit and
ends with `status.state = "Synced"`. -/
theorem validation_parity_broken_on_array :
    ValidateCreate (demoResource "[1,2,3]")
        = some "Error: spec.jsonConfig is not a valid json object"
      ∧ ValidateUpdate (demoResource "[1,2,3]") (demoResource emptyJson)
        = some "Error: spec.jsonConfig is not a valid json object"
      ∧ Json.Unmarshal "[1,2,3]" .iface = none
      ∧ (demoStatus (Reconcile noFaults demoKey (demoWorld "[1,2,3]")).2).map (fun st => st.State)
        = some "Synced" := by
  decide

/-- C2 (the gate rejects every text that is not a JSON object), evaluated at
`spec.jsonConfig = "null"` on the resource `app-demo`: the text is valid JSON
whose top-level value is null, not an object, and both `ValidateCreate` and
`ValidateUpdate` return no error. -/
theorem gate_accepts_null :
    Json.Valid "null" = true
      ∧ Json.topKind "null" = some .null
      ∧ ¬ Json.IsObject "null"
      ∧ ValidateCreate (demoResource "null") = none
      ∧ ValidateUpdate (demoResource "null") (demoResource emptyJson) = none := by
  decide

/-- The gate rejects, on create and on update, every text that is not valid
JSON and every valid text whose top-level value is an array, a string, a
number or a boolean. -/
theorem gate_rejects_non_objects (r old : JsonServer)
    (h : Json.Valid r.Spec.JsonConfig = false
      ∨ Json.topKind r.Spec.JsonConfig = some .array
      ∨ Json.topKind r.Spec.JsonConfig = some .string
      ∨ Json.topKind r.Spec.JsonConfig = some .number
      ∨ Json.topKind r.Spec.JsonConfig = some .bool) :
    ValidateCreate r ≠ none ∧ ValidateUpdate r old ≠ none := by
  have hu : (Json.Unmarshal r.Spec.JsonConfig .mapStringIface).isSome = true := by
    unfold Json.Unmarshal
    rcases h with h | h | h | h | h
    · have hv : Json.checkValid r.Spec.JsonConfig = false := h
      simp [hv]
    all_goals (split_ifs <;> simp [h])
  unfold ValidateCreate ValidateUpdate
  split_ifs <;> simp

/-- The text `{"todos":[]}` is a JSON object of the grammar. -/
theorem todosJson_objectText (P : Json.NumberLit → Prop) :
    Json.ObjectText P Json.maxNestingDepth todosJson :=
  Json.objectText_mono P 2 _ _
    (Json.objectText_single P 1 ['t', 'o', 'd', 'o', 's'] ['[', ']'] todosJson
      (Json.StringBody.of_plain _ (by decide)) (.emptyArray 0 [] rfl) (by decide))
    (by decide)

/-- The text `{"n":[1,-2.5e3]}` is a JSON object of the grammar whose numbers fit. -/
theorem numbersJson_objectText :
    Json.ObjectText (fun n => n.fits = true) Json.maxNestingDepth numbersJson :=
  Json.objectText_mono _ 2 _ _
    (Json.objectText_single _ 1 ['n'] ['[', '1', ',', '-', '2', '.', '5', 'e', '3', ']'] numbersJson
      (Json.StringBody.of_plain _ (by decide))
      (.array 0 _ (.elementCons 0 [] ['1'] [] _ rfl rfl
        (.number 0 { int := ['1'] } (by decide) (by decide))
        (.element 0 [] _ []  rfl rfl
          (.number 0 { neg := true, int := ['2'], frac := ['5'], expDigits := ['3'] }
            (by decide) (by decide)))))
      (by decide))
    (by decide)

/-- C3 as stated fails: `app-demo` carries the prefix and `{"a":1e999}` is a
JSON object, by the grammar (nested one deep) and for the scanner, yet
`ValidateCreate` and `ValidateUpdate` return an error, because the number does
not fit a `float64`. -/
theorem naming_rule_counterexample :
    HasPrefix (demoResource bigNumberJson).Name "app-" = true
      ∧ Json.ObjectText (fun _ => True) 1 bigNumberJson
      ∧ Json.IsObject bigNumberJson
      ∧ ValidateCreate (demoResource bigNumberJson)
        = some "Error: spec.jsonConfig is not a valid json object"
      ∧ ValidateUpdate (demoResource bigNumberJson) (demoResource emptyJson)
        = some "Error: spec.jsonConfig is not a valid json object" :=
  ⟨by decide,
   Json.objectText_single _ 0 ['a'] _ bigNumberJson (Json.StringBody.of_plain _ (by decide))
     (.number 0 { int := ['1'], expDigits := ['9', '9', '9'] } (by decide) trivial) (by decide),
   by decide, by decide, by decide⟩

/-- C3, amended (naming rule): a resource whose name does not start with
`app-` is rejected by `ValidateCreate` and by `ValidateUpdate` for every old
object, whatever `spec.jsonConfig` is; and a resource whose name starts with
`app-` is accepted by both when its `spec.jsonConfig` is a JSON object of the
grammar of RFC 8259, nested at most 10000 deep, each number of which has at
most 800 digits before the exponent, at most four exponent digits and a
magnitude below `2 ^ 1024 - 2 ^ 970`. -/
theorem naming_rule (r old : JsonServer) :
    (HasPrefix r.Name "app-" = false →
        ValidateCreate r = some "name must start with app-"
          ∧ ValidateUpdate r old = some "name must start with app-")
      ∧ (HasPrefix r.Name "app-" = true →
          Json.ObjectText (fun n => n.fits = true) Json.maxNestingDepth r.Spec.JsonConfig →
          ValidateCreate r = none ∧ ValidateUpdate r old = none) := by
  constructor
  · intro h
    simp [ValidateCreate, ValidateUpdate, h]
  · intro h hobj
    obtain ⟨hvalid, htop⟩ := Json.objectText_isObject _ _ _ (Nat.le_refl _) hobj
    have hfit := Json.objectText_numbersFit _ _ hobj
    have hv : Json.checkValid r.Spec.JsonConfig = true := hvalid
    simp [ValidateCreate, ValidateUpdate, h, Json.Unmarshal, hv, htop, hfit]

/-- C3, amended, at `demo` (rejected for its name), at `app-demo` with
`{"todos":[]}` and at `app-demo` with `{"n":[1,-2.5e3]}` (both accepted). -/
theorem naming_rule_witness :
    (ValidateCreate ({ Name := "demo" } : JsonServer) = some "name must start with app-"
        ∧ ValidateUpdate ({ Name := "demo" } : JsonServer) (demoResource emptyJson)
          = some "name must start with app-")
      ∧ (ValidateCreate (demoResource todosJson) = none
        ∧ ValidateUpdate (demoResource todosJson) (demoResource emptyJson) = none)
      ∧ (ValidateCreate (demoResource numbersJson) = none
        ∧ ValidateUpdate (demoResource numbersJson) (demoResource emptyJson) = none) :=
  ⟨(naming_rule ({ Name := "demo" } : JsonServer) (demoResource emptyJson)).1 (by decide),
   (naming_rule (demoResource todosJson) (demoResource emptyJson)).2
     (by decide) (todosJson_objectText _),
   (naming_rule (demoResource numbersJson) (demoResource emptyJson)).2
     (by decide) numbersJson_objectText⟩

/-- C6 (defaulting): when `spec.replicas` is unset, `Default` sets it to 1 and
the reconciler's desired Deployment has replica count 1; when it is set to `n`
(zero included), `Default` leaves it and the desired Deployment has replica
count `n`; and `Default`, a total function, changes no field other than
`spec.replicas`. -/
theorem defaulting (r : JsonServer) (n : Int) :
    (r.Spec.Replicas = none →
        (Default r).Spec.Replicas = some 1 ∧ (desiredDeploy r).Spec.Replicas = some 1)
      ∧ (r.Spec.Replicas = some n →
        (Default r).Spec.Replicas = some n ∧ (desiredDeploy r).Spec.Replicas = some n)
      ∧ Default r = { r with Spec := { r.Spec with Replicas := (Default r).Spec.Replicas } } := by
  refine ⟨?_, ?_, ?_⟩
  · intro h
    simp [Default, desiredDeploy, h]
  · intro h
    simp [Default, desiredDeploy, h]
  · unfold Default
    split <;> rfl

/-- C6 at `app-demo` with `spec.replicas` unset, and at the same resource with
an explicit zero. -/
theorem defaulting_witness :
    ((Default (demoResource emptyJson)).Spec.Replicas = some 1
        ∧ (desiredDeploy (demoResource emptyJson)).Spec.Replicas = some 1)
      ∧ ((Default { demoResource emptyJson with Spec := { Replicas := some 0 } }).Spec.Replicas = some 0
        ∧ (desiredDeploy { demoResource emptyJson with Spec := { Replicas := some 0 } }).Spec.Replicas
          = some 0) :=
  ⟨(defaulting (demoResource emptyJson) 0).1 rfl,
   (defaulting { demoResource emptyJson with Spec := { Replicas := some 0 } } 0).2.1 rfl⟩

/-! ## The reconciler: lemmas -/

namespace controller

open ClientObject LawfulClientObject

/-- A status update appends exactly its own call to the log. -/
theorem StatusUpdate_log (F : Faults) (js : JsonServer) (w : World) :
    (StatusUpdate F js w).2.log = w.log ++ [.statusUpdate js] := by
  unfold StatusUpdate
  dsimp only
  split
  · rfl
  · split <;> rfl

/-- A status update leaves the three child tables as they are. -/
theorem StatusUpdate_children (F : Faults) (js : JsonServer) (w : World) :
    (StatusUpdate F js w).2.cluster.configMaps = w.cluster.configMaps
      ∧ (StatusUpdate F js w).2.cluster.deployments = w.cluster.deployments
      ∧ (StatusUpdate F js w).2.cluster.services = w.cluster.services := by
  unfold StatusUpdate
  dsimp only
  split
  · exact ⟨rfl, rfl, rfl⟩
  · split <;> exact ⟨rfl, rfl, rfl⟩

/-- A read appends exactly its own call to the log and leaves the store as it is. -/
theorem Get_world {α : Type} [ClientObject α] (F : Faults) (key : NamespacedName) (obj : α)
    (w : World) :
    (Get F key obj w).2.2 = w.record (.get (ClientObject.kind α) key) := by
  unfold Get
  dsimp only
  split
  · rfl
  · split <;> rfl

/-- The last entry of a log that ends with a status update is that update. -/
theorem StatusUpdate_getLast (F : Faults) (js : JsonServer) (w : World) :
    (StatusUpdate F js w).2.log.getLast? = some (.statusUpdate js) := by
  rw [StatusUpdate_log]
  simp

/-- The seven ways through `Reconcile`: a property holds of its result as soon
as it holds on each path. -/
theorem Reconcile_cases (F : Faults) (req : NamespacedName) (w : World)
    (P : Option Err × World → Prop)
    (hA : ∀ err js w1, Get F req ({} : JsonServer) w = (some err, js, w1) →
      P (IgnoreNotFound err, w1))
    (hB : ∀ js w1, Get F req ({} : JsonServer) w = (none, js, w1) →
      (Json.Unmarshal js.Spec.JsonConfig .iface).isSome = true →
      P (StatusUpdate F (withState js "Error" invalidMessage) w1))
    (hC : ∀ js w1 err w2, Get F req ({} : JsonServer) w = (none, js, w1) →
      (Json.Unmarshal js.Spec.JsonConfig .iface).isSome = false →
      convergeConfigMap F js w1 = (some err, w2) → P (failStep F js err w2))
    (hD : ∀ js w1 w2 err d w3, Get F req ({} : JsonServer) w = (none, js, w1) →
      (Json.Unmarshal js.Spec.JsonConfig .iface).isSome = false →
      convergeConfigMap F js w1 = (none, w2) →
      convergeDeployment F js w2 = (some err, d, w3) → P (failStep F js err w3))
    (hE : ∀ js w1 w2 d w3 err sv w4, Get F req ({} : JsonServer) w = (none, js, w1) →
      (Json.Unmarshal js.Spec.JsonConfig .iface).isSome = false →
      convergeConfigMap F js w1 = (none, w2) →
      convergeDeployment F js w2 = (none, d, w3) →
      convergeService F js w3 = (some err, sv, w4) → P (failStep F js err w4))
    (hF : ∀ js w1 w2 d w3 sv w4 err d1 w5, Get F req ({} : JsonServer) w = (none, js, w1) →
      (Json.Unmarshal js.Spec.JsonConfig .iface).isSome = false →
      convergeConfigMap F js w1 = (none, w2) →
      convergeDeployment F js w2 = (none, d, w3) →
      convergeService F js w3 = (none, sv, w4) →
      Get F req d w4 = (some err, d1, w5) → P (some err, w5))
    (hG : ∀ js w1 w2 d w3 sv w4 d1 w5, Get F req ({} : JsonServer) w = (none, js, w1) →
      (Json.Unmarshal js.Spec.JsonConfig .iface).isSome = false →
      convergeConfigMap F js w1 = (none, w2) →
      convergeDeployment F js w2 = (none, d, w3) →
      convergeService F js w3 = (none, sv, w4) →
      Get F req d w4 = (none, d1, w5) → P (StatusUpdate F (synced js d1) w5)) :
    P (Reconcile F req w) := by
  unfold Reconcile
  generalize hg : Get F req ({} : JsonServer) w = g at *
  obtain ⟨e, js, w1⟩ := g
  cases e with
  | some err => exact hA err js w1 rfl
  | none =>
    dsimp only
    split_ifs with hinv
    · have := hB js w1 rfl hinv
      rcases hS : StatusUpdate F (withState js "Error" invalidMessage) w1 with ⟨e2, w2⟩
      rw [hS] at this
      cases e2 <;> exact this
    · have hinv2 : (Json.Unmarshal js.Spec.JsonConfig .iface).isSome = false := by
        simpa using hinv
      rcases h3 : convergeConfigMap F js w1 with ⟨e3, w2⟩
      cases e3 with
      | some err => exact hC js w1 err w2 rfl hinv2 h3
      | none =>
        dsimp only
        rcases h4 : convergeDeployment F js w2 with ⟨e4, d, w3⟩
        cases e4 with
        | some err => exact hD js w1 w2 err d w3 rfl hinv2 h3 h4
        | none =>
          dsimp only
          rcases h5 : convergeService F js w3 with ⟨e5, sv, w4⟩
          cases e5 with
          | some err => exact hE js w1 w2 d w3 err sv w4 rfl hinv2 h3 h4 h5
          | none =>
            dsimp only
            rcases h6 : Get F req d w4 with ⟨e6, d1, w5⟩
            cases e6 with
            | some err => exact hF js w1 w2 d w3 sv w4 err d1 w5 rfl hinv2 h3 h4 h5 h6
            | none =>
              dsimp only
              have := hG js w1 w2 d w3 sv w4 d1 w5 rfl hinv2 h3 h4 h5 h6
              unfold synced at this
              rcases hS : StatusUpdate F
                ({ js with Status :=
                    { State := "Synced", Message := "Synced succesfully!",
                      Replicas := d1.Status.Replicas,
                      Selector := FormatLabelSelector js.Name } } : JsonServer) w5 with ⟨e7, w6⟩
              rw [hS] at this
              cases e7 <;> exact this

/-- The world after a read, from an equation for the read. -/
theorem Get_world_eq {α : Type} [ClientObject α] {F : Faults} {key : NamespacedName} {obj : α}
    {w : World} {e : Option Err} {o : α} {w1 : World} (h : Get F key obj w = (e, o, w1)) :
    w1 = w.record (.get (ClientObject.kind α) key) := by
  have := Get_world F key obj w
  rw [h] at this
  exact this

theorem upd_self {α : Type} (t : NamespacedName → Option α) (k : NamespacedName) :
    upd t k (t k) = t := by
  funext k1
  by_cases h : k1 = k <;> simp [upd, h]

theorem lookup_none {α : Type} [ClientObject α] (c : Cluster) (key : NamespacedName) :
    lookup (α := α) c key = none ↔ read (α := α) c key = none := by
  simp [lookup]

theorem Get_noFaults {α : Type} [ClientObject α] (key : NamespacedName) (obj : α) (w : World) :
    Get noFaults key obj w =
      match lookup (α := α) w.cluster key with
      | none => (some .notFound, obj, w.record (.get (kind α) key))
      | some o => (none, o, w.record (.get (kind α) key)) := by
  cases h : lookup (α := α) w.cluster key <;> simp [Get, noFaults, h]

theorem CreateOrUpdate_noFaults {α : Type} [ClientObject α] [DecidableEq α]
    (obj : α) (f : α → Option Err × α) (w : World) (k : NamespacedName)
    (hk : ObjectKeyFromObject obj = k)
    (hl : ∀ o, lookup (α := α) w.cluster k = some o → ObjectKeyFromObject o = k)
    (hf : ∀ o, ObjectKeyFromObject (f o).2 = ObjectKeyFromObject o) :
    (CreateOrUpdate noFaults obj f w).1 = (converge f k obj w.cluster).1
      ∧ (CreateOrUpdate noFaults obj f w).2.2.cluster = (converge f k obj w.cluster).2 := by
  unfold CreateOrUpdate converge
  dsimp only
  rw [hk, Get_noFaults]
  cases hlk : lookup (α := α) w.cluster k with
  | none =>
    have hr : read (α := α) w.cluster k = none := (lookup_none _ _).1 hlk
    have hkf := hf obj
    rw [hk] at hkf
    dsimp only
    simp only [ne_eq, not_true_eq_false, if_false, mutate]
    rcases hfo : f obj with ⟨e, o2⟩
    rw [hfo] at hkf
    cases e with
    | some e1 => simp [World.record]
    | none =>
      dsimp only at hkf ⊢
      simp [hkf, Create, noFaults, hr, World.record]
  | some ex =>
    have hr : ∃ raw, read (α := α) w.cluster k = some raw := by
      cases hrr : read (α := α) w.cluster k with
      | none => rw [(lookup_none _ _).2 hrr] at hlk; cases hlk
      | some raw => exact ⟨raw, rfl⟩
    obtain ⟨raw, hr⟩ := hr
    have hkf := hf ex
    rw [hl ex hlk] at hkf
    dsimp only
    simp only [mutate]
    rcases hfo : f ex with ⟨e, o2⟩
    rw [hfo] at hkf
    cases e with
    | some e1 => simp [World.record]
    | none =>
      dsimp only at hkf ⊢
      simp only [hkf, ne_eq, not_true_eq_false, if_false]
      split_ifs with heq
      · simp [World.record]
      · simp [Update, noFaults, hkf, hr, World.record]

theorem lookup_key {α : Type} [ClientObject α] [LawfulClientObject α] (c : Cluster)
    (k : NamespacedName) (o : α) (h : lookup c k = some o) : ObjectKeyFromObject o = k := by
  unfold lookup at h
  cases hr : read (α := α) c k with
  | none => simp [hr] at h
  | some raw =>
    simp [hr] at h
    subst h
    simp [ObjectKeyFromObject, getMeta_setMeta]

/-- An object that carries its key is read back as it was written. -/
theorem lookup_write {α : Type} [ClientObject α] [LawfulClientObject α] (c : Cluster)
    (k : NamespacedName) (o : α) (h : ObjectKeyFromObject o = k) :
    lookup (write c k o) k = some o := by
  unfold lookup
  rw [read_write]
  simp only [if_true, Option.map_some']
  congr 1
  have h1 : (getMeta o).Name = k.Name := by rw [← h]; rfl
  have h2 : (getMeta o).Namespace = k.Namespace := by rw [← h]; rfl
  rw [← h1, ← h2]
  exact setMeta_getMeta o

theorem SetControllerReference_key {α : Type} [ClientObject α] [LawfulClientObject α]
    (js : JsonServer) (o : α) :
    ObjectKeyFromObject (SetControllerReference js o).2 = ObjectKeyFromObject o := by
  unfold SetControllerReference
  dsimp only
  split_ifs
  · rfl
  · rfl
  · split
    · split_ifs
      · rfl
      · simp [ObjectKeyFromObject, getMeta_setMeta]
    · simp [ObjectKeyFromObject, getMeta_setMeta]

theorem SetControllerReference_ne_conflict {α : Type} [ClientObject α]
    (js : JsonServer) (o : α) :
    (SetControllerReference js o).1 ≠ some .conflict := by
  unfold SetControllerReference
  dsimp only
  split_ifs
  · simp
  · simp
  · split
    · split_ifs <;> simp
    · simp

theorem referSameObject_controllerRef (js : JsonServer) :
    referSameObject (controllerRef js) (controllerRef js) = true := by
  have h : ParseGroupVersion ownerAPIVersion = some ("example.com", "v1") := by decide
  simp [referSameObject, controllerRef, h]

theorem upsertOwnerRef_idem (ref : OwnerReference) (hr : referSameObject ref ref = true)
    (l : List OwnerReference) :
    upsertOwnerRef ref (upsertOwnerRef ref l) = upsertOwnerRef ref l := by
  induction l with
  | nil => simp [upsertOwnerRef, hr]
  | cons r rs ih =>
    by_cases h : referSameObject r ref = true
    · simp [upsertOwnerRef, h, hr]
    · simp [upsertOwnerRef, h, ih]

/-- After the upsert of a controller reference, the controller of the list
refers to the same object as the reference, provided the list had no
controller or one that referred to the same object. -/
theorem GetControllerOf_upsert (ref : OwnerReference) (hr : referSameObject ref ref = true)
    (hc : ref.Controller = some true) (l : List OwnerReference)
    (h : ∀ e, GetControllerOf l = some e → referSameObject e ref = true) :
    ∀ e, GetControllerOf (upsertOwnerRef ref l) = some e → referSameObject e ref = true := by
  induction l with
  | nil =>
    intro e he
    simp [upsertOwnerRef, GetControllerOf, hc] at he
    subst he
    exact hr
  | cons r rs ih =>
    intro e he
    by_cases hs : referSameObject r ref = true
    · simp [upsertOwnerRef, hs, GetControllerOf, hc] at he
      subst he
      exact hr
    · simp only [upsertOwnerRef, hs, Bool.false_eq_true, if_false] at he
      by_cases hrc : r.Controller = some true
      · have : GetControllerOf (r :: rs) = some r := by simp [GetControllerOf, hrc]
        exact absurd (h r this) hs
      · have h1 : GetControllerOf (r :: upsertOwnerRef ref rs)
            = GetControllerOf (upsertOwnerRef ref rs) := by
          simp [GetControllerOf, hrc]
        have h2 : GetControllerOf (r :: rs) = GetControllerOf rs := by
          simp [GetControllerOf, hrc]
        rw [h1] at he
        exact ih (fun e1 he1 => h e1 (by rw [h2]; exact he1)) e he

/-- A successful `SetControllerReference` changes nothing when it is run again
on its own result. -/
theorem SetControllerReference_idem {α : Type} [ClientObject α] [LawfulClientObject α]
    (js : JsonServer) (o o1 : α) (h : SetControllerReference js o = (none, o1)) :
    SetControllerReference js o1 = (none, o1) := by
  have hr := referSameObject_controllerRef js
  have hcr : (controllerRef js).Controller = some true := rfl
  unfold SetControllerReference at h
  dsimp only at h
  split_ifs at h with h1 h2
  · simp at h
  · simp at h
  · have key : (∀ e, GetControllerOf (getMeta o).OwnerReferences = some e →
        referSameObject e (controllerRef js) = true) ∧
        o1 = setMeta o { getMeta o with
          OwnerReferences := upsertOwnerRef (controllerRef js) (getMeta o).OwnerReferences } := by
      split at h
      · rename_i existing hex
        split_ifs at h with h3
        · simp at h
        · simp only [Prod.mk.injEq, true_and] at h
          refine ⟨?_, h.symm⟩
          intro e he
          rw [hex] at he
          cases he
          simpa using h3
      · rename_i hnone
        simp only [Prod.mk.injEq, true_and] at h
        refine ⟨?_, h.symm⟩
        intro e he
        rw [hnone] at he
        cases he
    obtain ⟨hown, ho1⟩ := key
    have hm : getMeta o1 = { getMeta o with
        OwnerReferences := upsertOwnerRef (controllerRef js) (getMeta o).OwnerReferences } := by
      rw [ho1, getMeta_setMeta]
    have hup := GetControllerOf_upsert (controllerRef js) hr hcr _ hown
    unfold SetControllerReference
    dsimp only
    rw [hm]
    dsimp only
    rw [if_neg h1, if_neg h2]
    have hfin : setMeta o1 { getMeta o with
        OwnerReferences := upsertOwnerRef (controllerRef js)
          (upsertOwnerRef (controllerRef js) (getMeta o).OwnerReferences) } = o1 := by
      rw [upsertOwnerRef_idem _ hr, ← hm]
      exact setMeta_getMeta o1
    split
    · rename_i existing hex
      have := hup existing hex
      simp only [this, Bool.not_true, Bool.false_eq_true, if_false]
      rw [hfin]
    · rw [hfin]

/-- `SetControllerReference` changes nothing but the owner references. -/
theorem SetControllerReference_frame {α β : Type} [ClientObject α] (g : α → β)
    (hg : ∀ (o : α) (refs : List OwnerReference),
      g (setMeta o { getMeta o with OwnerReferences := refs }) = g o)
    (js : JsonServer) (o : α) : g (SetControllerReference js o).2 = g o := by
  unfold SetControllerReference
  dsimp only
  split_ifs
  · rfl
  · rfl
  · split
    · split_ifs
      · rfl
      · exact hg o _
    · exact hg o _

theorem StrMap.set_set (m : StrMap) (k v : String) :
    StrMap.set (StrMap.set m k v) k v = StrMap.set m k v := by
  induction m with
  | nil => simp [StrMap.set]
  | cons p rest ih =>
    obtain ⟨k1, v1⟩ := p
    by_cases h : k1 = k
    · simp [StrMap.set, h]
    · simp [StrMap.set, h, ih]

theorem mutateConfigMap_key (js : JsonServer) (cm : ConfigMap) :
    ObjectKeyFromObject (mutateConfigMap js cm).2 = ObjectKeyFromObject cm := by
  unfold mutateConfigMap
  rw [SetControllerReference_key]
  rfl

theorem mutateDeployment_key (js : JsonServer) (d : Deployment) :
    ObjectKeyFromObject (mutateDeployment js d).2 = ObjectKeyFromObject d := by
  unfold mutateDeployment
  rw [SetControllerReference_key]
  rfl

theorem mutateService_key (js : JsonServer) (sv : Service) :
    ObjectKeyFromObject (mutateService js sv).2 = ObjectKeyFromObject sv := by
  unfold mutateService
  rw [SetControllerReference_key]
  rfl

theorem mutateConfigMap_idem (js : JsonServer) (cm o1 : ConfigMap)
    (h : mutateConfigMap js cm = (none, o1)) : mutateConfigMap js o1 = (none, o1) := by
  unfold mutateConfigMap at h ⊢
  have hd : o1.Data = cm.Data.set "db.json" js.Spec.JsonConfig := by
    have := SetControllerReference_frame (fun (o : ConfigMap) => o.Data) (fun _ _ => rfl) js
      { cm with Data := cm.Data.set "db.json" js.Spec.JsonConfig }
    rw [h] at this
    exact this
  have he : ({ o1 with Data := o1.Data.set "db.json" js.Spec.JsonConfig } : ConfigMap) = o1 := by
    rw [hd, StrMap.set_set, ← hd]
  rw [he]
  exact SetControllerReference_idem js _ _ h

theorem mutateDeployment_idem (js : JsonServer) (d o1 : Deployment)
    (h : mutateDeployment js d = (none, o1)) : mutateDeployment js o1 = (none, o1) := by
  unfold mutateDeployment at h ⊢
  have hs : o1.Spec = (desiredDeploy js).Spec := by
    have := SetControllerReference_frame (fun (o : Deployment) => o.Spec) (fun _ _ => rfl) js
      { d with Labels := labels js.Name, Spec := (desiredDeploy js).Spec }
    rw [h] at this
    exact this
  have hl : o1.Labels = labels js.Name := by
    have := SetControllerReference_frame (fun (o : Deployment) => o.Labels) (fun _ _ => rfl) js
      { d with Labels := labels js.Name, Spec := (desiredDeploy js).Spec }
    rw [h] at this
    exact this
  have he : ({ o1 with Labels := labels js.Name, Spec := (desiredDeploy js).Spec } : Deployment)
      = o1 := by
    rw [← hs, ← hl]
  rw [he]
  exact SetControllerReference_idem js _ _ h

theorem mutateService_idem (js : JsonServer) (sv o1 : Service)
    (h : mutateService js sv = (none, o1)) : mutateService js o1 = (none, o1) := by
  unfold mutateService at h ⊢
  have hs : o1.Spec = (desiredSvc js).Spec := by
    have := SetControllerReference_frame (fun (o : Service) => o.Spec) (fun _ _ => rfl) js
      { sv with Spec := (desiredSvc js).Spec }
    rw [h] at this
    exact this
  have he : ({ o1 with Spec := (desiredSvc js).Spec } : Service) = o1 := by
    rw [← hs]
  rw [he]
  exact SetControllerReference_idem js _ _ h

/-- A failed step leaves the store as it was. -/
theorem converge_error {α : Type} [ClientObject α] [DecidableEq α] (f : α → Option Err × α)
    (k : NamespacedName) (fresh : α) (c : Cluster) (e : Err)
    (h : (converge f k fresh c).1 = some e) : (converge f k fresh c).2 = c := by
  unfold converge at h ⊢
  split
  · rename_i hl
    rw [hl] at h
    dsimp only at h
    rcases hf : f fresh with ⟨e1, o2⟩
    rw [hf] at h
    cases e1 with
    | some e2 => rfl
    | none => simp at h
  · rename_i ex hl
    rw [hl] at h
    dsimp only at h
    rcases hf : f ex with ⟨e1, o2⟩
    rw [hf] at h
    cases e1 with
    | some e2 => rfl
    | none =>
      dsimp only at h
      split_ifs at h

/-- A step writes nothing outside its own table. -/
theorem converge_frame {α β : Type} [ClientObject α] [DecidableEq α] (g : Cluster → β)
    (hg : ∀ (c : Cluster) (k : NamespacedName) (o : α), g (write c k o) = g c)
    (f : α → Option Err × α) (k : NamespacedName) (fresh : α) (c : Cluster) :
    g (converge f k fresh c).2 = g c := by
  unfold converge
  split
  · rcases f fresh with ⟨e1, o2⟩
    cases e1 with
    | some e2 => rfl
    | none => exact hg _ _ _
  · rename_i ex hl
    rcases f ex with ⟨e1, o2⟩
    cases e1 with
    | some e2 => rfl
    | none =>
      dsimp only
      split_ifs
      · rfl
      · exact hg _ _ _

/-- The result of a step depends on the store only through the entry under the key. -/
theorem converge_congr {α : Type} [ClientObject α] [DecidableEq α] (f : α → Option Err × α)
    (k : NamespacedName) (fresh : α) (c c1 : Cluster)
    (h : read (α := α) c1 k = read (α := α) c k) :
    (converge f k fresh c1).1 = (converge f k fresh c).1 := by
  have hl : lookup (α := α) c1 k = lookup (α := α) c k := by
    unfold lookup
    rw [h]
  unfold converge
  rw [hl]
  split
  · rcases f fresh with ⟨e1, o2⟩
    cases e1 <;> rfl
  · rename_i ex _
    rcases f ex with ⟨e1, o2⟩
    cases e1 with
    | some e2 => rfl
    | none =>
      dsimp only
      split_ifs <;> rfl

/-- When the key is taken, the fresh object of a step plays no part. -/
theorem converge_found {α : Type} [ClientObject α] [DecidableEq α] (f : α → Option Err × α)
    (k : NamespacedName) (a b : α) (c : Cluster) (ex : α)
    (h : lookup (α := α) c k = some ex) : converge f k a c = converge f k b c := by
  unfold converge
  rw [h]

theorem converge_ne_conflict {α : Type} [ClientObject α] [DecidableEq α]
    (f : α → Option Err × α) (hf : ∀ o, (f o).1 ≠ some .conflict)
    (k : NamespacedName) (fresh : α) (c : Cluster) :
    (converge f k fresh c).1 ≠ some .conflict := by
  unfold converge
  split
  · have := hf fresh
    rcases hff : f fresh with ⟨e1, o2⟩
    rw [hff] at this
    cases e1 with
    | some e2 => simpa using this
    | none => simp
  · rename_i ex _
    have := hf ex
    rcases hff : f ex with ⟨e1, o2⟩
    rw [hff] at this
    cases e1 with
    | some e2 => simpa using this
    | none =>
      dsimp only
      split_ifs <;> simp

theorem RetryOnConflict_first {σ : Type} (fn : σ → Option Err × σ) (s : σ)
    (h : (fn s).1 ≠ some .conflict) : RetryOnConflict fn s = fn s := by
  unfold RetryOnConflict DefaultRetrySteps retryLoop
  rcases hf : fn s with ⟨e, s1⟩
  rw [hf] at h
  cases e with
  | none => rfl
  | some err =>
    have : err ≠ .conflict := by
      intro hc
      apply h
      rw [hc]
    simp [this]

theorem convergeConfigMap_noFaults (js : JsonServer) (w : World) :
    (convergeConfigMap noFaults js w).1
        = (converge (mutateConfigMap js) (childKey js)
            ({ Name := js.Name, Namespace := js.Namespace } : ConfigMap) w.cluster).1
      ∧ (convergeConfigMap noFaults js w).2.cluster
        = (converge (mutateConfigMap js) (childKey js)
            ({ Name := js.Name, Namespace := js.Namespace } : ConfigMap) w.cluster).2 := by
  unfold convergeConfigMap
  dsimp only
  exact CreateOrUpdate_noFaults _ _ w (childKey js) rfl (lookup_key _ _) (mutateConfigMap_key js)

theorem deploymentAttempt_noFaults (js : JsonServer) (st : Deployment × World)
    (hst : ObjectKeyFromObject st.1 = childKey js) :
    (deploymentAttempt noFaults js st).1
        = (converge (mutateDeployment js) (childKey js)
            ({ Name := js.Name, Namespace := js.Namespace } : Deployment) st.2.cluster).1
      ∧ (deploymentAttempt noFaults js st).2.2.cluster
        = (converge (mutateDeployment js) (childKey js)
            ({ Name := js.Name, Namespace := js.Namespace } : Deployment) st.2.cluster).2 := by
  unfold deploymentAttempt
  rw [hst, Get_noFaults]
  cases hl : lookup (α := Deployment) st.2.cluster (childKey js) with
  | none =>
    dsimp only
    rw [if_pos rfl]
    exact CreateOrUpdate_noFaults ({ Name := js.Name, Namespace := js.Namespace } : Deployment)
      (mutateDeployment js) (st.2.record (.get (kind Deployment) (childKey js))) (childKey js) rfl
      (lookup_key _ _) (mutateDeployment_key js)
  | some ex =>
    dsimp only
    have := CreateOrUpdate_noFaults ex (mutateDeployment js)
      (st.2.record (.get (kind Deployment) (childKey js))) (childKey js)
      (lookup_key _ _ _ hl) (lookup_key _ _) (mutateDeployment_key js)
    have hc : (st.2.record (.get (kind Deployment) (childKey js))).cluster = st.2.cluster := rfl
    rw [hc, converge_found (mutateDeployment js) (childKey js) ex
      ({ Name := js.Name, Namespace := js.Namespace } : Deployment) _ ex hl] at this
    exact this

theorem serviceAttempt_noFaults (js : JsonServer) (st : Service × World)
    (hst : ObjectKeyFromObject st.1 = childKey js) :
    (serviceAttempt noFaults js st).1
        = (converge (mutateService js) (childKey js)
            ({ Name := js.Name, Namespace := js.Namespace } : Service) st.2.cluster).1
      ∧ (serviceAttempt noFaults js st).2.2.cluster
        = (converge (mutateService js) (childKey js)
            ({ Name := js.Name, Namespace := js.Namespace } : Service) st.2.cluster).2 := by
  unfold serviceAttempt
  rw [hst, Get_noFaults]
  cases hl : lookup (α := Service) st.2.cluster (childKey js) with
  | none =>
    dsimp only
    rw [if_pos rfl]
    exact CreateOrUpdate_noFaults ({ Name := js.Name, Namespace := js.Namespace } : Service)
      (mutateService js) (st.2.record (.get (kind Service) (childKey js))) (childKey js) rfl
      (lookup_key _ _) (mutateService_key js)
  | some ex =>
    dsimp only
    have := CreateOrUpdate_noFaults ex (mutateService js)
      (st.2.record (.get (kind Service) (childKey js))) (childKey js)
      (lookup_key _ _ _ hl) (lookup_key _ _) (mutateService_key js)
    have hc : (st.2.record (.get (kind Service) (childKey js))).cluster = st.2.cluster := rfl
    rw [hc, converge_found (mutateService js) (childKey js) ex
      ({ Name := js.Name, Namespace := js.Namespace } : Service) _ ex hl] at this
    exact this

theorem mutateDeployment_ne_conflict (js : JsonServer) (d : Deployment) :
    (mutateDeployment js d).1 ≠ some .conflict :=
  SetControllerReference_ne_conflict js _

theorem mutateService_ne_conflict (js : JsonServer) (sv : Service) :
    (mutateService js sv).1 ≠ some .conflict :=
  SetControllerReference_ne_conflict js _

theorem convergeDeployment_noFaults (js : JsonServer) (w : World) :
    (convergeDeployment noFaults js w).1
        = (converge (mutateDeployment js) (childKey js)
            ({ Name := js.Name, Namespace := js.Namespace } : Deployment) w.cluster).1
      ∧ (convergeDeployment noFaults js w).2.2.cluster
        = (converge (mutateDeployment js) (childKey js)
            ({ Name := js.Name, Namespace := js.Namespace } : Deployment) w.cluster).2 := by
  have ha := deploymentAttempt_noFaults js
    (({ Name := js.Name, Namespace := js.Namespace } : Deployment), w) rfl
  have hne := converge_ne_conflict (mutateDeployment js) (mutateDeployment_ne_conflict js)
    (childKey js) ({ Name := js.Name, Namespace := js.Namespace } : Deployment) w.cluster
  unfold convergeDeployment
  rw [RetryOnConflict_first]
  · exact ha
  · rw [ha.1]
    exact hne

theorem convergeService_noFaults (js : JsonServer) (w : World) :
    (convergeService noFaults js w).1
        = (converge (mutateService js) (childKey js)
            ({ Name := js.Name, Namespace := js.Namespace } : Service) w.cluster).1
      ∧ (convergeService noFaults js w).2.2.cluster
        = (converge (mutateService js) (childKey js)
            ({ Name := js.Name, Namespace := js.Namespace } : Service) w.cluster).2 := by
  have ha := serviceAttempt_noFaults js
    (({ Name := js.Name, Namespace := js.Namespace } : Service), w) rfl
  have hne := converge_ne_conflict (mutateService js) (mutateService_ne_conflict js)
    (childKey js) ({ Name := js.Name, Namespace := js.Namespace } : Service) w.cluster
  unfold convergeService
  rw [RetryOnConflict_first]
  · exact ha
  · rw [ha.1]
    exact hne

theorem StatusUpdate_noFaults (js : JsonServer) (w : World) :
    (StatusUpdate noFaults js w).1 = (publish w.cluster js).1
      ∧ (StatusUpdate noFaults js w).2.cluster = (publish w.cluster js).2 := by
  unfold StatusUpdate publish
  simp only [noFaults, childKey]
  cases w.cluster.jsonServers { Namespace := js.Namespace, Name := js.Name } <;>
    exact ⟨rfl, rfl⟩

theorem Get_noFaults_eq {α : Type} [ClientObject α] {key : NamespacedName} {obj : α}
    {w : World} {e : Option Err} {o : α} {w1 : World} (h : Get noFaults key obj w = (e, o, w1)) :
    w1.cluster = w.cluster
      ∧ ((e = none ∧ lookup (α := α) w.cluster key = some o)
        ∨ (e = some .notFound ∧ lookup (α := α) w.cluster key = none)) := by
  rw [Get_noFaults] at h
  cases hl : lookup (α := α) w.cluster key with
  | none =>
    rw [hl] at h
    simp only [Prod.mk.injEq] at h
    obtain ⟨h1, _, h3⟩ := h
    subst h3
    exact ⟨rfl, Or.inr ⟨h1.symm, rfl⟩⟩
  | some o1 =>
    rw [hl] at h
    simp only [Prod.mk.injEq] at h
    obtain ⟨h1, h2, h3⟩ := h
    subst h3
    subst h2
    exact ⟨rfl, Or.inl ⟨h1.symm, rfl⟩⟩

/-- Without injected failure, a pass returns the error and leaves the store
that `reconcilePure` computes. -/
theorem Reconcile_noFaults (req : NamespacedName) (w : World) :
    (Reconcile noFaults req w).1 = (reconcilePure req w.cluster).1
      ∧ (Reconcile noFaults req w).2.cluster = (reconcilePure req w.cluster).2 := by
  refine Reconcile_cases noFaults req w (fun r => r.1 = (reconcilePure req w.cluster).1
      ∧ r.2.cluster = (reconcilePure req w.cluster).2) ?_ ?_ ?_ ?_ ?_ ?_ ?_
  · intro err js w1 hg
    obtain ⟨hc, h | h⟩ := Get_noFaults_eq hg
    · cases h.1
    · obtain ⟨he, hl⟩ := h
      cases he
      simp [reconcilePure, hl, IgnoreNotFound, hc]
  · intro js w1 hg hinv
    obtain ⟨hc, h | h⟩ := Get_noFaults_eq hg
    · have hs := StatusUpdate_noFaults (withState js "Error" invalidMessage) w1
      rw [hc] at hs
      simp [reconcilePure, h.2, hinv, hs]
    · cases h.1
  · intro js w1 err w2 hg hinv h3
    obtain ⟨hc, h | h⟩ := Get_noFaults_eq hg
    · have s3 := convergeConfigMap_noFaults js w1
      rw [h3, hc] at s3
      dsimp only at s3
      have hs := StatusUpdate_noFaults (failed js) w2
      simp only [reconcilePure, h.2, hinv, failStep, ← s3.1, ← s3.2]
      exact ⟨rfl, hs.2⟩
    · cases h.1
  · intro js w1 w2 err d w3 hg hinv h3 h4
    obtain ⟨hc, h | h⟩ := Get_noFaults_eq hg
    · have s3 := convergeConfigMap_noFaults js w1
      rw [h3, hc] at s3
      dsimp only at s3
      have s4 := convergeDeployment_noFaults js w2
      rw [h4, s3.2] at s4
      dsimp only at s4
      have hs := StatusUpdate_noFaults (failed js) w3
      simp only [reconcilePure, h.2, hinv, failStep, ← s3.1, ← s4.1, ← s4.2]
      exact ⟨rfl, hs.2⟩
    · cases h.1
  · intro js w1 w2 d w3 err sv w4 hg hinv h3 h4 h5
    obtain ⟨hc, h | h⟩ := Get_noFaults_eq hg
    · have s3 := convergeConfigMap_noFaults js w1
      rw [h3, hc] at s3
      dsimp only at s3
      have s4 := convergeDeployment_noFaults js w2
      rw [h4, s3.2] at s4
      dsimp only at s4
      have s5 := convergeService_noFaults js w3
      rw [h5, s4.2] at s5
      dsimp only at s5
      have hs := StatusUpdate_noFaults (failed js) w4
      simp only [reconcilePure, h.2, hinv, failStep, ← s3.1, ← s4.1, ← s5.1, ← s5.2]
      exact ⟨rfl, hs.2⟩
    · cases h.1
  · intro js w1 w2 d w3 sv w4 err d1 w5 hg hinv h3 h4 h5 h6
    obtain ⟨hc, h | h⟩ := Get_noFaults_eq hg
    · have s3 := convergeConfigMap_noFaults js w1
      rw [h3, hc] at s3
      dsimp only at s3
      have s4 := convergeDeployment_noFaults js w2
      rw [h4, s3.2] at s4
      dsimp only at s4
      have s5 := convergeService_noFaults js w3
      rw [h5, s4.2] at s5
      dsimp only at s5
      obtain ⟨hc6, h6a | h6a⟩ := Get_noFaults_eq h6
      · cases h6a.1
      · obtain ⟨he, hl⟩ := h6a
        cases he
        rw [s5.2] at hl hc6
        simp only [reconcilePure, h.2, hinv, ← s3.1, ← s4.1, ← s5.1, hl]
        exact ⟨rfl, hc6⟩
    · cases h.1
  · intro js w1 w2 d w3 sv w4 d1 w5 hg hinv h3 h4 h5 h6
    obtain ⟨hc, h | h⟩ := Get_noFaults_eq hg
    · have s3 := convergeConfigMap_noFaults js w1
      rw [h3, hc] at s3
      dsimp only at s3
      have s4 := convergeDeployment_noFaults js w2
      rw [h4, s3.2] at s4
      dsimp only at s4
      have s5 := convergeService_noFaults js w3
      rw [h5, s4.2] at s5
      dsimp only at s5
      obtain ⟨hc6, h6a | h6a⟩ := Get_noFaults_eq h6
      · obtain ⟨_, hl⟩ := h6a
        rw [s5.2] at hl hc6
        have hs := StatusUpdate_noFaults (synced js d1) w5
        rw [hc6] at hs
        simp only [reconcilePure, h.2, hinv, ← s3.1, ← s4.1, ← s5.1, hl]
        exact hs
      · cases h6a.1
    · cases h.1

/-- A step that succeeded leaves under the key an object that its mutate
function accepts unchanged. -/
theorem converge_ok {α : Type} [ClientObject α] [LawfulClientObject α] [DecidableEq α]
    (f : α → Option Err × α) (k : NamespacedName) (fresh : α) (c : Cluster)
    (hfresh : ObjectKeyFromObject fresh = k)
    (hkey : ∀ o, ObjectKeyFromObject (f o).2 = ObjectKeyFromObject o)
    (hidem : ∀ o o1, f o = (none, o1) → f o1 = (none, o1))
    (h : (converge f k fresh c).1 = none) :
    ∃ o2, lookup (α := α) (converge f k fresh c).2 k = some o2 ∧ f o2 = (none, o2)
      ∧ ((lookup (α := α) c k = none ∧ f fresh = (none, o2))
        ∨ (∃ ex, lookup (α := α) c k = some ex ∧ f ex = (none, o2))) := by
  unfold converge at h ⊢
  cases hl : lookup (α := α) c k with
  | none =>
    rw [hl] at h
    dsimp only at h ⊢
    rcases hf : f fresh with ⟨e1, o2⟩
    rw [hf] at h
    cases e1 with
    | some e2 => simp at h
    | none =>
      have hk2 : ObjectKeyFromObject o2 = k := by
        have := hkey fresh
        rw [hf, hfresh] at this
        exact this
      dsimp only
      exact ⟨o2, lookup_write c k o2 hk2, hidem fresh o2 hf, Or.inl ⟨rfl, rfl⟩⟩
  | some ex =>
    rw [hl] at h
    dsimp only at h ⊢
    rcases hf : f ex with ⟨e1, o2⟩
    rw [hf] at h
    cases e1 with
    | some e2 => simp at h
    | none =>
      have hk2 : ObjectKeyFromObject o2 = k := by
        have := hkey ex
        rw [hf, lookup_key c k ex hl] at this
        exact this
      dsimp only
      by_cases heq : ex = o2
      · rw [if_pos heq]
        dsimp only
        refine ⟨o2, ?_, hidem ex o2 hf, Or.inr ⟨ex, rfl, hf⟩⟩
        rw [hl, heq]
      · rw [if_neg heq]
        dsimp only
        exact ⟨o2, lookup_write c k o2 hk2, hidem ex o2 hf, Or.inr ⟨ex, rfl, hf⟩⟩

/-- A step has nothing to do on a store that holds, under the key, an object
its mutate function accepts unchanged. -/
theorem converge_stable {α : Type} [ClientObject α] [DecidableEq α]
    (f : α → Option Err × α) (k : NamespacedName) (fresh : α) (c : Cluster) (o2 : α)
    (hl : lookup (α := α) c k = some o2) (hf : f o2 = (none, o2)) :
    converge f k fresh c = (none, c) := by
  unfold converge
  rw [hl]
  dsimp only
  rw [hf]
  simp

theorem lookup_congr {α : Type} [ClientObject α] (c c1 : Cluster) (k : NamespacedName)
    (h : read (α := α) c1 k = read (α := α) c k) :
    lookup (α := α) c1 k = lookup (α := α) c k := by
  unfold lookup
  rw [h]

/-- A step that failed fails in the same way, and writes nothing, on a store
that holds the same entry under the key. -/
theorem converge_error_again {α : Type} [ClientObject α] [DecidableEq α]
    (f : α → Option Err × α) (k : NamespacedName) (fresh : α) (c c1 : Cluster) (e : Err)
    (h : (converge f k fresh c).1 = some e)
    (hr : read (α := α) c1 k = read (α := α) c k) :
    converge f k fresh c1 = (some e, c1) := by
  have h1 : (converge f k fresh c1).1 = some e := by
    rw [converge_congr f k fresh c c1 hr]
    exact h
  have h2 := converge_error f k fresh c1 e h1
  exact Prod.ext h1 h2

theorem lookup_jsonServer (c : Cluster) (req : NamespacedName) (js : JsonServer)
    (h : lookup (α := JsonServer) c req = some js) :
    ∃ stored, c.jsonServers req = some stored
      ∧ js = { stored with Name := req.Name, Namespace := req.Namespace } := by
  unfold lookup at h
  cases hr : read (α := JsonServer) c req with
  | none => simp [hr] at h
  | some stored =>
    simp [hr] at h
    exact ⟨stored, hr, h.symm⟩

theorem childKey_of_lookup (c : Cluster) (req : NamespacedName) (js : JsonServer)
    (h : lookup (α := JsonServer) c req = some js) : childKey js = req :=
  lookup_key c req js h

/-- A status update that carries the stored status changes nothing. -/
theorem publish_same (c : Cluster) (req : NamespacedName) (js1 js2 : JsonServer)
    (hl : lookup (α := JsonServer) c req = some js1) (hk : childKey js2 = req)
    (hS : js2.Status = js1.Status) : publish c js2 = (none, c) := by
  obtain ⟨stored, hst, hjs⟩ := lookup_jsonServer c req js1 hl
  unfold publish
  rw [hk, hst]
  dsimp only
  have h1 : ({ stored with Status := js2.Status } : JsonServer) = stored := by
    rw [hS, hjs]
  rw [h1]
  congr 1
  show ({ c with jsonServers := upd c.jsonServers req (some stored) } : Cluster) = c
  rw [← hst, upd_self]

/-- What a successful status update leaves: the resource with the published
status, and the child tables as they were. -/
theorem publish_ok (c : Cluster) (req : NamespacedName) (js1 js2 : JsonServer)
    (hl : lookup (α := JsonServer) c req = some js1) (hk : childKey js2 = req) :
    (publish c js2).1 = none
      ∧ lookup (α := JsonServer) (publish c js2).2 req = some { js1 with Status := js2.Status }
      ∧ (publish c js2).2.configMaps = c.configMaps
      ∧ (publish c js2).2.deployments = c.deployments
      ∧ (publish c js2).2.services = c.services := by
  obtain ⟨stored, hst, hjs⟩ := lookup_jsonServer c req js1 hl
  unfold publish
  rw [hk, hst]
  dsimp only
  refine ⟨rfl, ?_, rfl, rfl, rfl⟩
  rw [hjs]
  simp [lookup, ClientObject.read, ClientObject.write, upd, ClientObject.setMeta, ClientObject.getMeta]

theorem rp_none (req : NamespacedName) (c : Cluster)
    (hl : lookup (α := JsonServer) c req = none) : reconcilePure req c = (none, c) := by
  simp [reconcilePure, hl]

theorem rp_invalid (req : NamespacedName) (c : Cluster) (js : JsonServer)
    (hl : lookup (α := JsonServer) c req = some js)
    (hinv : (Json.Unmarshal js.Spec.JsonConfig .iface).isSome = true) :
    reconcilePure req c = publish c (withState js "Error" invalidMessage) := by
  simp [reconcilePure, hl, hinv]

theorem rp_fail3 (req : NamespacedName) (c : Cluster) (js : JsonServer) (e : Err)
    (hl : lookup (α := JsonServer) c req = some js)
    (hval : (Json.Unmarshal js.Spec.JsonConfig .iface).isSome = false)
    (h3 : (after3 js c).1 = some e) :
    reconcilePure req c = (some e, (publish (after3 js c).2 (failed js)).2) := by
  simp only [reconcilePure, hl, hval, h3]
  simp

theorem rp_fail4 (req : NamespacedName) (c : Cluster) (js : JsonServer) (e : Err)
    (hl : lookup (α := JsonServer) c req = some js)
    (hval : (Json.Unmarshal js.Spec.JsonConfig .iface).isSome = false)
    (h3 : (after3 js c).1 = none) (h4 : (after4 js c).1 = some e) :
    reconcilePure req c = (some e, (publish (after4 js c).2 (failed js)).2) := by
  simp only [reconcilePure, hl, hval, h3, h4]
  simp

theorem rp_fail5 (req : NamespacedName) (c : Cluster) (js : JsonServer) (e : Err)
    (hl : lookup (α := JsonServer) c req = some js)
    (hval : (Json.Unmarshal js.Spec.JsonConfig .iface).isSome = false)
    (h3 : (after3 js c).1 = none) (h4 : (after4 js c).1 = none)
    (h5 : (after5 js c).1 = some e) :
    reconcilePure req c = (some e, (publish (after5 js c).2 (failed js)).2) := by
  simp only [reconcilePure, hl, hval, h3, h4, h5]
  simp

theorem rp_unread (req : NamespacedName) (c : Cluster) (js : JsonServer)
    (hl : lookup (α := JsonServer) c req = some js)
    (hval : (Json.Unmarshal js.Spec.JsonConfig .iface).isSome = false)
    (h3 : (after3 js c).1 = none) (h4 : (after4 js c).1 = none)
    (h5 : (after5 js c).1 = none)
    (h6 : lookup (α := Deployment) (after5 js c).2 req = none) :
    reconcilePure req c = (some .notFound, (after5 js c).2) := by
  simp only [reconcilePure, hl, hval, h3, h4, h5, h6]
  simp

theorem rp_synced (req : NamespacedName) (c : Cluster) (js : JsonServer) (d : Deployment)
    (hl : lookup (α := JsonServer) c req = some js)
    (hval : (Json.Unmarshal js.Spec.JsonConfig .iface).isSome = false)
    (h3 : (after3 js c).1 = none) (h4 : (after4 js c).1 = none)
    (h5 : (after5 js c).1 = none)
    (h6 : lookup (α := Deployment) (after5 js c).2 req = some d) :
    reconcilePure req c = publish (after5 js c).2 (synced js d) := by
  simp only [reconcilePure, hl, hval, h3, h4, h5, h6]
  simp

theorem after3_frame (js : JsonServer) (c : Cluster) :
    (after3 js c).2.jsonServers = c.jsonServers
      ∧ (after3 js c).2.deployments = c.deployments
      ∧ (after3 js c).2.services = c.services :=
  ⟨converge_frame (fun c => c.jsonServers) (fun _ _ _ => rfl) _ _ _ _,
   converge_frame (fun c => c.deployments) (fun _ _ _ => rfl) _ _ _ _,
   converge_frame (fun c => c.services) (fun _ _ _ => rfl) _ _ _ _⟩

theorem after4_frame (js : JsonServer) (c : Cluster) :
    (after4 js c).2.jsonServers = (after3 js c).2.jsonServers
      ∧ (after4 js c).2.configMaps = (after3 js c).2.configMaps
      ∧ (after4 js c).2.services = (after3 js c).2.services :=
  ⟨converge_frame (fun c => c.jsonServers) (fun _ _ _ => rfl) _ _ _ _,
   converge_frame (fun c => c.configMaps) (fun _ _ _ => rfl) _ _ _ _,
   converge_frame (fun c => c.services) (fun _ _ _ => rfl) _ _ _ _⟩

theorem after5_frame (js : JsonServer) (c : Cluster) :
    (after5 js c).2.jsonServers = (after4 js c).2.jsonServers
      ∧ (after5 js c).2.configMaps = (after4 js c).2.configMaps
      ∧ (after5 js c).2.deployments = (after4 js c).2.deployments :=
  ⟨converge_frame (fun c => c.jsonServers) (fun _ _ _ => rfl) _ _ _ _,
   converge_frame (fun c => c.configMaps) (fun _ _ _ => rfl) _ _ _ _,
   converge_frame (fun c => c.deployments) (fun _ _ _ => rfl) _ _ _ _⟩

theorem lookup_jsonServers_congr (c c1 : Cluster) (k : NamespacedName)
    (h : c1.jsonServers = c.jsonServers) :
    lookup (α := JsonServer) c1 k = lookup (α := JsonServer) c k :=
  lookup_congr c c1 k (by show c1.jsonServers k = c.jsonServers k; rw [h])

theorem lookup_configMaps_congr (c c1 : Cluster) (k : NamespacedName)
    (h : c1.configMaps = c.configMaps) :
    lookup (α := ConfigMap) c1 k = lookup (α := ConfigMap) c k :=
  lookup_congr c c1 k (by show c1.configMaps k = c.configMaps k; rw [h])

theorem lookup_deployments_congr (c c1 : Cluster) (k : NamespacedName)
    (h : c1.deployments = c.deployments) :
    lookup (α := Deployment) c1 k = lookup (α := Deployment) c k :=
  lookup_congr c c1 k (by show c1.deployments k = c.deployments k; rw [h])

theorem lookup_services_congr (c c1 : Cluster) (k : NamespacedName)
    (h : c1.services = c.services) :
    lookup (α := Service) c1 k = lookup (α := Service) c k :=
  lookup_congr c c1 k (by show c1.services k = c.services k; rw [h])

/-- The ConfigMap step finds nothing to do on a store whose ConfigMap table is
the one it left. -/
theorem stable3 (js : JsonServer) (c c1 : Cluster) (h : (after3 js c).1 = none)
    (ht : c1.configMaps = (after3 js c).2.configMaps) : after3 js c1 = (none, c1) := by
  obtain ⟨o2, hl, hf, -⟩ := converge_ok (mutateConfigMap js) (childKey js) (freshCM js) c rfl
    (mutateConfigMap_key js) (mutateConfigMap_idem js) h
  exact converge_stable _ _ _ _ o2 (by rw [lookup_configMaps_congr _ _ _ ht]; exact hl) hf

/-- The Deployment step finds nothing to do on a store whose Deployment table
is the one it left. -/
theorem stable4 (js : JsonServer) (c c1 : Cluster) (h : (after4 js c).1 = none)
    (ht : c1.deployments = (after4 js c).2.deployments) :
    converge (mutateDeployment js) (childKey js) (freshD js) c1 = (none, c1) := by
  obtain ⟨o2, hl, hf, -⟩ := converge_ok (mutateDeployment js) (childKey js) (freshD js)
    (after3 js c).2 rfl (mutateDeployment_key js) (mutateDeployment_idem js) h
  exact converge_stable _ _ _ _ o2 (by rw [lookup_deployments_congr _ _ _ ht]; exact hl) hf

/-- The Service step finds nothing to do on a store whose Service table is the
one it left. -/
theorem stable5 (js : JsonServer) (c c1 : Cluster) (h : (after5 js c).1 = none)
    (ht : c1.services = (after5 js c).2.services) :
    converge (mutateService js) (childKey js) (freshS js) c1 = (none, c1) := by
  obtain ⟨o2, hl, hf, -⟩ := converge_ok (mutateService js) (childKey js) (freshS js)
    (after4 js c).2 rfl (mutateService_key js) (mutateService_idem js) h
  exact converge_stable _ _ _ _ o2 (by rw [lookup_services_congr _ _ _ ht]; exact hl) hf

theorem after3_status (js : JsonServer) (S : JsonServerStatus) (c : Cluster) :
    after3 { js with Status := S } c = after3 js c := rfl

theorem after4_status (js : JsonServer) (S : JsonServerStatus) (c : Cluster) :
    after4 { js with Status := S } c = after4 js c := rfl

theorem after5_status (js : JsonServer) (S : JsonServerStatus) (c : Cluster) :
    after5 { js with Status := S } c = after5 js c := rfl

/-- The three steps find nothing to do on a store whose child tables are the
ones they left. -/
theorem stable_all (js : JsonServer) (c c1 : Cluster) (h3 : (after3 js c).1 = none)
    (h4 : (after4 js c).1 = none) (h5 : (after5 js c).1 = none)
    (hc : c1.configMaps = (after5 js c).2.configMaps)
    (hd : c1.deployments = (after5 js c).2.deployments)
    (hs : c1.services = (after5 js c).2.services) :
    after3 js c1 = (none, c1) ∧ after4 js c1 = (none, c1) ∧ after5 js c1 = (none, c1) := by
  obtain ⟨-, f4c, -⟩ := after4_frame js c
  obtain ⟨-, f5c, f5d⟩ := after5_frame js c
  have s3 := stable3 js c c1 h3 (by rw [hc, f5c, f4c])
  have s4 : after4 js c1 = (none, c1) := by
    show converge _ _ _ (after3 js c1).2 = _
    rw [s3]
    exact stable4 js c c1 h4 (by rw [hd, f5d])
  have s5 : after5 js c1 = (none, c1) := by
    show converge _ _ _ (after4 js c1).2 = _
    rw [s4]
    exact stable5 js c c1 h5 hs
  exact ⟨s3, s4, s5⟩

/-- Without injected failure, a second pass leaves the store of the first and
returns the same error. -/
theorem reconcilePure_idem (req : NamespacedName) (c : Cluster) :
    reconcilePure req (reconcilePure req c).2 = reconcilePure req c := by
  cases hl : lookup (α := JsonServer) c req with
  | none =>
    rw [rp_none req c hl]
    exact rp_none req c hl
  | some js =>
    have hk : childKey js = req := childKey_of_lookup c req js hl
    by_cases hinv : (Json.Unmarshal js.Spec.JsonConfig .iface).isSome = true
    · obtain ⟨p1, p2, -, -, -⟩ := publish_ok c req js (withState js "Error" invalidMessage) hl hk
      rw [rp_invalid req c js hl hinv]
      rw [rp_invalid req _ _ p2 hinv]
      rw [publish_same _ req _
        (withState { js with Status := (withState js "Error" invalidMessage).Status }
          "Error" invalidMessage) p2 hk rfl]
      exact Prod.ext p1.symm rfl
    · have hval : (Json.Unmarshal js.Spec.JsonConfig .iface).isSome = false := by
        simpa using hinv
      obtain ⟨f3j, f3d, f3s⟩ := after3_frame js c
      obtain ⟨f4j, f4c, f4s⟩ := after4_frame js c
      obtain ⟨f5j, f5c, f5d⟩ := after5_frame js c
      cases h3 : (after3 js c).1 with
      | some e =>
        have hc3 : (after3 js c).2 = c := converge_error _ _ _ _ e h3
        rw [rp_fail3 req c js e hl hval h3, hc3]
        obtain ⟨-, p2, p3, -, -⟩ := publish_ok c req js (failed js) hl hk
        have s3 : after3 js (publish c (failed js)).2 = (some e, (publish c (failed js)).2) :=
          converge_error_again _ _ _ c _ e h3
            (by show (publish c (failed js)).2.configMaps _ = c.configMaps _; rw [p3])
        rw [rp_fail3 req _ _ e p2 hval (by rw [after3_status, s3])]
        rw [after3_status, s3]
        dsimp only
        rw [publish_same _ req _ (failed { js with Status := (failed js).Status }) p2 hk rfl]
      | none =>
        cases h4 : (after4 js c).1 with
        | some e =>
          have hc4 : (after4 js c).2 = (after3 js c).2 := converge_error _ _ _ _ e h4
          have hl4 : lookup (α := JsonServer) (after4 js c).2 req = some js := by
            rw [lookup_jsonServers_congr c _ req (by rw [hc4, f3j])]
            exact hl
          rw [rp_fail4 req c js e hl hval h3 h4]
          obtain ⟨-, p2, p3, p4, -⟩ := publish_ok _ req js (failed js) hl4 hk
          have s3 := stable3 js c (publish (after4 js c).2 (failed js)).2 h3
            (by rw [p3, f4c])
          have s4 : converge (mutateDeployment js) (childKey js) (freshD js)
              (publish (after4 js c).2 (failed js)).2
                = (some e, (publish (after4 js c).2 (failed js)).2) :=
            converge_error_again _ _ _ (after3 js c).2 _ e h4
              (by show (publish (after4 js c).2 (failed js)).2.deployments _
                    = (after3 js c).2.deployments _
                  rw [p4, hc4])
          have s4' : after4 js (publish (after4 js c).2 (failed js)).2
              = (some e, (publish (after4 js c).2 (failed js)).2) := by
            show converge _ _ _ (after3 js (publish (after4 js c).2 (failed js)).2).2 = _
            rw [s3]
            exact s4
          rw [rp_fail4 req _ _ e p2 hval (by rw [after3_status, s3])
            (by rw [after4_status, s4'])]
          rw [after4_status, s4']
          dsimp only
          rw [publish_same _ req _ (failed { js with Status := (failed js).Status }) p2 hk rfl]
        | none =>
          cases h5 : (after5 js c).1 with
          | some e =>
            have hc5 : (after5 js c).2 = (after4 js c).2 := converge_error _ _ _ _ e h5
            have hl5 : lookup (α := JsonServer) (after5 js c).2 req = some js := by
              rw [lookup_jsonServers_congr c _ req (by rw [f5j, f4j, f3j])]
              exact hl
            rw [rp_fail5 req c js e hl hval h3 h4 h5]
            obtain ⟨-, p2, p3, p4, p5⟩ := publish_ok _ req js (failed js) hl5 hk
            have s3 := stable3 js c (publish (after5 js c).2 (failed js)).2 h3
              (by rw [p3, f5c, f4c])
            have s4 : after4 js (publish (after5 js c).2 (failed js)).2
                = (none, (publish (after5 js c).2 (failed js)).2) := by
              show converge _ _ _ (after3 js (publish (after5 js c).2 (failed js)).2).2 = _
              rw [s3]
              exact stable4 js c _ h4 (by rw [p4, f5d])
            have s5 : after5 js (publish (after5 js c).2 (failed js)).2
                = (some e, (publish (after5 js c).2 (failed js)).2) := by
              show converge _ _ _ (after4 js (publish (after5 js c).2 (failed js)).2).2 = _
              rw [s4]
              exact converge_error_again _ _ _ (after4 js c).2 _ e h5
                (by show (publish (after5 js c).2 (failed js)).2.services _
                      = (after4 js c).2.services _
                    rw [p5, hc5])
            rw [rp_fail5 req _ _ e p2 hval (by rw [after3_status, s3])
              (by rw [after4_status, s4]) (by rw [after5_status, s5])]
            rw [after5_status, s5]
            dsimp only
            rw [publish_same _ req _ (failed { js with Status := (failed js).Status }) p2 hk rfl]
          | none =>
            have hl5 : lookup (α := JsonServer) (after5 js c).2 req = some js := by
              rw [lookup_jsonServers_congr c _ req (by rw [f5j, f4j, f3j])]
              exact hl
            cases h6 : lookup (α := Deployment) (after5 js c).2 req with
            | none =>
              rw [rp_unread req c js hl hval h3 h4 h5 h6]
              obtain ⟨s3, s4, s5⟩ := stable_all js c (after5 js c).2 h3 h4 h5 rfl rfl rfl
              rw [rp_unread req _ js hl5 hval (by rw [s3]) (by rw [s4]) (by rw [s5])
                (by rw [s5]; exact h6)]
              rw [s5]
            | some d =>
              rw [rp_synced req c js d hl hval h3 h4 h5 h6]
              obtain ⟨p1, p2, p3, p4, p5⟩ := publish_ok _ req js (synced js d) hl5 hk
              obtain ⟨s3, s4, s5⟩ := stable_all js c (publish (after5 js c).2 (synced js d)).2
                h3 h4 h5 p3 p4 p5
              have h6' : lookup (α := Deployment) (publish (after5 js c).2 (synced js d)).2 req
                  = some d := by
                rw [lookup_deployments_congr _ _ req p4]
                exact h6
              rw [rp_synced req _ _ d p2 hval (by rw [after3_status, s3])
                (by rw [after4_status, s4]) (by rw [after5_status, s5])
                (by rw [after5_status, s5]; exact h6')]
              rw [after5_status, s5]
              dsimp only
              rw [publish_same _ req _ (synced { js with Status := (synced js d).Status } d)
                p2 hk rfl]
              exact Prod.ext p1.symm rfl

theorem StrMap.get_set (m : StrMap) (k v : String) : StrMap.get (StrMap.set m k v) k = some v := by
  induction m with
  | nil => simp [StrMap.set, StrMap.get]
  | cons p rest ih =>
    obtain ⟨k1, v1⟩ := p
    by_cases h : k1 = k
    · simp [StrMap.set, StrMap.get, h]
    · simp [StrMap.set, StrMap.get, h, ih]

theorem SetControllerReference_ok {α : Type} [ClientObject α] (js : JsonServer) (o : α)
    (hns : (getMeta o).Namespace = js.Namespace)
    (had : adoptable js (getMeta o).OwnerReferences = true) :
    (SetControllerReference js o).1 = none := by
  unfold SetControllerReference
  dsimp only
  rw [hns]
  have h1 : ¬ (js.Namespace ≠ "" ∧ js.Namespace = "") := fun h => h.1 h.2
  have h2 : ¬ (js.Namespace ≠ "" ∧ js.Namespace ≠ js.Namespace) := fun h => h.2 rfl
  rw [if_neg h1, if_neg h2]
  unfold adoptable at had
  split
  · rename_i existing hex
    rw [hex] at had
    dsimp only at had
    simp [had]
  · rfl

/-- A step succeeds when its mutate function succeeds on the fresh object and
on the stored one. -/
theorem converge_succeeds {α : Type} [ClientObject α] [DecidableEq α]
    (f : α → Option Err × α) (k : NamespacedName) (fresh : α) (c : Cluster)
    (h1 : (f fresh).1 = none) (h2 : ∀ ex, lookup (α := α) c k = some ex → (f ex).1 = none) :
    (converge f k fresh c).1 = none := by
  unfold converge
  split
  · rcases hf : f fresh with ⟨e1, o2⟩
    rw [hf] at h1
    dsimp only at h1
    subst h1
    rfl
  · rename_i ex hl
    have := h2 ex hl
    rcases hf : f ex with ⟨e1, o2⟩
    rw [hf] at this
    dsimp only at this
    subst this
    dsimp only
    split_ifs <;> rfl

theorem lookup_namespace {α : Type} [ClientObject α] [LawfulClientObject α] (c : Cluster)
    (k : NamespacedName) (o : α) (h : lookup c k = some o) :
    (getMeta o).Namespace = k.Namespace ∧ (getMeta o).Name = k.Name := by
  have := lookup_key c k o h
  rw [← this]
  exact ⟨rfl, rfl⟩

theorem adoptable_nil (js : JsonServer) : adoptable js [] = true := rfl

/-- On a store whose children, if any, can be taken over, the three steps of a
pass without injected failure succeed, and each leaves under the key an object
that its mutate function accepts unchanged; the Deployment keeps the observed
replica count. -/
theorem steps_succeed (req : NamespacedName) (c : Cluster) (js : JsonServer)
    (hl : lookup (α := JsonServer) c req = some js)
    (hcm : (lookup (α := ConfigMap) c req).all (fun o => adoptable js o.OwnerReferences) = true)
    (hd : (lookup (α := Deployment) c req).all (fun o => adoptable js o.OwnerReferences) = true)
    (hs : (lookup (α := Service) c req).all (fun o => adoptable js o.OwnerReferences) = true) :
    (after3 js c).1 = none ∧ (after4 js c).1 = none ∧ (after5 js c).1 = none
      ∧ ∃ cm d sv,
        lookup (α := ConfigMap) (after5 js c).2 req = some cm
          ∧ mutateConfigMap js cm = (none, cm)
          ∧ lookup (α := Deployment) (after5 js c).2 req = some d
          ∧ mutateDeployment js d = (none, d)
          ∧ d.Status.Replicas = observedReplicas c req
          ∧ lookup (α := Service) (after5 js c).2 req = some sv
          ∧ mutateService js sv = (none, sv) := by
  have hk : childKey js = req := childKey_of_lookup c req js hl
  obtain ⟨f3j, f3d, f3s⟩ := after3_frame js c
  obtain ⟨f4j, f4c, f4s⟩ := after4_frame js c
  obtain ⟨f5j, f5c, f5d⟩ := after5_frame js c
  -- the ConfigMap step
  have h3 : (after3 js c).1 = none := by
    apply converge_succeeds
    · exact SetControllerReference_ok js _ rfl (adoptable_nil js)
    · intro ex hex
      rw [hk] at hex
      rw [hex] at hcm
      have hns := (lookup_namespace c req ex hex).1
      rw [← hk] at hns
      exact SetControllerReference_ok js _ hns hcm
  obtain ⟨cm, lcm, fcm, -⟩ := converge_ok (mutateConfigMap js) (childKey js) (freshCM js) c rfl
    (mutateConfigMap_key js) (mutateConfigMap_idem js) h3
  -- the Deployment step
  have ld0 : lookup (α := Deployment) (after3 js c).2 req = lookup (α := Deployment) c req :=
    lookup_deployments_congr _ _ _ f3d
  have h4 : (after4 js c).1 = none := by
    apply converge_succeeds
    · exact SetControllerReference_ok js _ rfl (adoptable_nil js)
    · intro ex hex
      rw [hk, ld0] at hex
      rw [hex] at hd
      have hns := (lookup_namespace c req ex hex).1
      rw [← hk] at hns
      exact SetControllerReference_ok js _ hns hd
  obtain ⟨d, ld, fd, hdo⟩ := converge_ok (mutateDeployment js) (childKey js) (freshD js)
    (after3 js c).2 rfl (mutateDeployment_key js) (mutateDeployment_idem js) h4
  have hst : ∀ o, (mutateDeployment js o).2.Status = o.Status := fun o =>
    SetControllerReference_frame (fun (x : Deployment) => x.Status) (fun _ _ => rfl) js _
  have hrep : d.Status.Replicas = observedReplicas c req := by
    unfold observedReplicas
    rcases hdo with ⟨hn, hf⟩ | ⟨ex, he, hf⟩
    · rw [hk, ld0] at hn
      rw [hn]
      have := hst (freshD js)
      rw [hf] at this
      dsimp only at this ⊢
      rw [this]
    · rw [hk, ld0] at he
      rw [he]
      have := hst ex
      rw [hf] at this
      dsimp only at this ⊢
      rw [this]
  -- the Service step
  have ls0 : lookup (α := Service) (after4 js c).2 req = lookup (α := Service) c req :=
    lookup_services_congr _ _ _ (by rw [f4s, f3s])
  have h5 : (after5 js c).1 = none := by
    apply converge_succeeds
    · exact SetControllerReference_ok js _ rfl (adoptable_nil js)
    · intro ex hex
      rw [hk, ls0] at hex
      rw [hex] at hs
      have hns := (lookup_namespace c req ex hex).1
      rw [← hk] at hns
      exact SetControllerReference_ok js _ hns hs
  obtain ⟨sv, lsv, fsv, -⟩ := converge_ok (mutateService js) (childKey js) (freshS js)
    (after4 js c).2 rfl (mutateService_key js) (mutateService_idem js) h5
  refine ⟨h3, h4, h5, cm, d, sv, ?_, fcm, ?_, fd, hrep, ?_, fsv⟩
  · rw [lookup_configMaps_congr (after3 js c).2 (after5 js c).2 req (by rw [f5c, f4c]), ← hk]
    exact lcm
  · rw [lookup_deployments_congr (after4 js c).2 (after5 js c).2 req f5d, ← hk]
    exact ld
  · rw [← hk]
    exact lsv

/-- A valid label value is printed as the selector `app=<name>`. -/
theorem FormatLabelSelector_valid (name : String) (h : IsValidLabelValue name = true) :
    FormatLabelSelector name = "app=" ++ name := by
  simp [FormatLabelSelector, h]

end controller

/-! ## The reconciler: the claims -/

/-- C8, amended (the validation exit touches no child): for every pattern of
injected failures and every cluster state, if the pass ends with a status
update that carries the validation diagnostic, then that update carries
`status.state = "Error"`, the pass has issued exactly two cluster calls (the
read of the resource and that status update), and the ConfigMap, Deployment
and Service tables are as they were. -/
theorem validation_exit_touches_no_child (F : Faults) (req : NamespacedName) (w : World)
    (js1 : JsonServer)
    (hlast : (Reconcile F req w).2.log.getLast? = some (.statusUpdate js1))
    (hmsg : js1.Status.Message = invalidMessage) :
    js1.Status.State = "Error"
      ∧ (Reconcile F req w).2.log = w.log ++ [.get .jsonServer req, .statusUpdate js1]
      ∧ (Reconcile F req w).2.cluster.configMaps = w.cluster.configMaps
      ∧ (Reconcile F req w).2.cluster.deployments = w.cluster.deployments
      ∧ (Reconcile F req w).2.cluster.services = w.cluster.services := by
  revert hlast
  refine Reconcile_cases F req w (fun r => r.2.log.getLast? = some (.statusUpdate js1) →
    js1.Status.State = "Error"
      ∧ r.2.log = w.log ++ [.get .jsonServer req, .statusUpdate js1]
      ∧ r.2.cluster.configMaps = w.cluster.configMaps
      ∧ r.2.cluster.deployments = w.cluster.deployments
      ∧ r.2.cluster.services = w.cluster.services) ?_ ?_ ?_ ?_ ?_ ?_ ?_
  · intro err js w1 hg hlast
    have := Get_world_eq hg
    subst this
    simp [World.record] at hlast
  · intro js w1 hg _ hlast
    have := Get_world_eq hg
    subst this
    rw [StatusUpdate_getLast] at hlast
    simp at hlast
    subst hlast
    have hc := StatusUpdate_children F (withState js "Error" invalidMessage)
      (w.record (.get (ClientObject.kind JsonServer) req))
    refine ⟨rfl, ?_, hc.1, hc.2.1, hc.2.2⟩
    rw [StatusUpdate_log]
    simp [World.record, ClientObject.kind]
  · intro js w1 err w2 _ _ _ hlast
    exfalso
    simp only [failStep, StatusUpdate_getLast] at hlast
    simp at hlast
    subst hlast
    simp [withState, failureMessage, invalidMessage] at hmsg
  · intro js w1 w2 err d w3 _ _ _ _ hlast
    exfalso
    simp only [failStep, StatusUpdate_getLast] at hlast
    simp at hlast
    subst hlast
    simp [withState, failureMessage, invalidMessage] at hmsg
  · intro js w1 w2 d w3 err sv w4 _ _ _ _ _ hlast
    exfalso
    simp only [failStep, StatusUpdate_getLast] at hlast
    simp at hlast
    subst hlast
    simp [withState, failureMessage, invalidMessage] at hmsg
  · intro js w1 w2 d w3 sv w4 err d1 w5 _ _ _ _ _ h6 hlast
    have := Get_world_eq h6
    subst this
    simp [World.record] at hlast
  · intro js w1 w2 d w3 sv w4 d1 w5 _ _ _ _ _ _ hlast
    exfalso
    rw [StatusUpdate_getLast] at hlast
    simp at hlast
    subst hlast
    simp [synced, invalidMessage] at hmsg

/-- C8, amended, at `app-demo` with the malformed text `{"todos":` and no
injected failure. -/
theorem validation_exit_touches_no_child_witness :
    (withState (demoResource truncatedJson) "Error" invalidMessage).Status.State = "Error"
      ∧ (Reconcile noFaults demoKey (demoWorld truncatedJson)).2.log
        = (demoWorld truncatedJson).log ++ [.get .jsonServer demoKey,
            .statusUpdate (withState (demoResource truncatedJson) "Error" invalidMessage)]
      ∧ (Reconcile noFaults demoKey (demoWorld truncatedJson)).2.cluster.configMaps
        = (demoWorld truncatedJson).cluster.configMaps
      ∧ (Reconcile noFaults demoKey (demoWorld truncatedJson)).2.cluster.deployments
        = (demoWorld truncatedJson).cluster.deployments
      ∧ (Reconcile noFaults demoKey (demoWorld truncatedJson)).2.cluster.services
        = (demoWorld truncatedJson).cluster.services :=
  validation_exit_touches_no_child noFaults demoKey (demoWorld truncatedJson)
    (withState (demoResource truncatedJson) "Error" invalidMessage) (by decide) (by decide)

/-- C8 as stated fails: on `app-demo` with `{"todos":[]}`, when the first read
of the Deployment (the fourth cluster call) fails, the pass creates the
ConfigMap and then ends with `status.state = "Error"`, stored by a successful
status update. -/
theorem error_status_counterexample :
    (Reconcile (failAt 3) demoKey (demoWorld todosJson)).1 = some (.other "boom")
      ∧ (Reconcile (failAt 3) demoKey (demoWorld todosJson)).2.log
        = [.get .jsonServer demoKey, .get .configMap demoKey, .create .configMap demoKey,
           .get .deployment demoKey, .statusUpdate (failed (demoResource todosJson))]
      ∧ (demoStatus (Reconcile (failAt 3) demoKey (demoWorld todosJson)).2).map
          (fun st => st.State) = some "Error"
      ∧ (demoWorld todosJson).cluster.configMaps demoKey = none
      ∧ (((Reconcile (failAt 3) demoKey (demoWorld todosJson)).2.cluster.configMaps
          demoKey).map (fun cm => cm.Data)) = some [("db.json", todosJson)] := by
  decide

/-- C9 as stated fails: on `app-demo` with `{"todos":[]}`, when the status
update of step 6 (the eleventh cluster call) fails, `Reconcile` returns that
error, and the only status update the pass has attempted carries
`status.state = "Synced"`. -/
theorem failure_policy_counterexample :
    (Reconcile (failAt 10) demoKey (demoWorld todosJson)).1 = some (.other "boom")
      ∧ ((Reconcile (failAt 10) demoKey (demoWorld todosJson)).2.log.filter
          (fun c => match c with
            | .statusUpdate _ => true
            | _ => false))
        = [.statusUpdate
            { demoResource todosJson with
              Status := { State := "Synced", Message := "Synced succesfully!", Replicas := 0,
                          Selector := "app=app-demo" } }] := by
  decide

/-- C9, amended (failure policy of steps 3 to 5): on a pass that has read the
resource and found its configuration valid, when the ConfigMap step, the
Deployment step or the Service step ends in an error `e`, `Reconcile` returns
`e`, and the last cluster call of the pass, issued right after the failed
step, is a status update carrying `status.state = "Error"` and the generic
diagnostic. -/
theorem failure_policy (F : Faults) (req : NamespacedName) (w : World) (e : Err)
    (hget : (fetch F req w).1 = none)
    (hvalid : Json.Unmarshal (fetch F req w).2.1.Spec.JsonConfig .iface = none) :
    ((afterConfigMap F req w).1 = some e →
        (Reconcile F req w).1 = some e
          ∧ (Reconcile F req w).2.log
            = (afterConfigMap F req w).2.log ++ [.statusUpdate (failed (fetch F req w).2.1)])
      ∧ ((afterConfigMap F req w).1 = none → (afterDeployment F req w).1 = some e →
        (Reconcile F req w).1 = some e
          ∧ (Reconcile F req w).2.log
            = (afterDeployment F req w).2.2.log ++ [.statusUpdate (failed (fetch F req w).2.1)])
      ∧ ((afterConfigMap F req w).1 = none → (afterDeployment F req w).1 = none →
        (afterService F req w).1 = some e →
        (Reconcile F req w).1 = some e
          ∧ (Reconcile F req w).2.log
            = (afterService F req w).2.2.log ++ [.statusUpdate (failed (fetch F req w).2.1)])
      ∧ (failed (fetch F req w).2.1).Status.State = "Error"
      ∧ (failed (fetch F req w).2.1).Status.Message = "Error: json-server unexpected failure" := by
  refine ⟨?_, ?_, ?_, rfl, rfl⟩
  · intro h3
    refine Reconcile_cases F req w (fun r => r.1 = some e ∧ r.2.log
      = (afterConfigMap F req w).2.log ++ [.statusUpdate (failed (fetch F req w).2.1)])
      ?_ ?_ ?_ ?_ ?_ ?_ ?_
    all_goals intros
    all_goals simp_all [fetch, afterConfigMap, afterDeployment, afterService, failStep,
      StatusUpdate_log, failed]
  · intro h3 h4
    refine Reconcile_cases F req w (fun r => r.1 = some e ∧ r.2.log
      = (afterDeployment F req w).2.2.log ++ [.statusUpdate (failed (fetch F req w).2.1)])
      ?_ ?_ ?_ ?_ ?_ ?_ ?_
    all_goals intros
    all_goals simp_all [fetch, afterConfigMap, afterDeployment, afterService, failStep,
      StatusUpdate_log, failed]
  · intro h3 h4 h5
    refine Reconcile_cases F req w (fun r => r.1 = some e ∧ r.2.log
      = (afterService F req w).2.2.log ++ [.statusUpdate (failed (fetch F req w).2.1)])
      ?_ ?_ ?_ ?_ ?_ ?_ ?_
    all_goals intros
    all_goals simp_all [fetch, afterConfigMap, afterDeployment, afterService, failStep,
      StatusUpdate_log, failed]

/-- C7 (idempotence): for every cluster state and every resource identity,
when no cluster call is made to fail, a second `Reconcile` pass run right
after a first one returns the same error and leaves the store (every
ConfigMap, Deployment, Service and resource, status included) exactly as the
first pass left it. -/
theorem reconcile_idempotent (req : NamespacedName) (w : World) :
    (Reconcile noFaults req (Reconcile noFaults req w).2).1 = (Reconcile noFaults req w).1
      ∧ (Reconcile noFaults req (Reconcile noFaults req w).2).2.cluster.jsonServers
        = (Reconcile noFaults req w).2.cluster.jsonServers
      ∧ (Reconcile noFaults req (Reconcile noFaults req w).2).2.cluster.configMaps
        = (Reconcile noFaults req w).2.cluster.configMaps
      ∧ (Reconcile noFaults req (Reconcile noFaults req w).2).2.cluster.deployments
        = (Reconcile noFaults req w).2.cluster.deployments
      ∧ (Reconcile noFaults req (Reconcile noFaults req w).2).2.cluster.services
        = (Reconcile noFaults req w).2.cluster.services := by
  have h1 := Reconcile_noFaults req w
  have h2 := Reconcile_noFaults req (Reconcile noFaults req w).2
  have h3 := reconcilePure_idem req w.cluster
  rw [h1.2, h3] at h2
  rw [h2.1, h2.2, h1.1, h1.2]
  exact ⟨rfl, rfl, rfl, rfl, rfl⟩

/-- C5, amended (happy path): let the store hold, under `req`, a resource whose
`spec.jsonConfig` is a JSON object of the grammar of RFC 8259, nested at most
10000 deep, each number of which has at most 800 digits before the exponent,
at most four exponent digits and a magnitude below `2 ^ 1024 - 2 ^ 970`, with
`spec.replicas` and `spec.image` unset, let `req.Name` be a valid label value,
and let no ConfigMap, Deployment or Service stored under `req` be controlled by
another object.  Then a pass in which no cluster call is made to fail returns
no error and leaves, under `req`: a ConfigMap whose `db.json` is
`spec.jsonConfig` verbatim; a Deployment with replica count 1, pod-template
labels `{app: <name>}` and one container running `backplane/json-server` on
port 3000; a Service with the single port 3000/TCP and selector
`{app: <name>}`; and the status `Synced` with selector `app=<name>` and, as
replica count, the count observed on the Deployment (zero when the pass
created it). -/
theorem happy_path (req : NamespacedName) (w : World) (js : JsonServer)
    (hget : lookup (α := JsonServer) w.cluster req = some js)
    (hobj : Json.ObjectText (fun n => n.fits = true) Json.maxNestingDepth js.Spec.JsonConfig)
    (hrep : js.Spec.Replicas = none) (himg : js.Spec.Image = "")
    (hname : IsValidLabelValue req.Name = true)
    (hcm : (lookup (α := ConfigMap) w.cluster req).all
      (fun o => adoptable js o.OwnerReferences) = true)
    (hd : (lookup (α := Deployment) w.cluster req).all
      (fun o => adoptable js o.OwnerReferences) = true)
    (hs : (lookup (α := Service) w.cluster req).all
      (fun o => adoptable js o.OwnerReferences) = true) :
    (Reconcile noFaults req w).1 = none
      ∧ (∃ cm, lookup (α := ConfigMap) (Reconcile noFaults req w).2.cluster req = some cm
          ∧ cm.Data.get "db.json" = some js.Spec.JsonConfig)
      ∧ (∃ d, lookup (α := Deployment) (Reconcile noFaults req w).2.cluster req = some d
          ∧ d.Spec.Replicas = some 1
          ∧ d.Spec.Template.Labels = [("app", req.Name)]
          ∧ d.Spec.Template.Spec.Containers
            = [{ Name := "json-server", Image := "backplane/json-server",
                 ImagePullPolicy := "IfNotPresent", Args := ["/data/db.json"],
                 Ports := [{ ContainerPort := 3000 }],
                 VolumeMounts := [{ Name := "data", MountPath := "/data" }] }])
      ∧ (∃ sv, lookup (α := Service) (Reconcile noFaults req w).2.cluster req = some sv
          ∧ sv.Spec.Ports = [{ Name := "", Protocol := "TCP", Port := 3000, TargetPort := 3000,
                               NodePort := 0 }]
          ∧ sv.Spec.Selector = [("app", req.Name)])
      ∧ (∃ js1, lookup (α := JsonServer) (Reconcile noFaults req w).2.cluster req = some js1
          ∧ js1.Status = { State := "Synced", Message := "Synced succesfully!",
                           Replicas := observedReplicas w.cluster req,
                           Selector := "app=" ++ req.Name }) := by
  have hk : childKey js = req := childKey_of_lookup _ req js hget
  have hnm : js.Name = req.Name := by rw [← hk]; rfl
  have hval : (Json.Unmarshal js.Spec.JsonConfig .iface).isSome = false := by
    have hv : Json.checkValid js.Spec.JsonConfig = true :=
      (Json.objectText_isObject _ _ _ (Nat.le_refl _) hobj).1
    have hfit := Json.objectText_numbersFit _ _ hobj
    simp [Json.Unmarshal, hv, hfit]
  obtain ⟨h3, h4, h5, cm, d, sv, lcm, fcm, ld, fd, hobs, lsv, fsv⟩ :=
    steps_succeed req w.cluster js hget hcm hd hs
  obtain ⟨-, f5c, f5d⟩ := after5_frame js w.cluster
  obtain ⟨f5j, -, -⟩ := after5_frame js w.cluster
  obtain ⟨f4j, -, -⟩ := after4_frame js w.cluster
  obtain ⟨f3j, -, -⟩ := after3_frame js w.cluster
  have hl5 : lookup (α := JsonServer) (after5 js w.cluster).2 req = some js := by
    rw [lookup_jsonServers_congr w.cluster _ req (by rw [f5j, f4j, f3j])]
    exact hget
  obtain ⟨p1, p2, p3, p4, p5⟩ := publish_ok _ req js (synced js d) hl5 hk
  obtain ⟨r1, r2⟩ := Reconcile_noFaults req w
  rw [rp_synced req w.cluster js d hget hval h3 h4 h5 ld] at r1 r2
  rw [r1, r2]
  have hdspec : d.Spec = (desiredDeploy js).Spec := by
    have := SetControllerReference_frame (fun (o : Deployment) => o.Spec) (fun _ _ => rfl) js
      { d with Labels := labels js.Name, Spec := (desiredDeploy js).Spec }
    unfold mutateDeployment at fd
    rw [fd] at this
    exact this
  have hsspec : sv.Spec = (desiredSvc js).Spec := by
    have := SetControllerReference_frame (fun (o : Service) => o.Spec) (fun _ _ => rfl) js
      { sv with Spec := (desiredSvc js).Spec }
    unfold mutateService at fsv
    rw [fsv] at this
    exact this
  refine ⟨p1, ⟨cm, ?_, ?_⟩, ⟨d, ?_, ?_, ?_, ?_⟩, ⟨sv, ?_, ?_, ?_⟩, ⟨_, p2, ?_⟩⟩
  · rw [lookup_configMaps_congr _ _ req p3]
    exact lcm
  · have := SetControllerReference_frame (fun (o : ConfigMap) => o.Data) (fun _ _ => rfl) js
      { cm with Data := cm.Data.set "db.json" js.Spec.JsonConfig }
    unfold mutateConfigMap at fcm
    rw [fcm] at this
    dsimp only at this
    rw [this]
    exact StrMap.get_set _ _ _
  · rw [lookup_deployments_congr _ _ req p4]
    exact ld
  · rw [hdspec]
    simp [desiredDeploy, hrep]
  · rw [hdspec]
    simp [desiredDeploy, labels, hnm]
  · rw [hdspec]
    simp [desiredDeploy, himg]
  · rw [lookup_services_congr _ _ req p5]
    exact lsv
  · rw [hsspec]
    simp [desiredSvc]
  · rw [hsspec]
    simp [desiredSvc, labels, hnm]
  · show (synced js d).Status = _
    simp only [synced]
    rw [hobs, hnm, FormatLabelSelector_valid req.Name hname]

/-- C5, amended, at the spec's scenario: `app-demo` with `{"todos":[]}` in a
store that holds no child yet. -/
theorem happy_path_witness :
    (Reconcile noFaults demoKey (demoWorld todosJson)).1 = none
      ∧ (∃ cm, lookup (α := ConfigMap)
            (Reconcile noFaults demoKey (demoWorld todosJson)).2.cluster demoKey = some cm
          ∧ cm.Data.get "db.json" = some (demoResource todosJson).Spec.JsonConfig)
      ∧ (∃ d, lookup (α := Deployment)
            (Reconcile noFaults demoKey (demoWorld todosJson)).2.cluster demoKey = some d
          ∧ d.Spec.Replicas = some 1
          ∧ d.Spec.Template.Labels = [("app", demoKey.Name)]
          ∧ d.Spec.Template.Spec.Containers
            = [{ Name := "json-server", Image := "backplane/json-server",
                 ImagePullPolicy := "IfNotPresent", Args := ["/data/db.json"],
                 Ports := [{ ContainerPort := 3000 }],
                 VolumeMounts := [{ Name := "data", MountPath := "/data" }] }])
      ∧ (∃ sv, lookup (α := Service)
            (Reconcile noFaults demoKey (demoWorld todosJson)).2.cluster demoKey = some sv
          ∧ sv.Spec.Ports = [{ Name := "", Protocol := "TCP", Port := 3000, TargetPort := 3000,
                               NodePort := 0 }]
          ∧ sv.Spec.Selector = [("app", demoKey.Name)])
      ∧ (∃ js1, lookup (α := JsonServer)
            (Reconcile noFaults demoKey (demoWorld todosJson)).2.cluster demoKey = some js1
          ∧ js1.Status = { State := "Synced", Message := "Synced succesfully!",
                           Replicas := observedReplicas (demoWorld todosJson).cluster demoKey,
                           Selector := "app=" ++ demoKey.Name }) :=
  happy_path demoKey (demoWorld todosJson) (demoResource todosJson)
    (by decide) (todosJson_objectText _) (by decide) (by decide) (by decide) (by decide)
    (by decide) (by decide)

/-- C5 as stated fails at its own scenario: for `app-demo` with `{"todos":[]}`,
`spec.replicas` and `spec.image` unset, in a store that holds no child yet, a
pass in which every cluster call succeeds returns no error and stores the
status `Synced` with replica count 0, not 1: the count is the one observed on
the Deployment the pass has just created. -/
theorem happy_path_counterexample :
    HasPrefix (demoResource todosJson).Name "app-" = true
      ∧ Json.IsObject todosJson
      ∧ (demoResource todosJson).Spec.Replicas = none
      ∧ (demoResource todosJson).Spec.Image = ""
      ∧ (Reconcile noFaults demoKey (demoWorld todosJson)).1 = none
      ∧ demoStatus (Reconcile noFaults demoKey (demoWorld todosJson)).2
        = some { State := "Synced", Message := "Synced succesfully!", Replicas := 0,
                 Selector := "app=app-demo" }
      ∧ (demoStatus (Reconcile noFaults demoKey (demoWorld todosJson)).2).map
          (fun st => st.Replicas) ≠ some 1 := by
  decide

/-- C9, amended, at `app-demo` with `{"todos":[]}`: the read inside the
ConfigMap step fails (second cluster call), the first read of the Deployment
fails (fourth call), the first read of the Service fails (seventh call). -/
theorem failure_policy_witness :
    ((Reconcile (failAt 1) demoKey (demoWorld todosJson)).1 = some (.other "boom")
        ∧ (Reconcile (failAt 1) demoKey (demoWorld todosJson)).2.log
          = (afterConfigMap (failAt 1) demoKey (demoWorld todosJson)).2.log
            ++ [.statusUpdate (failed (fetch (failAt 1) demoKey (demoWorld todosJson)).2.1)])
      ∧ ((Reconcile (failAt 3) demoKey (demoWorld todosJson)).1 = some (.other "boom")
        ∧ (Reconcile (failAt 3) demoKey (demoWorld todosJson)).2.log
          = (afterDeployment (failAt 3) demoKey (demoWorld todosJson)).2.2.log
            ++ [.statusUpdate (failed (fetch (failAt 3) demoKey (demoWorld todosJson)).2.1)])
      ∧ ((Reconcile (failAt 6) demoKey (demoWorld todosJson)).1 = some (.other "boom")
        ∧ (Reconcile (failAt 6) demoKey (demoWorld todosJson)).2.log
          = (afterService (failAt 6) demoKey (demoWorld todosJson)).2.2.log
            ++ [.statusUpdate (failed (fetch (failAt 6) demoKey (demoWorld todosJson)).2.1)]) :=
  ⟨(failure_policy (failAt 1) demoKey (demoWorld todosJson) (.other "boom")
      (by decide) (by decide)).1 (by decide),
   (failure_policy (failAt 3) demoKey (demoWorld todosJson) (.other "boom")
      (by decide) (by decide)).2.1 (by decide) (by decide),
   (failure_policy (failAt 6) demoKey (demoWorld todosJson) (.other "boom")
      (by decide) (by decide)).2.2.1 (by decide) (by decide) (by decide)⟩

/-- On a stored resource whose `spec.jsonConfig` is not valid JSON, a pass
whose status update succeeds returns no error, has issued the read of the
resource and a status update carrying `status.state = "Error"` with the
validation diagnostic and nothing else, and leaves the ConfigMap, Deployment
and Service tables as they were. -/
theorem reconcile_rejects_malformed (F : Faults) (req : NamespacedName) (w : World)
    (hget : (fetch F req w).1 = none)
    (hbad : Json.Valid (fetch F req w).2.1.Spec.JsonConfig = false)
    (hupd : (StatusUpdate F (withState (fetch F req w).2.1 "Error" invalidMessage)
      (fetch F req w).2.2).1 = none) :
    (Reconcile F req w).1 = none
      ∧ (Reconcile F req w).2.log
        = w.log ++ [.get .jsonServer req,
            .statusUpdate (withState (fetch F req w).2.1 "Error" invalidMessage)]
      ∧ (Reconcile F req w).2.cluster.configMaps = w.cluster.configMaps
      ∧ (Reconcile F req w).2.cluster.deployments = w.cluster.deployments
      ∧ (Reconcile F req w).2.cluster.services = w.cluster.services := by
  have hinv : (Json.Unmarshal (fetch F req w).2.1.Spec.JsonConfig .iface).isSome = true := by
    have hv : Json.checkValid (fetch F req w).2.1.Spec.JsonConfig = false := hbad
    simp [Json.Unmarshal, hv]
  refine Reconcile_cases F req w (fun r => r.1 = none
      ∧ r.2.log = w.log ++ [.get .jsonServer req,
          .statusUpdate (withState (fetch F req w).2.1 "Error" invalidMessage)]
      ∧ r.2.cluster.configMaps = w.cluster.configMaps
      ∧ r.2.cluster.deployments = w.cluster.deployments
      ∧ r.2.cluster.services = w.cluster.services) ?_ ?_ ?_ ?_ ?_ ?_ ?_
  · intro err js w1 hg
    simp [fetch, hg] at hget
  · intro js w1 hg _
    have hw := controller.Get_world_eq hg
    subst hw
    simp only [fetch, hg] at hupd ⊢
    have hc := controller.StatusUpdate_children F (withState js "Error" invalidMessage)
      (w.record (.get (ClientObject.kind JsonServer) req))
    refine ⟨hupd, ?_, hc.1, hc.2.1, hc.2.2⟩
    rw [controller.StatusUpdate_log]
    simp [World.record, ClientObject.kind]
  all_goals
    intros
    simp_all [fetch]

/-- C4 (a stored resource whose `spec.jsonConfig` is not a JSON object ends in
`status.state = "Error"` with no child touched), evaluated at
`spec.jsonConfig = "[1,2,3]"` with every cluster call succeeding: the text is
valid JSON and not an object, yet `Reconcile` returns no error, stores
`status.state = "Synced"`, and creates the ConfigMap, the Deployment and the
Service. -/
theorem reconcile_converges_on_array :
    Json.Valid "[1,2,3]" = true
      ∧ ¬ Json.IsObject "[1,2,3]"
      ∧ (Reconcile noFaults demoKey (demoWorld "[1,2,3]")).1 = none
      ∧ demoStatus (Reconcile noFaults demoKey (demoWorld "[1,2,3]")).2
        = some { State := "Synced", Message := "Synced succesfully!", Replicas := 0,
                 Selector := "app=app-demo" }
      ∧ (((Reconcile noFaults demoKey (demoWorld "[1,2,3]")).2.cluster.configMaps demoKey).map
          (fun cm => cm.Data)) = some [("db.json", "[1,2,3]")]
      ∧ ((Reconcile noFaults demoKey (demoWorld "[1,2,3]")).2.cluster.deployments demoKey).isSome
        = true
      ∧ ((Reconcile noFaults demoKey (demoWorld "[1,2,3]")).2.cluster.services demoKey).isSome
        = true := by
  decide

/-- C10 as stated fails: on the existing Service `nodePortService` the service
mutation resets `Type`, `ClusterIP` and `SessionAffinity` to their zero values. -/
theorem service_frame_counterexample :
    nodePortService.Spec.Type_ = "NodePort"
      ∧ nodePortService.Spec.ClusterIP = "10.0.0.7"
      ∧ nodePortService.Spec.SessionAffinity = "ClientIP"
      ∧ (mutateService (demoResource emptyJson) nodePortService).1 = none
      ∧ (mutateService (demoResource emptyJson) nodePortService).2.Spec.Type_ = ""
      ∧ (mutateService (demoResource emptyJson) nodePortService).2.Spec.ClusterIP = ""
      ∧ (mutateService (demoResource emptyJson) nodePortService).2.Spec.SessionAffinity = "" := by
  decide

/-- C10, amended (service convergence): the service mutation replaces the
whole Service spec by the desired one, whose selector is `{app: <name>}`,
whose single port is 3000/TCP with target port 3000, and whose other fields
are zero; it leaves the name, namespace, UID and labels of the existing
Service unchanged.  When it succeeds, the owner references are those of the
existing Service with the controller reference to the resource put in
(`upsertOwnerRef`); when it returns an error, they are unchanged.  It succeeds
exactly when the resource has no namespace or the namespace of the Service,
and the Service has no controller or one that is the resource. -/
theorem service_mutation_replaces_spec (js : JsonServer) (svc : Service) :
    (mutateService js svc).2.Spec
        = { Ports := [{ Name := "", Protocol := "TCP", Port := 3000, TargetPort := 3000,
                        NodePort := 0 }],
            Selector := [("app", js.Name)],
            ClusterIP := "", Type_ := "", SessionAffinity := "" }
      ∧ (mutateService js svc).2.Name = svc.Name
      ∧ (mutateService js svc).2.Namespace = svc.Namespace
      ∧ (mutateService js svc).2.UID = svc.UID
      ∧ (mutateService js svc).2.Labels = svc.Labels
      ∧ (mutateService js svc).2.OwnerReferences
        = (if (mutateService js svc).1 = none
            then upsertOwnerRef (controllerRef js) svc.OwnerReferences
            else svc.OwnerReferences)
      ∧ ((mutateService js svc).1 = none ↔
          (js.Namespace = "" ∨ js.Namespace = svc.Namespace)
            ∧ (GetControllerOf svc.OwnerReferences).all
                (fun existing => referSameObject existing (controllerRef js)) = true) := by
  unfold mutateService SetControllerReference
  simp only [ClientObject.getMeta, ClientObject.setMeta]
  split_ifs <;> (try split) <;> (try split_ifs) <;> simp_all [desiredSvc, labels] <;> tauto

/-- C10, amended, at two existing Services `default/app-demo`: on
`nodePortService`, which has no owner, the mutation succeeds and the owner
references become the controller reference to the resource; on
`adoptedService`, which another object controls, the mutation returns
`alreadyOwned`, leaves the owner references unchanged and has still replaced
the spec. -/
theorem service_mutation_replaces_spec_witness :
    ((mutateService (demoResource emptyJson) nodePortService).1 = none
        ∧ (mutateService (demoResource emptyJson) nodePortService).2.OwnerReferences
          = [controllerRef (demoResource emptyJson)])
      ∧ ((mutateService (demoResource emptyJson) adoptedService).1 = some .alreadyOwned
        ∧ (mutateService (demoResource emptyJson) adoptedService).2.OwnerReferences
          = adoptedService.OwnerReferences
        ∧ (mutateService (demoResource emptyJson) adoptedService).2.Spec.Type_ = "") :=
  ⟨⟨by decide,
    (service_mutation_replaces_spec (demoResource emptyJson) nodePortService).2.2.2.2.2.1.trans
      (by decide)⟩,
   ⟨by decide,
    (service_mutation_replaces_spec (demoResource emptyJson) adoptedService).2.2.2.2.2.1.trans
      (by decide),
    by decide⟩⟩

end JsonServerController
